import Mathlib

/-!
# Chart-data pipeline of `static/js/components/grafik_manager.js`

A shallow embedding of the `GrafikManager` component: the health-metrics
payload, the length normaliser `normalizeLen`, the render gates of
`fetchHealthMetrics` / `fetchWellUnwellSummary`, `prepareHealthChart`,
the card aggregator `updateHealthMetricsValues` and `updateMetricOpacity`.

Modelling conventions
* A JavaScript number is a `JsNum`: a finite IEEE-754 binary64 value (kept
  as the rational it is), an infinity or `NaN`.  `roundDouble` rounds a real
  number to binary64 (nearest, ties to even, overflow to an infinity); `+`
  and `/` round their exact result with it, `Number::toString` and
  `toFixed` follow ECMAScript.  The sign of zero is not kept: no expression
  of the component tells `-0` from `0`.
* A JavaScript value is a `JsVal`.  `JsVal.num q` is the number that a JSON
  text or a literal writes as the decimal `q`; its value is `roundDouble q`.
  `NaN` is a value of its own (`JsVal.nan`).
* A string is a Lean `String` (a sequence of characters).
* Component state (`this.…`) is an explicit record `State`; every method is
  a function `State → … → State`.
* Console output, `sendDiagnosticLog` (fire and forget) and the
  `Vue.nextTick` icon refresh do not touch the component state and are
  left out.
-/

namespace GrafikManager

/-! ## JavaScript numbers -/

/-- A JavaScript number: a finite binary64 value, an infinity (`neg` for
`-Infinity`) or `NaN`. -/
inductive JsNum where
  | fin (q : ℚ)
  | inf (neg : Bool)
  | nan
  deriving DecidableEq

/-- The power `2 ^ e` for an integer exponent. -/
def pow2 (e : ℤ) : ℚ :=
  if 0 ≤ e then (2 : ℚ) ^ e.toNat else 1 / (2 : ℚ) ^ (-e).toNat

/-- The power `10 ^ e` for an integer exponent. -/
def pow10 (e : ℤ) : ℚ :=
  if 0 ≤ e then (10 : ℚ) ^ e.toNat else 1 / (10 : ℚ) ^ (-e).toNat

/-- The number of binary digits of `n`. -/
def bitLength (n : Nat) : Nat := (Nat.toDigits 2 n).length

/-- The exponent `e` with `2 ^ e ≤ a < 2 ^ (e + 1)`, for `a > 0`: the
difference of the bit lengths of numerator and denominator, or one less. -/
def floorLog2 (a : ℚ) : ℤ :=
  let e0 : ℤ := (bitLength a.num.natAbs : ℤ) - (bitLength a.den : ℤ)
  if pow2 e0 ≤ a then e0 else e0 - 1

/-- Rounding to the nearest integer, a tie going to the even one. -/
def roundHalfEven (x : ℚ) : ℤ :=
  let f : ℤ := ⌊x⌋
  let d : ℚ := x - f
  if d < 1 / 2 then f
  else if 1 / 2 < d then f + 1
  else if f % 2 = 0 then f
  else f + 1

/-- The binary64 value nearest to `a > 0` (ties to even): 53 significant
bits from `2 ^ -1022` on, multiples of `2 ^ -1074` below; `none` when the
rounded value reaches `2 ^ 1024` (overflow). -/
def roundDoubleAbs (a : ℚ) : Option ℚ :=
  let e : ℤ := max (floorLog2 a) (-1022)
  let ulp : ℚ := pow2 (e - 52)
  let r : ℚ := (roundHalfEven (a / ulp) : ℚ) * ulp
  if pow2 1024 ≤ r then none else some r

/-- The Number value of a real number: the nearest binary64 value, an
infinity on overflow. -/
def roundDouble (q : ℚ) : JsNum :=
  if q = 0 then JsNum.fin 0
  else
    match roundDoubleAbs |q| with
    | none => JsNum.inf (decide (q < 0))
    | some r => JsNum.fin (if q < 0 then -r else r)

namespace JsNum

/-- The operator `a + b` on numbers. -/
def add : JsNum → JsNum → JsNum
  | fin a, fin b => roundDouble (a + b)
  | fin _, inf s => inf s
  | inf s, fin _ => inf s
  | inf s, inf t => if s = t then inf s else nan
  | nan, _ => nan
  | _, nan => nan

/-- The operator `a / n` for a count `n` that is not zero. -/
def divCount : JsNum → Nat → JsNum
  | fin a, n => roundDouble (a / (n : ℚ))
  | inf s, _ => inf s
  | nan, _ => nan

/-- The operator `a < b` on numbers (`false` when either is `NaN`). -/
def lt : JsNum → JsNum → Bool
  | fin a, fin b => decide (a < b)
  | fin _, inf t => !t
  | inf s, fin _ => s
  | inf s, inf t => s && !t
  | nan, _ => false
  | _, nan => false

end JsNum

/-- The number of decimal digits of a natural number. -/
def digitCount (n : Nat) : Nat := (Nat.toDigits 10 n).length

/-- The number of zeros between the decimal point and the first digit of
`0 < v < 1`, searched up to `fuel` places from `z`. -/
def leadingZeros : Nat → Nat → ℚ → Nat
  | 0, z, _ => z
  | fuel + 1, z, v => if 1 ≤ v * (10 : ℚ) ^ (z + 1) then z else leadingZeros fuel (z + 1) v

/-- The exponent `n` with `10 ^ (n - 1) ≤ v < 10 ^ n`, for a binary64
`v > 0` (the smallest of which is above `10 ^ -324`). -/
def decimalExponent (v : ℚ) : ℤ :=
  if 1 ≤ v then (digitCount (⌊v⌋ : ℤ).toNat : ℤ)
  else -((leadingZeros 400 0 v : Nat) : ℤ)

/-- The triple `(s, k, n)` of `Number::toString` for a binary64 `v > 0`: the
decimal `s × 10 ^ (n - k)` with the fewest digits `k` whose Number value is
`v`.  The lengths `k`, `k + 1`, … are tried in turn (`fuel` counts the ones
left; 17 digits always suffice).  For a length `k` the two `k`-digit decimals
around `v` are the only candidates; when both convert to `v` the closer one
is taken, the even one on a tie.  `n0` is the decimal exponent of `v`; a
candidate that is the power `10 ^ n0` has exponent `n0 + 1`. -/
def shortestDigits : Nat → Nat → ℤ → ℚ → Nat × Nat × ℤ
  | 0, k, n0, v => ((⌊v / pow10 (n0 - k)⌋ : ℤ).toNat, k, n0)
  | fuel + 1, k, n0, v =>
    let g : ℚ := pow10 (n0 - k)
    let c1 : ℤ := ⌊v / g⌋
    let c2 : ℤ := c1 + 1
    let ok1 : Bool := decide (roundDouble ((c1 : ℚ) * g) = JsNum.fin v)
    let ok2 : Bool := decide (roundDouble ((c2 : ℚ) * g) = JsNum.fin v)
    if ok1 || ok2 then
      let s : ℤ :=
        if ok1 && ok2 then
          (if v - c1 * g < c2 * g - v then c1
           else if c2 * g - v < v - c1 * g then c2
           else if c1 % 2 = 0 then c1 else c2)
        else if ok1 then c1 else c2
      if s = (10 : ℤ) ^ k then ((s / 10).toNat, k, n0 + 1) else (s.toNat, k, n0)
    else shortestDigits fuel (k + 1) n0 v

/-- A run of `n` zeros. -/
def zeros (n : Nat) : String := String.mk (List.replicate n '0')

/-- `Number::toString` of a binary64 `v > 0`: with the digits `s`, their
number `k` and the exponent `n`, the digits followed by zeros when
`k ≤ n ≤ 21`, the digits with a point after the first `n` when `0 < n ≤ 21`,
`0.` and `-n` zeros before the digits when `-6 < n ≤ 0`, and exponent
notation otherwise. -/
def positiveToString (v : ℚ) : String :=
  let r := shortestDigits 17 1 (decimalExponent v) v
  let ds : List Char := Nat.toDigits 10 r.1
  let k : ℤ := (r.2.1 : ℤ)
  let n : ℤ := r.2.2
  if k ≤ n ∧ n ≤ 21 then String.mk ds ++ zeros (n - k).toNat
  else if 0 < n ∧ n ≤ 21 then
    String.mk (ds.take n.toNat) ++ "." ++ String.mk (ds.drop n.toNat)
  else if -6 < n ∧ n ≤ 0 then "0." ++ zeros (-n).toNat ++ String.mk ds
  else
    let e : ℤ := n - 1
    let tail : String := "e" ++ (if e < 0 then "-" else "+") ++ toString e.natAbs
    if k = 1 then String.mk ds ++ tail
    else String.mk (ds.take 1) ++ "." ++ String.mk (ds.drop 1) ++ tail

/-- `Number::toString`: the string a template literal or `String(…)` gives
for a number. -/
def numberToString : JsNum → String
  | JsNum.nan => "NaN"
  | JsNum.inf s => if s then "-Infinity" else "Infinity"
  | JsNum.fin q =>
    if q = 0 then "0"
    else if q < 0 then "-" ++ positiveToString (-q)
    else positiveToString q

/-- The string a template literal or `String(…)` gives for the number written
as `q`. -/
def jsNumberToString (q : ℚ) : String := numberToString (roundDouble q)

/-- The expression `Number(x.toFixed(1))`: `toFixed(1)` takes the integer
`n` with `n / 10` closest to `|x|` (the larger one on a tie), restores the
sign and prints `n / 10` with one decimal, and `Number` reads the decimal
back; from `1e21` on `toFixed` prints the number as `String` does, so that
`Number` gives it back; an infinity and `NaN` come back as they are. -/
def numberToFixed1 : JsNum → JsNum
  | JsNum.nan => JsNum.nan
  | JsNum.inf s => JsNum.inf s
  | JsNum.fin x =>
    if (10 : ℚ) ^ 21 ≤ |x| then JsNum.fin x
    else roundDouble ((if x < 0 then -1 else 1) * ((⌊|x| * 10 + 1 / 2⌋ : ℤ) : ℚ) / 10)

/-! ## JavaScript values -/

/-- A JavaScript value as it can arrive in a decoded JSON body or sit in
component state.  `num q` is the number written as `q`, whose value is
`roundDouble q` (every number other than `NaN` can be written so: a finite
one as itself, an infinity as a decimal out of range). -/
inductive JsVal where
  | null
  | undefined
  | bool (b : Bool)
  | num (q : ℚ)
  | nan
  | str (s : String)
  | arr (xs : List JsVal)
  | obj (kvs : List (String × JsVal))

namespace JsVal

/-- Truthiness, as used by `||`, `&&` and `?:`. -/
def truthy : JsVal → Bool
  | null => false
  | undefined => false
  | bool b => b
  | num q => decide (roundDouble q ≠ JsNum.fin 0)
  | nan => false
  | str s => decide (s ≠ "")
  | arr _ => true
  | obj _ => true

/-- The test `Array.isArray(v)`. -/
def isArray : JsVal → Bool
  | arr _ => true
  | _ => false

/-- The elements of an array value (`[]` for anything that is not an array). -/
def elems : JsVal → List JsVal
  | arr xs => xs
  | _ => []

/-- The test `typeof v === 'number'`. -/
def isNumberType : JsVal → Bool
  | num _ => true
  | nan => true
  | _ => false

/-- The test `Number.isNaN(v)`. -/
def isNaN : JsVal → Bool
  | nan => true
  | _ => false

/-- The test `v != null` (loose: excludes `null` and `undefined`). -/
def notNullish : JsVal → Bool
  | null => false
  | undefined => false
  | _ => true

/-- The value of a number (`0` for what is not a number; only read after the
`typeof` test). -/
def numVal : JsVal → JsNum
  | num q => roundDouble q
  | nan => JsNum.nan
  | _ => JsNum.fin 0

/-- The operator `a || b`. -/
def orElse (a b : JsVal) : JsVal := if a.truthy then a else b

end JsVal

/-! ## Constants and the metric registry -/

/-- Source constant `MAX_SAFE_POINTS`. -/
def MAX_SAFE_POINTS : Nat := 5000

/-- One entry of `METRIC_CONFIG`. -/
structure MetricCfg where
  threshold : ℚ
  label : String
  color : String

/-- The entries of the object literal `METRIC_CONFIG`, that is its own
properties (`none`: the literal has no entry of that name).  What the
property read `METRIC_CONFIG[name]` gives is `metricConfigGet`. -/
def METRIC_CONFIG (name : String) : Option MetricCfg :=
  if name = "Gula Darah Puasa" then some ⟨126, "Tinggi", "#f87171"⟩
  else if name = "Gula Darah Sewaktu" then some ⟨200, "Tinggi", "#dc2626"⟩
  else if name = "Tekanan Darah" then some ⟨140, "Tinggi", "#ef4444"⟩
  else if name = "Cholesterol" then some ⟨200, "Tinggi", "#06b6d4"⟩
  else if name = "Asam Urat" then some ⟨7, "Tinggi", "#f59e0b"⟩
  else none

/-- The keys of `METRIC_CONFIG`, in the order the object literal lists them. -/
def METRIC_CONFIG_KEYS : List String :=
  ["Gula Darah Puasa", "Gula Darah Sewaktu", "Tekanan Darah", "Cholesterol", "Asam Urat"]

/-- The property names every object literal inherits from `Object.prototype`:
each is bound to a function, `__proto__` to the prototype object. -/
def OBJECT_PROTOTYPE_KEYS : List String :=
  ["constructor", "hasOwnProperty", "isPrototypeOf", "propertyIsEnumerable", "toLocaleString",
    "toString", "valueOf", "__proto__", "__defineGetter__", "__defineSetter__",
    "__lookupGetter__", "__lookupSetter__"]

/-- What a property read on `METRIC_CONFIG` can give: an entry of the literal,
a function or object inherited from `Object.prototype` (truthy, and its
`threshold`, `label` and `color` are `undefined`), or `undefined`. -/
inductive ConfigValue where
  | entry (cfg : MetricCfg)
  | inherited
  | missing

/-- The property read `METRIC_CONFIG[name]`: the entry of the literal when it
has one, else what the prototype chain gives. -/
def metricConfigGet (name : String) : ConfigValue :=
  match METRIC_CONFIG name with
  | some cfg => ConfigValue.entry cfg
  | none => if name ∈ OBJECT_PROTOTYPE_KEYS then ConfigValue.inherited else ConfigValue.missing

/-- Component data `metricsList` (set once in `data()`, never assigned again). -/
def metricsList : List String :=
  ["Gula Darah Puasa", "Gula Darah Sewaktu", "Tekanan Darah", "Cholesterol", "Asam Urat"]

/-- The fallback colour `'#0073fe'`. -/
def DEFAULT_COLOR : String := "#0073fe"

/-! ## Component state -/

/-- Component data `filters`. -/
structure Filters where
  start_month : String
  end_month : String
  lokasi : String
  karyawan_uid : String

/-- One entry of `chartSeries`. -/
structure Series where
  name : String
  data : List JsVal
  color : String
  opacity : ℚ

/-- One entry of `chartOptions.annotations.yaxis`; the fields read from
`METRIC_CONFIG` can be `undefined` (`none`). -/
structure Annotation where
  y : Option ℚ
  borderColor : Option String
  strokeDashArray : Nat
  labelText : Option String
  labelColor : String
  labelBackground : Option String

/-- The fields of `chartOptions` that depend on the data or are changed after
construction: `chart.type`, `xaxis.categories`, `colors`, `fill.opacity`
(absent until `updateMetricOpacity` sets it) and `annotations.yaxis`.  The
other keys (`stroke`, `legend`, `grid`, `tooltip`, `animations`) are literals. -/
structure ChartOptions where
  chartType : String
  categories : List JsVal
  colors : List String
  fillOpacity : Option (List ℚ)
  annotationsYaxis : List Annotation

/-- One card of `healthMetrics`. -/
structure HealthCard where
  title : String
  description : String
  value : String
  icon : String
  iconHex : String
  units : String
  statusLabel : String
  statusClass : String

/-- One entry of `wellUnwellSeries`. -/
structure WellSeries where
  name : String
  data : List JsVal

/-- The data-dependent part of `wellUnwellOptions` (`xaxis.categories`) and
its `chart.type`. -/
structure WellOptions where
  chartType : String
  categories : List JsVal

/-- One entry of `karyawanList`: `uid` is always a string (`String(…)`), `nama`
is whatever value the response carried (or the string made from `name`). -/
structure Karyawan where
  uid : String
  nama : JsVal

/-- The reactive data of the component (`data()`); `metricsList` is the
constant above. -/
structure State where
  tab : String
  filters : Filters
  showSelectors : Bool
  chartType : String
  activeMetric : Option String
  healthMetrics : List HealthCard
  lokasiList : JsVal
  karyawanList : List Karyawan
  chartSeries : List Series
  chartOptions : Option ChartOptions
  wellUnwellSeries : List WellSeries
  wellUnwellOptions : Option WellOptions

/-- The state returned by `data()`. -/
def initialState : State :=
  { tab := "health"
    filters := ⟨"", "", "", ""⟩
    showSelectors := true
    chartType := "bar"
    activeMetric := none
    healthMetrics := []
    lokasiList := JsVal.arr []
    karyawanList := []
    chartSeries := []
    chartOptions := none
    wellUnwellSeries := []
    wellUnwellOptions := none }

/-! ## Payloads -/

/-- The decoded body of `health-metrics-summary/`: an object whose `x_dates`
is an array or missing/`null` (`none`) and whose `series` is an object
(an association list, first binding of a key wins) or missing/`null`
(`none`).  The values stored under the series keys are arbitrary. -/
structure HealthPayload where
  x_dates : Option (List JsVal)
  series : Option (List (String × JsVal))

/-- The decoded body of `well-unwell-summary/`; each field is an array or
missing/`null` (`none`). -/
structure WellPayload where
  months : Option (List JsVal)
  well_counts : Option (List JsVal)
  unwell_counts : Option (List JsVal)

/-- Property read `(data.series || {})[k]`. -/
def rawGet (series : Option (List (String × JsVal))) (k : String) : JsVal :=
  match series with
  | none => JsVal.undefined
  | some kvs => (kvs.lookup k).getD JsVal.undefined

/-- The call `Object.keys(data.series || {})`. -/
def seriesKeys (series : Option (List (String × JsVal))) : List String :=
  match series with
  | none => []
  | some kvs => kvs.map Prod.fst

/-! ## The length normaliser -/

/-- Source function `normalizeLen` (local to `prepareHealthChart`):
copy the array (or take `[]` for a non-array), return it when its length is
`len`, keep the trailing `len` elements when longer, pad with `null` when
shorter. -/
def normalizeLen (arr : JsVal) (len : Nat) : List JsVal :=
  let a := if arr.isArray then arr.elems else []
  if a.length = len then a
  else if a.length > len then a.drop (a.length - len)
  else a ++ List.replicate (len - a.length) JsVal.null

/-- The filter predicate of `totalPoints`:
`v != null && typeof v === 'number' && !Number.isNaN(v)`. -/
def isValidPoint (v : JsVal) : Bool :=
  v.notNullish && v.isNumberType && !v.isNaN

/-- The object `map` of `prepareHealthChart`: the five literal labels, each
bound to `raw[label]` when that is an array and to `[]` otherwise. -/
def healthMap (series : Option (List (String × JsVal))) : List (String × JsVal) :=
  ["Gula Darah Puasa", "Gula Darah Sewaktu", "Tekanan Darah", "Cholesterol", "Asam Urat"].map
    (fun k => (k, if (rawGet series k).isArray then rawGet series k else JsVal.arr []))

/-- The colour chosen for a metric name:
`(METRIC_CONFIG[name] && METRIC_CONFIG[name].color) ? METRIC_CONFIG[name].color : '#0073fe'`. -/
def metricColor (name : String) : String :=
  match metricConfigGet name with
  | ConfigValue.entry cfg => if cfg.color ≠ "" then cfg.color else DEFAULT_COLOR
  | ConfigValue.inherited => DEFAULT_COLOR
  | ConfigValue.missing => DEFAULT_COLOR

/-- The object `METRIC_COLORS_MAP`, one binding per entry of `metricsList`. -/
def METRIC_COLORS_MAP : List (String × String) :=
  metricsList.map (fun name => (name, metricColor name))

/-- The expression `METRIC_COLORS_MAP[name] || '#0073fe'`, which the code
evaluates for the names of `metricsList` (all bound in the map). -/
def seriesColor (name : String) : String :=
  match METRIC_COLORS_MAP.lookup name with
  | some c => if c ≠ "" then c else DEFAULT_COLOR
  | none => DEFAULT_COLOR

/-- The array `entries` of `prepareHealthChart`: for each name of
`metricsList`, the pair of the name and the normalised series, read from
`raw[name]` when that is an array and from `map[name] || []` otherwise. -/
def healthEntries (data : HealthPayload) : List (String × List JsVal) :=
  let xDates := data.x_dates.getD []
  metricsList.map (fun name =>
    (name,
      normalizeLen
        (if (rawGet data.series name).isArray then rawGet data.series name
         else (((healthMap data.series).lookup name).getD JsVal.undefined).orElse (JsVal.arr []))
        xDates.length))

/-- The number `totalPoints` of `prepareHealthChart`. -/
def totalPoints (entries : List (String × List JsVal)) : Nat :=
  entries.foldl (fun acc e => acc + (e.2.filter isValidPoint).length) 0

/-! ## The card aggregator -/

/-- The loop of `avgNonNull`: add up (`sum += v`) and count the entries that
are numbers and not `NaN`. -/
def avgStep (acc : JsNum × Nat) (v : JsVal) : JsNum × Nat :=
  if v.isNumberType && !v.isNaN then (acc.1.add v.numVal, acc.2 + 1) else acc

/-- Source function `avgNonNull` on an array: `count ? sum / count : null`. -/
def avgNonNull (nums : List JsVal) : Option JsNum :=
  let r := nums.foldl avgStep (JsNum.fin 0, 0)
  if r.2 ≠ 0 then some (r.1.divCount r.2) else none

/-- The series found by `byName[title]` in
`Object.fromEntries(chartSeries.map(s => [s.name, s]))`: a later series of the
same name replaces an earlier one.  `none` is a read that gives no series:
`undefined`, or for a name inherited from `Object.prototype` a function, whose
`data` is not an array, so that `s && Array.isArray(s.data)` fails all the same. -/
def byName (chartSeries : List Series) (title : String) : Option Series :=
  (chartSeries.filter (fun s => s.name == title)).getLast?

/-- The body of the `map` callback of `updateHealthMetricsValues`.  The status
is set when `avg != null && cfg && typeof cfg.threshold === 'number'`, which
of the values `METRIC_CONFIG[hm.title]` can take only an entry of the literal
passes. -/
def updateCard (chartSeries : List Series) (hm : HealthCard) : HealthCard :=
  let avg : Option JsNum :=
    match byName chartSeries hm.title with
    | some s => avgNonNull s.data
    | none => none
  let formatted : String :=
    match avg with
    | none => "-"
    | some a => numberToString (numberToFixed1 a) ++ " " ++ hm.units
  let status : String × String :=
    match avg, metricConfigGet hm.title with
    | some a, ConfigValue.entry cfg =>
      if a.lt (roundDouble cfg.threshold) then ("Well", "text-green-700 bg-green-100")
      else ("Unwell", "text-red-700 bg-red-100")
    | _, _ => ("", "")
  { hm with value := formatted, statusLabel := status.1, statusClass := status.2 }

/-- Source method `updateHealthMetricsValues`. -/
def updateHealthMetricsValues (st : State) : State :=
  { st with healthMetrics := st.healthMetrics.map (updateCard st.chartSeries) }

/-- The table `ICON_MAP[m] || 'activity'`, read for the names of `metricsList`. -/
def iconOf (m : String) : String :=
  if m = "Gula Darah Puasa" then "droplet"
  else if m = "Gula Darah Sewaktu" then "droplet"
  else if m = "Tekanan Darah" then "activity"
  else if m = "Cholesterol" then "heart"
  else if m = "Asam Urat" then "flask-conical"
  else "activity"

/-- The table `UNITS_MAP[m] || ''`, read for the names of `metricsList`. -/
def unitsOf (m : String) : String :=
  if m = "Gula Darah Puasa" then "mg/dL"
  else if m = "Gula Darah Sewaktu" then "mg/dL"
  else if m = "Tekanan Darah" then "mmHg"
  else if m = "Cholesterol" then "mg/dL"
  else if m = "Asam Urat" then "mg/dL"
  else ""

/-- Source method `buildHealthMetricsModel`. -/
def buildHealthMetricsModel (st : State) : State :=
  { st with healthMetrics := metricsList.map (fun m =>
      { title := m
        description := "Rata-rata " ++ m.toLower ++ " karyawan"
        value := "-"
        icon := iconOf m
        iconHex := metricColor m
        units := unitsOf m
        statusLabel := ""
        statusClass := "" }) }

/-! ## Emphasis -/

/-- The call `str.replace('#', '')` on the characters of a string: the first
`#` is removed. -/
def removeFirstHash : List Char → List Char
  | [] => []
  | c :: cs => if c = '#' then cs else c :: removeFirstHash cs

/-- The value of a hexadecimal digit. -/
def hexDigitVal (c : Char) : Option Nat :=
  if '0' ≤ c ∧ c ≤ '9' then some (c.toNat - '0'.toNat)
  else if 'a' ≤ c ∧ c ≤ 'f' then some (c.toNat - 'a'.toNat + 10)
  else if 'A' ≤ c ∧ c ≤ 'F' then some (c.toNat - 'A'.toNat + 10)
  else none

/-- White space and line terminators skipped by `parseInt`. -/
def isJsWhiteSpace (c : Char) : Bool :=
  let n := c.toNat
  n = 9 || n = 10 || n = 11 || n = 12 || n = 13 || n = 32 || n = 160 || n = 5760 ||
    (8192 ≤ n && n ≤ 8202) || n = 8232 || n = 8233 || n = 8239 || n = 8287 ||
    n = 12288 || n = 65279

/-- The value of the longest run of hexadecimal digits at the head of the
input, with the number of digits read. -/
def hexRun : List Char → Nat → Nat → Nat × Nat
  | [], acc, cnt => (acc, cnt)
  | c :: cs, acc, cnt =>
    match hexDigitVal c with
    | some d => hexRun cs (acc * 16 + d) (cnt + 1)
    | none => (acc, cnt)

/-- The call `parseInt(s, 16)`: skip leading white space, read a sign, skip
a `0x`/`0X` mark, read hexadecimal digits; `none` is `NaN` (no digit read). -/
def parseIntHex (s : List Char) : Option Int :=
  let t := s.dropWhile isJsWhiteSpace
  let neg := t.head? = some '-'
  let u := if t.head? = some '-' ∨ t.head? = some '+' then t.drop 1 else t
  let w := if u.take 2 = ['0', 'x'] ∨ u.take 2 = ['0', 'X'] then u.drop 2 else u
  let r := hexRun w 0 0
  if r.2 = 0 then none
  else some (if neg then -(r.1 : Int) else (r.1 : Int))

/-- The string a template literal gives for the result of `parseInt`. -/
def showParsed : Option Int → String
  | none => "NaN"
  | some i => toString i

/-- Source function `hexToRgba` (local to `updateMetricOpacity`) on a string
colour. -/
def hexToRgba (hex : String) (a : ℚ) : String :=
  let h0 := removeFirstHash hex.toList
  let h := if h0.length = 3 then h0.flatMap (fun c => [c, c]) else h0
  let r := parseIntHex (h.take 2)
  let g := parseIntHex ((h.drop 2).take 2)
  let b := parseIntHex ((h.drop 4).take 2)
  "rgba(" ++ showParsed r ++ ", " ++ showParsed g ++ ", " ++ showParsed b ++ ", " ++
    jsNumberToString a ++ ")"

/-- The condition `this.activeMetric && s.name !== this.activeMetric`. -/
def isDimmed (activeMetric : Option String) (name : String) : Bool :=
  match activeMetric with
  | none => false
  | some m => decide (m ≠ "") && decide (name ≠ m)

/-- The value `(this.activeMetric && s.name !== this.activeMetric) ? 0.3 : 1`. -/
def opacityOf (activeMetric : Option String) (name : String) : ℚ :=
  if isDimmed activeMetric name then 3 / 10 else 1

/-- The annotation list `updateMetricOpacity` stores in
`chartOptions.annotations.yaxis`: one line when
`this.activeMetric && METRIC_CONFIG[this.activeMetric]` is truthy, with the
`threshold`, `color` and `label` read from that value, and `[]` otherwise. -/
def annotationFor (activeMetric : Option String) : List Annotation :=
  match activeMetric with
  | none => []
  | some m =>
    if m ≠ "" then
      match metricConfigGet m with
      | ConfigValue.entry cfg =>
        [⟨some cfg.threshold, some cfg.color, 5, some cfg.label, "#fff", some cfg.color⟩]
      | ConfigValue.inherited => [⟨none, none, 5, none, "#fff", none⟩]
      | ConfigValue.missing => []
    else []

/-- Source method `updateMetricOpacity`. -/
def updateMetricOpacity (st : State) : State :=
  let cs := st.chartSeries.map (fun s => { s with opacity := opacityOf st.activeMetric s.name })
  let opacities := cs.map (fun s => opacityOf st.activeMetric s.name)
  let colorsAdj := cs.map (fun s =>
    let base := if s.color ≠ "" then s.color else DEFAULT_COLOR
    let op := opacityOf st.activeMetric s.name
    if op = 1 then base else hexToRgba base op)
  { st with
    chartSeries := cs
    chartOptions := st.chartOptions.map (fun o =>
      { o with
        fillOpacity := some opacities
        colors := colorsAdj
        annotationsYaxis := annotationFor st.activeMetric }) }

/-! ## Preparing the charts -/

/-- Source method `prepareHealthChart`. -/
def prepareHealthChart (st : State) (data : HealthPayload) : State :=
  let xDates := data.x_dates.getD []
  let entries := healthEntries data
  if totalPoints entries = 0 ∨ xDates.length = 0 then
    { st with chartSeries := [], chartOptions := none }
  else
    let st1 : State :=
      { st with
        chartSeries := entries.map (fun e =>
          { name := e.1, data := e.2, color := seriesColor e.1, opacity := 1 })
        chartOptions := some
          { chartType := st.chartType
            categories := xDates
            colors := entries.map (fun e => seriesColor e.1)
            fillOpacity := none
            annotationsYaxis := annotationFor (some "Gula Darah Puasa") } }
    let st2 : State :=
      { st1 with
        activeMetric :=
          match st1.activeMetric with
          | some m => if m ≠ "" then some m else some "Gula Darah Puasa"
          | none => some "Gula Darah Puasa" }
    updateMetricOpacity (updateHealthMetricsValues st2)

/-- Source method `prepareWellUnwellChart`. -/
def prepareWellUnwellChart (st : State) (data : WellPayload) : State :=
  let months := data.months.getD []
  let wellDataSafe := data.well_counts.getD []
  let unwellDataSafe := data.unwell_counts.getD []
  if wellDataSafe.length ≠ 0 ∨ unwellDataSafe.length ≠ 0 then
    { st with
      wellUnwellSeries := [⟨"Well", wellDataSafe⟩, ⟨"Unwell", unwellDataSafe⟩]
      wellUnwellOptions := some { chartType := "bar", categories := months } }
  else
    { st with wellUnwellSeries := [], wellUnwellOptions := none }

/-! ## Fetching -/

/-- The outcome of the health-metrics request: `failed` stands for a network
error, a non-2xx status, an unparsable body or a `null` body (each throws
inside the `try`), `ok data` for a decoded object. -/
inductive HealthResponse where
  | failed
  | ok (data : HealthPayload)

/-- The outcome of the well/unwell request: `failed` stands for a network
error, an unparsable body or a `null` body. -/
inductive WellResponse where
  | failed
  | ok (data : WellPayload)

/-- The number `maxSeriesLen` of `fetchHealthMetrics`. -/
def maxSeriesLen (series : Option (List (String × JsVal))) : Nat :=
  (seriesKeys series).foldl
    (fun mx k =>
      let arr := (rawGet series k).orElse (JsVal.arr [])
      max mx (if arr.isArray then arr.elems.length else 0))
    0

/-- The render gate of `fetchHealthMetrics`:
`xLen < MAX_SAFE_POINTS && maxSeriesLen < MAX_SAFE_POINTS`. -/
def healthGate (data : HealthPayload) : Bool :=
  decide ((data.x_dates.getD []).length < MAX_SAFE_POINTS) &&
    decide (maxSeriesLen data.series < MAX_SAFE_POINTS)

/-- The render gate of `fetchWellUnwellSummary`:
`well_len < MAX_SAFE_POINTS && unwell_len < MAX_SAFE_POINTS`. -/
def wellGate (data : WellPayload) : Bool :=
  decide ((data.well_counts.getD []).length < MAX_SAFE_POINTS) &&
    decide ((data.unwell_counts.getD []).length < MAX_SAFE_POINTS)

/-- Source method `fetchHealthMetrics`, as a function of the response: a
failure is caught and leaves the state as it was. -/
def fetchHealthMetrics (st : State) (resp : HealthResponse) : State :=
  match resp with
  | HealthResponse.failed => st
  | HealthResponse.ok data =>
    if healthGate data then prepareHealthChart st data
    else { st with chartOptions := none, chartSeries := [] }

/-- Source method `fetchWellUnwellSummary`, as a function of the response;
`none` means the method threw. -/
def fetchWellUnwellSummary (st : State) (resp : WellResponse) : Option State :=
  match resp with
  | WellResponse.failed => none
  | WellResponse.ok data =>
    if wellGate data then some (prepareWellUnwellChart st data)
    else some { st with wellUnwellOptions := none, wellUnwellSeries := [] }

/-- Source method `fetchData`, as a function of the responses the two metric
endpoints would give: only the endpoint of the active tab is requested, and
an exception of `fetchWellUnwellSummary` is caught and logged. -/
def fetchData (st : State) (health : HealthResponse) (well : WellResponse) : State :=
  if st.tab = "health" then fetchHealthMetrics st health
  else
    match fetchWellUnwellSummary st well with
    | some st1 => st1
    | none => st

/-! ## The render gate of the template -/

/-- The data part of the `v-if` of the health chart:
`chartOptions && chartSeries && chartSeries.length && chartOptions.xaxis &&
chartOptions.xaxis.categories && chartOptions.xaxis.categories.length`. -/
def healthReady (st : State) : Bool :=
  match st.chartOptions with
  | none => false
  | some o => decide (st.chartSeries.length ≠ 0) && decide (o.categories.length ≠ 0)

/-- The whole `v-if` of the health chart: `tab === 'health' && …`. -/
def healthChartShown (st : State) : Bool :=
  decide (st.tab = "health") && healthReady st

/-! ## Default filters -/

/-- The local calendar date of a `Date` object: `getFullYear()`, `getMonth()`
(0 to 11) and `getDate()` (1 to 31).  The time of day is not modelled. -/
structure JsDate where
  year : Int
  month : Nat
  day : Nat

/-- Leap years of the Gregorian calendar. -/
def isLeapYear (y : Int) : Bool :=
  decide ((y % 4 = 0 ∧ y % 100 ≠ 0) ∨ y % 400 = 0)

/-- The number of days of month `m` (0 to 11) of year `y`. -/
def daysInMonth (y : Int) (m : Nat) : Nat :=
  if m = 1 then (if isLeapYear y then 29 else 28)
  else if m = 3 ∨ m = 5 ∨ m = 8 ∨ m = 10 then 30
  else 31

/-- The call `d.setMonth(m)`: the month index is brought into 0 to 11 by
carrying whole years, the day of the month is kept, and a day past the end of
the target month runs over into the following month (`MakeDay`).  A day of
the month is at most 31, so it runs over by one month at most. -/
def JsDate.setMonth (d : JsDate) (m : Int) : JsDate :=
  let y := d.year + m / 12
  let mn := (m % 12).toNat
  if d.day ≤ daysInMonth y mn then ⟨y, mn, d.day⟩
  else if mn = 11 then ⟨y + 1, 0, d.day - daysInMonth y mn⟩
  else ⟨y, mn + 1, d.day - daysInMonth y mn⟩

/-- The call `s.padStart(2, '0')`. -/
def padStart2 (s : String) : String :=
  String.mk (List.replicate (2 - s.length) '0') ++ s

/-- Source function `fmtMonthISO`. -/
def fmtMonthISO (d : JsDate) : String :=
  toString d.year ++ "-" ++ padStart2 (toString (d.month + 1))

/-- Source method `applyDefaultFilters`; `now` is the date `new Date()` gives. -/
def applyDefaultFilters (st : State) (now : JsDate) : State :=
  let hasPreselectedUID := decide (st.filters.karyawan_uid ≠ "")
  let selectorsHidden := decide (st.showSelectors = false)
  let f1 : Filters :=
    if hasPreselectedUID || selectorsHidden then
      { st.filters with start_month := "", end_month := "" }
    else
      let past := now.setMonth ((now.month : Int) - 5)
      { st.filters with start_month := fmtMonthISO past, end_month := fmtMonthISO now }
  { st with filters := { f1 with lokasi := "" } }

/-! ## Reference lists -/

mutual
/-- The conversion `String(v)`. -/
def jsString : JsVal → String
  | JsVal.null => "null"
  | JsVal.undefined => "undefined"
  | JsVal.bool b => if b then "true" else "false"
  | JsVal.num q => jsNumberToString q
  | JsVal.nan => "NaN"
  | JsVal.str s => s
  | JsVal.arr xs => joinElems xs
  | JsVal.obj _ => "[object Object]"
/-- The call `Array.prototype.join` with a comma, as `String` of an array uses
it: `null` and `undefined` elements give the empty string. -/
def joinElems : List JsVal → String
  | [] => ""
  | x :: rest =>
    (if x.notNullish then jsString x else "") ++
      (if rest.isEmpty then "" else "," ++ joinElems rest)
end

/-- The property read `x.k` for a key that only a decoded JSON object can
carry (`uid`, `nama`, `name`, `karyawan`, `lokasi`): `none` is the `TypeError`
of reading a property of `null` or `undefined`, a missing key gives
`undefined`. -/
def propOf (x : JsVal) (k : String) : Option JsVal :=
  match x with
  | JsVal.null => none
  | JsVal.undefined => none
  | JsVal.obj kvs => some ((kvs.lookup k).getD JsVal.undefined)
  | _ => some JsVal.undefined

/-- The outcome of a reference-list request: `failed` stands for a network
error or an unparsable body, `ok json` for the decoded body. -/
inductive ListResponse where
  | failed
  | ok (json : JsVal)

/-- Source method `fetchLokasiList`, as a function of the response: every
exception inside the `try` ends in `lokasiList = []`. -/
def fetchLokasiList (st : State) (resp : ListResponse) : State :=
  match resp with
  | ListResponse.failed => { st with lokasiList := JsVal.arr [] }
  | ListResponse.ok json =>
    if json.isArray then { st with lokasiList := json }
    else
      match propOf json "lokasi" with
      | none => { st with lokasiList := JsVal.arr [] }
      | some v => { st with lokasiList := v.orElse (JsVal.arr []) }

/-- The `map` callback of `fetchKaryawanList`:
`x => ({ uid: String(x.uid || ''), nama: x.nama || String(x.name || '') })`;
`none` is the `TypeError` of a `null` entry. -/
def normalizeKaryawan (x : JsVal) : Option Karyawan :=
  match propOf x "uid", propOf x "nama", propOf x "name" with
  | some uid, some nama, some name =>
    some
      { uid := jsString (uid.orElse (JsVal.str ""))
        nama := nama.orElse (JsVal.str (jsString (name.orElse (JsVal.str "")))) }
  | _, _, _ => none

/-- The `filter` callback of `fetchKaryawanList`: `x => x.uid && x.nama`. -/
def keepKaryawan (k : Karyawan) : Bool :=
  decide (k.uid ≠ "") && k.nama.truthy

/-- The array `arr` of `fetchKaryawanList`:
`Array.isArray(json) ? json : (json.karyawan || [])`; `none` is an exception
(`json` is `null`, or the value is not an array and has no `map`). -/
def karyawanArray (json : JsVal) : Option (List JsVal) :=
  if json.isArray then some json.elems
  else
    match propOf json "karyawan" with
    | none => none
    | some v =>
      match v.orElse (JsVal.arr []) with
      | JsVal.arr xs => some xs
      | _ => none

/-- The call `arr.map(x => …)` of `fetchKaryawanList`: the first entry whose
callback throws aborts the whole call (`none`). -/
def mapKaryawan : List JsVal → Option (List Karyawan)
  | [] => some []
  | x :: rest =>
    match normalizeKaryawan x with
    | none => none
    | some k =>
      match mapKaryawan rest with
      | none => none
      | some ks => some (k :: ks)

/-- Source method `fetchKaryawanList`, as a function of the response: every
exception inside the `try` ends in `karyawanList = []`. -/
def fetchKaryawanList (st : State) (resp : ListResponse) : State :=
  match resp with
  | ListResponse.failed => { st with karyawanList := [] }
  | ListResponse.ok json =>
    match karyawanArray json with
    | none => { st with karyawanList := [] }
    | some xs =>
      match mapKaryawan xs with
      | none => { st with karyawanList := [] }
      | some ks => { st with karyawanList := ks.filter keepKaryawan }

/-! ## The request of `fetchData` -/

/-- A `fetch` call: the path before the `?` and the entries of the
`URLSearchParams` in order. -/
structure Request where
  path : String
  params : List (String × String)

/-- The `URLSearchParams` built by `fetchData`; `v || ''` on a string is the
string itself. -/
def fetchParams (st : State) : List (String × String) :=
  [("month_from", st.filters.start_month), ("month_to", st.filters.end_month),
    ("lokasi", st.filters.lokasi), ("uid", st.filters.karyawan_uid)]

/-- The requests `fetchData` issues for the metric data, in order; `apiBase`
is the constant `API_BASE` (`'/nurse'` or `'/manager'`). -/
def fetchDataRequests (apiBase : String) (st : State) : List Request :=
  if st.tab = "health" then
    [{ path := apiBase ++ "/grafik/health-metrics-summary/", params := fetchParams st }]
  else
    [{ path := apiBase ++ "/grafik/well-unwell-summary/", params := fetchParams st }]

/-- The `v-else-if` of the well/unwell chart in the template, which is
reached when the health chart is not shown: `tab === 'well' &&
wellUnwellOptions && wellUnwellSeries && wellUnwellSeries.length && … &&
wellUnwellOptions.xaxis.categories.length`. -/
def wellChartShown (st : State) : Bool :=
  !healthChartShown st && decide (st.tab = "well") &&
    (match st.wellUnwellOptions with
      | none => false
      | some o => decide (st.wellUnwellSeries.length ≠ 0) && decide (o.categories.length ≠ 0))

/-! ## The update queue of `ApexChart` -/

/-- The stage of one link of the promise chain `_updateQueue`, that is of one
call of `enqueueUpdate(fn)`: `waiting` (the `.then` callback has not run),
`scheduled` (the callback ran: the link's promise exists and the
`Vue.nextTick` callback is registered), `running` (the `nextTick` callback
called `fn()` and awaits its result) and `settled` (`finally { resolve() }`
ran, the link is fulfilled). -/
inductive JobStatus where
  | waiting
  | scheduled
  | running
  | settled
  deriving DecidableEq

/-- One link of the chain: the operation `fn` (named by a number) and its stage. -/
structure Job where
  fn : Nat
  status : JobStatus
  deriving DecidableEq

/-- What an observer of the chart sees: an operation is entered, an operation
has completed. -/
inductive LogEntry where
  | started (fn : Nat)
  | finished (fn : Nat)
  deriving DecidableEq

/-- The chain `_updateQueue` of one chart instance, oldest link first, with
the record of what ran. -/
structure ChartQueue where
  jobs : List Job
  log : List LogEntry
  deriving DecidableEq

/-- The queue after `mounted`: `_updateQueue = Promise.resolve()`. -/
def emptyQueue : ChartQueue := { jobs := [], log := [] }

/-- Source method `enqueueUpdate`: `this._updateQueue = this._updateQueue.then(…)`
adds one link at the end of the chain; nothing runs yet. -/
def enqueueUpdate (q : ChartQueue) (fn : Nat) : ChartQueue :=
  { q with jobs := q.jobs ++ [{ fn := fn, status := JobStatus.waiting }] }

/-- What can happen to the queue: a call of `enqueueUpdate`, and for the link
at position `i` the run of its `.then` callback, the run of its `nextTick`
callback, and the settling of the promise its operation returned. -/
inductive QueueEvent where
  | enqueue (fn : Nat)
  | thenCallback (i : Nat)
  | nextTick (i : Nat)
  | settle (i : Nat)

/-- The promise link `i` was chained on is fulfilled: `Promise.resolve()` for
the first link, otherwise the previous link, which is fulfilled when its
`resolve()` ran. -/
def predecessorFulfilled (jobs : List Job) (i : Nat) : Bool :=
  match i with
  | 0 => true
  | k + 1 =>
    match jobs[k]? with
    | some j => decide (j.status = JobStatus.settled)
    | none => false

/-- One step of the queue; `none` when the event cannot happen in this state.
The `.then` callback of a waiting link runs only when the promise it was
chained on is fulfilled; the `nextTick` callback of a scheduled link calls
`fn()`; a running link settles when the result of `fn()` has settled (or was
no promise, or `fn` threw), through `finally { resolve() }`. -/
def queueStep (q : ChartQueue) (e : QueueEvent) : Option ChartQueue :=
  match e with
  | QueueEvent.enqueue fn => some (enqueueUpdate q fn)
  | QueueEvent.thenCallback i =>
    match q.jobs[i]? with
    | some j =>
      if j.status = JobStatus.waiting ∧ predecessorFulfilled q.jobs i = true then
        some { q with jobs := q.jobs.set i { j with status := JobStatus.scheduled } }
      else none
    | none => none
  | QueueEvent.nextTick i =>
    match q.jobs[i]? with
    | some j =>
      if j.status = JobStatus.scheduled then
        some { jobs := q.jobs.set i { j with status := JobStatus.running }
               log := q.log ++ [LogEntry.started j.fn] }
      else none
    | none => none
  | QueueEvent.settle i =>
    match q.jobs[i]? with
    | some j =>
      if j.status = JobStatus.running then
        some { jobs := q.jobs.set i { j with status := JobStatus.settled }
               log := q.log ++ [LogEntry.finished j.fn] }
      else none
    | none => none

/-- The queue after a sequence of events, `none` when one of them cannot happen. -/
def runQueue (q : ChartQueue) : List QueueEvent → Option ChartQueue
  | [] => some q
  | e :: es =>
    match queueStep q e with
    | some q1 => runQueue q1 es
    | none => none

/-! ## Specification-side definitions -/

/-- The non-missing numeric values of a series, in order: the entries that
are numbers and not `NaN`. -/
def validNums (xs : List JsVal) : List ℚ :=
  xs.filterMap (fun v => match v with
    | JsVal.num q => some q
    | _ => none)

/-- The sum a loop of double-precision additions gives for the values
written `qs`, taken from left to right and starting from `acc`. -/
def doubleSum (acc : JsNum) (qs : List ℚ) : JsNum :=
  qs.foldl (fun a q => a.add (roundDouble q)) acc

/-- The mean in double precision: the sum taken from left to right, starting
from `0`, divided by the number of values. -/
def doubleMean (qs : List ℚ) : JsNum :=
  (doubleSum (JsNum.fin 0) qs).divCount qs.length

/-- The real number `q` is a binary64 value: rounding leaves it as it is. -/
def isDouble (q : ℚ) : Prop := roundDouble q = JsNum.fin q

/-- The values `qs` add up and average without rounding: every value, every
sum of the first `k` values and the quotient of the sum by the count are
binary64 values. -/
def sumsExactly (qs : List ℚ) : Prop :=
  (∀ q ∈ qs, isDouble q) ∧ (∀ k, k ≤ qs.length → isDouble (qs.take k).sum) ∧
    isDouble (qs.sum / (qs.length : ℚ))

/-- The decimal of `n / 10` for a natural number `n`: the whole part, and
after a point the tenths digit unless it is `0` (`1250` gives `125`, `63`
gives `6.3`). -/
def tenthsString (n : Nat) : String :=
  if n % 10 = 0 then toString (n / 10) else toString (n / 10) ++ "." ++ toString (n % 10)

/-- The payload read back from a prepared dataset: the x-axis categories as
`x_dates` and every chart series as `name → data`. -/
def datasetPayload (st : State) : HealthPayload :=
  { x_dates := st.chartOptions.map (fun o => o.categories)
    series := some (st.chartSeries.map (fun s => (s.name, JsVal.arr s.data))) }

/-- The first day of the month five calendar months before the month of `d`. -/
def fiveMonthsBefore (d : JsDate) : JsDate :=
  { year := d.year + ((d.month : Int) - 5) / 12
    month := (((d.month : Int) - 5) % 12).toNat
    day := 1 }

/-- A date of the calendar: a month index below 12 and a day of that month. -/
def validDate (d : JsDate) : Prop :=
  d.month < 12 ∧ 1 ≤ d.day ∧ d.day ≤ daysInMonth d.year d.month

/-- The record of operations run one after the other, each completed before
the next is entered. -/
def serialLog (fns : List Nat) : List LogEntry :=
  fns.flatMap (fun f => [LogEntry.started f, LogEntry.finished f])

/-- The operations handed to `enqueueUpdate`, in submission order. -/
def submitted : List QueueEvent → List Nat
  | [] => []
  | QueueEvent.enqueue fn :: es => fn :: submitted es
  | _ :: es => submitted es

/-- The shape every reachable queue has: settled links, then at most one link
that is scheduled or running, then waiting links; the record is the serial
record of the settled links, followed by the entry of the running one. -/
def QueueInv (q : ChartQueue) : Prop :=
  ∃ (done cur rest : List Job),
    q.jobs = done ++ (cur ++ rest) ∧
    (∀ j ∈ done, j.status = JobStatus.settled) ∧
    (∀ j ∈ rest, j.status = JobStatus.waiting) ∧
    ((cur = [] ∧ q.log = serialLog (done.map (fun j => j.fn))) ∨
      (∃ f, cur = [⟨f, JobStatus.scheduled⟩] ∧ q.log = serialLog (done.map (fun j => j.fn))) ∨
      (∃ f, cur = [⟨f, JobStatus.running⟩] ∧
        q.log = serialLog (done.map (fun j => j.fn)) ++ [LogEntry.started f]))

/-! ## Example inputs -/

/-- The card `buildHealthMetricsModel` makes for the first metric. -/
def cardPuasa : HealthCard :=
  { title := "Gula Darah Puasa"
    description := "Rata-rata gula darah puasa karyawan"
    value := "-"
    icon := "droplet"
    iconHex := "#f87171"
    units := "mg/dL"
    statusLabel := ""
    statusClass := "" }

/-- A chart series of the first metric holding `data`. -/
def seriesPuasa (data : List JsVal) : Series :=
  { name := "Gula Darah Puasa", data := data, color := "#f87171", opacity := 1 }

/-- A state with one card and one series of the first metric. -/
def cardState (data : List JsVal) : State :=
  { initialState with healthMetrics := [cardPuasa], chartSeries := [seriesPuasa data] }

/-- A payload of two months with one metric series of two readings. -/
def examplePayload : HealthPayload :=
  { x_dates := some [JsVal.str "2024-01", JsVal.str "2024-02"]
    series := some [("Gula Darah Puasa", JsVal.arr [JsVal.num 120, JsVal.num 130])] }

/-- A payload of two months whose series are longer than, shorter than and
as long as the x-axis, with one key that is not a known metric. -/
def mismatchedPayload : HealthPayload :=
  { x_dates := some [JsVal.str "2024-01", JsVal.str "2024-02"]
    series := some
      [("Gula Darah Puasa", JsVal.arr [JsVal.num 110, JsVal.num 120, JsVal.num 130]),
        ("Cholesterol", JsVal.arr [JsVal.num 180]),
        ("Berat Badan", JsVal.arr [JsVal.num 70, JsVal.num 71])] }

/-- A payload of two months in which every reading is missing. -/
def allMissingPayload : HealthPayload :=
  { x_dates := some [JsVal.str "2024-01", JsVal.str "2024-02"]
    series := some
      [("Gula Darah Puasa", JsVal.arr [JsVal.null, JsVal.null]),
        ("Asam Urat", JsVal.arr [JsVal.null])] }

/-- A payload whose x-axis has 5001 labels. -/
def oversizedPayload : HealthPayload :=
  { x_dates := some (List.replicate 5001 (JsVal.str "2024-01"))
    series := some [("Gula Darah Puasa", JsVal.arr [JsVal.num 120])] }

/-- A payload whose x-axis has 4999 labels. -/
def largestPayload : HealthPayload :=
  { x_dates := some (List.replicate 4999 (JsVal.str "2024-01"))
    series := some [("Gula Darah Puasa", JsVal.arr [JsVal.num 120, JsVal.num 130])] }

/-- A well/unwell payload of one month. -/
def exampleWellPayload : WellPayload :=
  { months := some [JsVal.str "2024-01"]
    well_counts := some [JsVal.num 3]
    unwell_counts := some [JsVal.num 1] }

/-- A payload whose x-axis has exactly 5000 labels. -/
def boundaryPayload : HealthPayload :=
  { x_dates := some (List.replicate 5000 (JsVal.str "2024-01"))
    series := some [("Gula Darah Puasa", JsVal.arr [JsVal.num 120, JsVal.num 130])] }

/-- A well/unwell payload whose `well_counts` has exactly 5000 entries. -/
def boundaryWellPayload : WellPayload :=
  { months := some [JsVal.str "2024-01"]
    well_counts := some (List.replicate 5000 (JsVal.num 1))
    unwell_counts := some [JsVal.num 1] }

/-- A state in which an employee is preselected and filters are filled in. -/
def preselectedState : State :=
  { initialState with
    filters := { start_month := "2024-01", end_month := "2024-06", lokasi := "Jakarta",
                 karyawan_uid := "u-17" } }

/-- A chart of two series, one of them the active metric. -/
def emphasisState : State :=
  { initialState with
    activeMetric := some "Asam Urat"
    chartSeries :=
      [{ name := "Gula Darah Puasa", data := [JsVal.num 120], color := "#f87171", opacity := 1 },
        { name := "Asam Urat", data := [JsVal.num 6], color := "#f59e0b", opacity := 1 }]
    chartOptions := some
      { chartType := "bar"
        categories := [JsVal.str "2024-01"]
        colors := ["#f87171", "#f59e0b"]
        fillOpacity := none
        annotationsYaxis := [] } }

/-- A well/unwell payload of one month whose counts have two and no entries. -/
def unalignedWellPayload : WellPayload :=
  { months := some [JsVal.str "2024-01"]
    well_counts := some [JsVal.num 3, JsVal.num 4]
    unwell_counts := some [] }

/-- Three operations submitted in rapid succession, then run to completion. -/
def threeUpdates : List QueueEvent :=
  [QueueEvent.enqueue 1, QueueEvent.enqueue 2, QueueEvent.enqueue 3,
    QueueEvent.thenCallback 0, QueueEvent.nextTick 0, QueueEvent.settle 0,
    QueueEvent.thenCallback 1, QueueEvent.nextTick 1, QueueEvent.settle 1,
    QueueEvent.thenCallback 2, QueueEvent.nextTick 2, QueueEvent.settle 2]

/-- The queue after the three operations: all settled, entered and completed
one after the other. -/
def threeUpdatesDone : ChartQueue :=
  { jobs := [⟨1, JobStatus.settled⟩, ⟨2, JobStatus.settled⟩, ⟨3, JobStatus.settled⟩]
    log := [LogEntry.started 1, LogEntry.finished 1, LogEntry.started 2, LogEntry.finished 2,
      LogEntry.started 3, LogEntry.finished 3] }

/-- An employee list with a complete entry, one without `uid`, one without
`nama` and `name`, and one more complete entry. -/
def exampleKaryawanJson : JsVal :=
  JsVal.arr
    [JsVal.obj [("uid", JsVal.str "u1"), ("nama", JsVal.str "Ani")],
      JsVal.obj [("nama", JsVal.str "Budi")],
      JsVal.obj [("uid", JsVal.str "u3")],
      JsVal.obj [("uid", JsVal.str "u4"), ("nama", JsVal.str "Citra")]]

/-- A payload of two months whose `Asam Urat` readings are written
`6.999999999999999` and `7`. -/
def roundedSumPayload : HealthPayload :=
  { x_dates := some [JsVal.str "2024-01", JsVal.str "2024-02"]
    series := some
      [("Asam Urat", JsVal.arr [JsVal.num (6999999999999999 / 1000000000000000), JsVal.num 7])] }

/-- A payload of two months whose `Asam Urat` readings are written `6.3` and
`6.4`. -/
def halfwayPayload : HealthPayload :=
  { x_dates := some [JsVal.str "2024-01", JsVal.str "2024-02"]
    series := some [("Asam Urat", JsVal.arr [JsVal.num (63 / 10), JsVal.num (64 / 10)])] }

/-- A chart whose active metric is the name `constructor`. -/
def inheritedNameState : State :=
  { emphasisState with activeMetric := some "constructor" }

/-! ## Lemmas on `normalizeLen` -/

theorem normalizeLen_length (v : JsVal) (len : Nat) :
    (normalizeLen v len).length = len := by
  have key : ∀ a : List JsVal,
      (if a.length = len then a
        else if a.length > len then a.drop (a.length - len)
        else a ++ List.replicate (len - a.length) JsVal.null).length = len := by
    intro a
    split
    · assumption
    · split
      · simp only [List.length_drop]; omega
      · simp only [List.length_append, List.length_replicate]; omega
  exact key _

theorem normalizeLen_arr (a : List JsVal) (len : Nat) :
    normalizeLen (JsVal.arr a) len =
      if a.length = len then a
      else if a.length > len then a.drop (a.length - len)
      else a ++ List.replicate (len - a.length) JsVal.null := by
  simp [normalizeLen, JsVal.isArray, JsVal.elems]

theorem normalizeLen_of_length_eq (a : List JsVal) (len : Nat) (h : a.length = len) :
    normalizeLen (JsVal.arr a) len = a := by
  rw [normalizeLen_arr, if_pos h]

theorem normalizeLen_not_array (v : JsVal) (len : Nat) (h : v.isArray = false) :
    normalizeLen v len = List.replicate len JsVal.null := by
  unfold normalizeLen
  simp only [h, Bool.false_eq_true, if_false, List.length_nil, List.nil_append, Nat.sub_zero]
  split
  · next h0 => subst h0; rfl
  · split
    · next h1 => exact absurd h1 (Nat.not_lt_zero _)
    · rfl

theorem normalizeLen_mem (a : List JsVal) (len : Nat) (x : JsVal)
    (hx : x ∈ normalizeLen (JsVal.arr a) len) : x ∈ a ∨ x = JsVal.null := by
  rw [normalizeLen_arr] at hx
  split at hx
  · exact Or.inl hx
  · split at hx
    · exact Or.inl (List.mem_of_mem_drop hx)
    · rcases List.mem_append.1 hx with h | h
      · exact Or.inl h
      · exact Or.inr (List.eq_of_mem_replicate h)

theorem mem_normalizeLen_of_le (a : List JsVal) (len : Nat) (v : JsVal)
    (hv : v ∈ a) (hl : a.length ≤ len) : v ∈ normalizeLen (JsVal.arr a) len := by
  rw [normalizeLen_arr]
  split
  · exact hv
  · rw [if_neg (by omega)]
    exact List.mem_append_left _ hv

/-! ## Lemmas on `prepareHealthChart` -/

theorem prepareHealthChart_cleared (st : State) (data : HealthPayload)
    (h : totalPoints (healthEntries data) = 0 ∨ (data.x_dates.getD []).length = 0) :
    prepareHealthChart st data = { st with chartSeries := [], chartOptions := none } := by
  simp only [prepareHealthChart, if_pos h]

theorem prepareHealthChart_series (st : State) (data : HealthPayload)
    (h : ¬ (totalPoints (healthEntries data) = 0 ∨ (data.x_dates.getD []).length = 0)) :
    ∃ act : Option String,
      (prepareHealthChart st data).chartSeries =
        (healthEntries data).map (fun e =>
          ({ name := e.1, data := e.2, color := seriesColor e.1, opacity := opacityOf act e.1 } : Series)) ∧
      ∃ o : ChartOptions, (prepareHealthChart st data).chartOptions = some o ∧
        o.categories = data.x_dates.getD [] := by
  simp only [prepareHealthChart, if_neg h, updateMetricOpacity, updateHealthMetricsValues,
    List.map_map, Option.map_some']
  exact ⟨_, rfl, _, rfl, rfl⟩

theorem prepareHealthChart_isSome (st : State) (data : HealthPayload) :
    (prepareHealthChart st data).chartOptions.isSome = true ↔
      ¬ (totalPoints (healthEntries data) = 0 ∨ (data.x_dates.getD []).length = 0) := by
  by_cases h : totalPoints (healthEntries data) = 0 ∨ (data.x_dates.getD []).length = 0
  · rw [prepareHealthChart_cleared st data h]
    exact ⟨fun h1 => (by cases h1), fun h1 => absurd h h1⟩
  · obtain ⟨_, _, o, ho, _⟩ := prepareHealthChart_series st data h
    rw [ho]
    exact ⟨fun _ => h, fun _ => rfl⟩

theorem lookup_map_self {β : Type} (f : String → β) (l : List String) (n : String) (h : n ∈ l) :
    (l.map (fun k => (k, f k))).lookup n = some (f n) := by
  induction l with
  | nil => cases h
  | cons a t ih =>
    by_cases hna : n = a
    · subst hna
      simp [List.lookup]
    · have ht : n ∈ t := by
        rcases List.mem_cons.1 h with h1 | h1
        · exact absurd h1 hna
        · exact h1
      have hb : (n == a) = false := by simpa using hna
      simp only [List.map_cons, List.lookup, hb]
      exact ih ht

theorem rawGet_map_self (f : String → JsVal) (l : List String) (n : String) (h : n ∈ l) :
    rawGet (some (l.map (fun k => (k, f k)))) n = f n := by
  simp only [rawGet, lookup_map_self f l n h, Option.getD_some]

theorem healthMap_lookup (series : Option (List (String × JsVal))) (name : String)
    (h : name ∈ metricsList) :
    (healthMap series).lookup name =
      some (if (rawGet series name).isArray then rawGet series name else JsVal.arr []) :=
  lookup_map_self _ _ name h

theorem healthEntries_eq (data : HealthPayload) :
    healthEntries data = metricsList.map (fun name =>
      (name, normalizeLen (JsVal.arr (rawGet data.series name).elems) (data.x_dates.getD []).length)) := by
  unfold healthEntries
  apply List.map_congr_left
  intro name hmem
  congr 1
  cases hv : rawGet data.series name <;>
    simp [healthMap_lookup _ _ hmem, hv, JsVal.isArray, JsVal.elems, JsVal.orElse, JsVal.truthy]

theorem totalPoints_eq_sum (es : List (String × List JsVal)) :
    totalPoints es = (es.map (fun e => (e.2.filter isValidPoint).length)).sum := by
  have key : ∀ (l : List (String × List JsVal)) (n : Nat),
      l.foldl (fun acc e => acc + (e.2.filter isValidPoint).length) n =
        n + (l.map (fun e => (e.2.filter isValidPoint).length)).sum := by
    intro l
    induction l with
    | nil => intro n; simp
    | cons a t ih => intro n; simp [ih, Nat.add_assoc]
  simpa [totalPoints] using key es 0

theorem totalPoints_eq_zero (es : List (String × List JsVal))
    (h : ∀ e ∈ es, ∀ v ∈ e.2, isValidPoint v = false) : totalPoints es = 0 := by
  rw [totalPoints_eq_sum]
  apply List.sum_eq_zero
  intro n hn
  obtain ⟨e, he, rfl⟩ := List.mem_map.1 hn
  rw [List.length_eq_zero, List.filter_eq_nil_iff]
  intro v hv
  simp [h e he v hv]

theorem totalPoints_pos (es : List (String × List JsVal)) (e : String × List JsVal) (v : JsVal)
    (he : e ∈ es) (hv : v ∈ e.2) (hp : isValidPoint v = true) : 0 < totalPoints es := by
  rw [totalPoints_eq_sum]
  have h1 : 0 < (e.2.filter isValidPoint).length :=
    List.length_pos_of_mem (List.mem_filter.2 ⟨hv, hp⟩)
  have h2 : (e.2.filter isValidPoint).length ∈
      es.map (fun e => (e.2.filter isValidPoint).length) :=
    List.mem_map_of_mem (fun e => (e.2.filter isValidPoint).length) he
  exact Nat.lt_of_lt_of_le h1 (List.single_le_sum (fun _ _ => Nat.zero_le _) _ h2)

theorem prepareHealthChart_series_eq (st : State) (data : HealthPayload)
    (h : (prepareHealthChart st data).chartOptions.isSome = true) :
    ∃ act : Option String,
      (prepareHealthChart st data).chartSeries =
        metricsList.map (fun name =>
          ({ name := name
             data := normalizeLen (JsVal.arr (rawGet data.series name).elems)
               (data.x_dates.getD []).length
             color := seriesColor name
             opacity := opacityOf act name } : Series)) := by
  obtain ⟨act, hcs, _⟩ :=
    prepareHealthChart_series st data ((prepareHealthChart_isSome st data).1 h)
  refine ⟨act, ?_⟩
  rw [hcs, healthEntries_eq, List.map_map]
  rfl

theorem prepareHealthChart_renders (st : State) (data : HealthPayload) (name : String)
    (v : JsVal) (hname : name ∈ metricsList) (hv : v ∈ (rawGet data.series name).elems)
    (hp : isValidPoint v = true)
    (hl : (rawGet data.series name).elems.length ≤ (data.x_dates.getD []).length) :
    (prepareHealthChart st data).chartOptions.isSome = true := by
  rw [prepareHealthChart_isSome]
  intro h
  have hpos : 0 < totalPoints (healthEntries data) := by
    apply totalPoints_pos _ (name, normalizeLen (JsVal.arr (rawGet data.series name).elems)
      (data.x_dates.getD []).length) v
    · rw [healthEntries_eq]
      exact List.mem_map_of_mem _ hname
    · exact mem_normalizeLen_of_le _ _ _ hv hl
    · exact hp
  have hlen : 0 < (data.x_dates.getD []).length :=
    Nat.lt_of_lt_of_le (List.length_pos_of_mem hv) hl
  rcases h with h | h <;> omega

theorem prepareWellUnwellChart_renders (st : State) (w : WellPayload)
    (h : (w.unwell_counts.getD []).length ≠ 0) :
    (prepareWellUnwellChart st w).wellUnwellOptions.isSome = true := by
  simp only [prepareWellUnwellChart, if_pos (Or.inr h)]
  rfl

theorem seriesColor_table :
    metricsList.map (fun name => (name, seriesColor name)) =
      [("Gula Darah Puasa", "#f87171"), ("Gula Darah Sewaktu", "#dc2626"),
        ("Tekanan Darah", "#ef4444"), ("Cholesterol", "#06b6d4"), ("Asam Urat", "#f59e0b")] := by
  decide

theorem prepareHealthChart_dataset (st : State) (data : HealthPayload)
    (h : ¬ (totalPoints (healthEntries data) = 0 ∨ (data.x_dates.getD []).length = 0)) :
    (prepareHealthChart st data).chartOptions.map (fun o => o.categories)
        = some (data.x_dates.getD []) ∧
      (prepareHealthChart st data).chartSeries.map (fun s => (s.name, s.data))
        = healthEntries data := by
  obtain ⟨act, hcs, o, ho, hcat⟩ := prepareHealthChart_series st data h
  refine ⟨by rw [ho, Option.map_some', hcat], ?_⟩
  rw [hcs, List.map_map]
  exact List.map_id _

theorem datasetPayload_entries (st : State) (data : HealthPayload)
    (h : ¬ (totalPoints (healthEntries data) = 0 ∨ (data.x_dates.getD []).length = 0)) :
    (datasetPayload (prepareHealthChart st data)).x_dates = some (data.x_dates.getD []) ∧
      healthEntries (datasetPayload (prepareHealthChart st data)) = healthEntries data := by
  obtain ⟨hcat, hser⟩ := prepareHealthChart_dataset st data h
  have hx : (datasetPayload (prepareHealthChart st data)).x_dates
      = some (data.x_dates.getD []) := hcat
  have hs : (datasetPayload (prepareHealthChart st data)).series =
      some (metricsList.map (fun name =>
        (name, JsVal.arr (normalizeLen (JsVal.arr (rawGet data.series name).elems)
          (data.x_dates.getD []).length)))) := by
    have h1 : (datasetPayload (prepareHealthChart st data)).series =
        some (((prepareHealthChart st data).chartSeries.map (fun s => (s.name, s.data))).map
          (fun e => (e.1, JsVal.arr e.2))) := by
      simp only [datasetPayload, List.map_map]
      rfl
    rw [h1, hser, healthEntries_eq, List.map_map]
    rfl
  refine ⟨hx, ?_⟩
  rw [healthEntries_eq, healthEntries_eq, hx, hs]
  apply List.map_congr_left
  intro name hname
  rw [rawGet_map_self (fun name => JsVal.arr (normalizeLen (JsVal.arr (rawGet data.series name).elems)
    (data.x_dates.getD []).length)) metricsList name hname]
  simp only [Option.getD_some, JsVal.elems]
  rw [normalizeLen_of_length_eq _ _ (normalizeLen_length _ _)]

/-! ## Lemmas on the render gates -/

theorem foldl_max_ge (g : String → Nat) (l : List String) (n : Nat) :
    n ≤ l.foldl (fun mx k => max mx (g k)) n ∧
      ∀ k ∈ l, g k ≤ l.foldl (fun mx k => max mx (g k)) n := by
  induction l generalizing n with
  | nil => exact ⟨Nat.le_refl _, fun k hk => by cases hk⟩
  | cons a t ih =>
    obtain ⟨h1, h2⟩ := ih (max n (g a))
    refine ⟨Nat.le_trans (Nat.le_max_left _ _) h1, ?_⟩
    intro k hk
    rcases List.mem_cons.1 hk with rfl | hk
    · exact Nat.le_trans (Nat.le_max_right _ _) h1
    · exact h2 k hk

theorem foldl_max_lt (g : String → Nat) (l : List String) (n b : Nat)
    (hn : n < b) (hg : ∀ k ∈ l, g k < b) :
    l.foldl (fun mx k => max mx (g k)) n < b := by
  induction l generalizing n with
  | nil => exact hn
  | cons a t ih =>
    apply ih
    · exact Nat.max_lt.2 ⟨hn, hg a (List.mem_cons_self _ _)⟩
    · intro k hk
      exact hg k (List.mem_cons_of_mem _ hk)

theorem rawGet_mem_keys (series : Option (List (String × JsVal))) (k : String) (xs : List JsVal)
    (h : rawGet series k = JsVal.arr xs) : k ∈ seriesKeys series := by
  cases series with
  | none => simp [rawGet] at h
  | some kvs =>
    simp only [rawGet] at h
    simp only [seriesKeys]
    induction kvs with
    | nil => simp [List.lookup] at h
    | cons a t ih =>
      by_cases hka : k = a.1
      · simp [hka]
      · have hb : (k == a.1) = false := by simpa using hka
        obtain ⟨a1, a2⟩ := a
        simp only [List.lookup, hb] at h
        simp only [List.map_cons, List.mem_cons]
        exact Or.inr (ih h)

theorem orElse_elems_length (v : JsVal) :
    (if (v.orElse (JsVal.arr [])).isArray then (v.orElse (JsVal.arr [])).elems.length else 0)
      = v.elems.length := by
  cases v with
  | arr xs => simp [JsVal.orElse, JsVal.truthy, JsVal.isArray, JsVal.elems]
  | null => simp [JsVal.orElse, JsVal.truthy, JsVal.isArray, JsVal.elems]
  | undefined => simp [JsVal.orElse, JsVal.truthy, JsVal.isArray, JsVal.elems]
  | nan => simp [JsVal.orElse, JsVal.truthy, JsVal.isArray, JsVal.elems]
  | obj kvs => simp [JsVal.orElse, JsVal.truthy, JsVal.isArray, JsVal.elems]
  | bool b => cases b <;> simp [JsVal.orElse, JsVal.truthy, JsVal.isArray, JsVal.elems]
  | num q =>
    by_cases hq : roundDouble q = JsNum.fin 0 <;>
      simp [JsVal.orElse, JsVal.truthy, JsVal.isArray, JsVal.elems, hq]
  | str t =>
    by_cases ht : t = "" <;> simp [JsVal.orElse, JsVal.truthy, JsVal.isArray, JsVal.elems, ht]

theorem maxSeriesLen_eq (series : Option (List (String × JsVal))) :
    maxSeriesLen series =
      (seriesKeys series).foldl (fun mx k => max mx (rawGet series k).elems.length) 0 := by
  simp only [maxSeriesLen, orElse_elems_length]

theorem le_maxSeriesLen (series : Option (List (String × JsVal))) (k : String) (xs : List JsVal)
    (h : rawGet series k = JsVal.arr xs) : xs.length ≤ maxSeriesLen series := by
  have hk := rawGet_mem_keys series k xs h
  have h1 := (foldl_max_ge (fun k => (rawGet series k).elems.length) (seriesKeys series) 0).2 k hk
  rw [maxSeriesLen_eq]
  simpa [h, JsVal.elems] using h1

theorem maxSeriesLen_lt (series : Option (List (String × JsVal))) (b : Nat) (hb : 0 < b)
    (h : ∀ k xs, rawGet series k = JsVal.arr xs → xs.length < b) : maxSeriesLen series < b := by
  rw [maxSeriesLen_eq]
  apply foldl_max_lt _ _ _ _ hb
  intro k _
  cases hv : rawGet series k with
  | arr xs => exact h k xs hv
  | _ => exact hb

/-! ## Lemmas on the number model

`floorLog2_spec` and `roundDouble_close` say that `roundDouble` rounds within
half a unit in the last place; `roundDouble_natCast` that whole numbers below
`2 ^ 53` are binary64 values; `numberToString_natCast` that such a number is
printed as its digits; `numberToString_tenths` that the double of `n / 10` is
printed as the decimal of `n / 10`. -/

theorem toDigitsCore_append (b : Nat) (fuel n : Nat) (ds : List Char) :
    Nat.toDigitsCore b fuel n ds = Nat.toDigitsCore b fuel n [] ++ ds := by
  induction fuel generalizing n ds with
  | zero => simp [Nat.toDigitsCore]
  | succ f ih =>
    simp only [Nat.toDigitsCore]
    by_cases h : n / b = 0
    · simp [h]
    · simp only [h, if_false]
      rw [ih (n / b) (Nat.digitChar (n % b) :: ds), ih (n / b) [Nat.digitChar (n % b)]]
      simp

theorem toDigitsCore_fuel (b : Nat) (hb : 2 ≤ b) (f1 f2 n : Nat) (h1 : n < f1) (h2 : n < f2)
    (ds : List Char) : Nat.toDigitsCore b f1 n ds = Nat.toDigitsCore b f2 n ds := by
  induction f1 generalizing f2 n ds with
  | zero => omega
  | succ f1 ih =>
    cases f2 with
    | zero => omega
    | succ f2 =>
      simp only [Nat.toDigitsCore]
      by_cases h : n / b = 0
      · simp [h]
      · simp only [h, if_false]
        have hn : 0 < n := by
          rcases Nat.eq_zero_or_pos n with h0 | h0
          · subst h0; simp at h
          · exact h0
        have hlt : n / b < n := Nat.div_lt_self hn hb
        exact ih f2 (n / b) (by omega) (by omega) _

theorem toDigits_small (b : Nat) (n : Nat) (h : n < b) :
    Nat.toDigits b n = [Nat.digitChar n] := by
  simp [Nat.toDigits, Nat.toDigitsCore, Nat.div_eq_of_lt h, Nat.mod_eq_of_lt h]

theorem toDigits_step (b : Nat) (hb : 2 ≤ b) (n : Nat) (h : b ≤ n) :
    Nat.toDigits b n = Nat.toDigits b (n / b) ++ [Nat.digitChar (n % b)] := by
  have hn : 0 < n := by omega
  have hd : n / b ≠ 0 := by
    have : 0 < n / b := Nat.div_pos h (by omega)
    omega
  have hlt : n / b < n := Nat.div_lt_self hn hb
  have e1 : Nat.toDigits b n = Nat.toDigitsCore b n (n / b) [Nat.digitChar (n % b)] := by
    unfold Nat.toDigits
    rw [Nat.toDigitsCore]
    simp only [hd, if_false]
  have e2 : Nat.toDigits b (n / b) = Nat.toDigitsCore b (n / b + 1) (n / b) [] := rfl
  rw [e1, e2, toDigitsCore_append, toDigitsCore_fuel b hb n (n / b + 1) (n / b) hlt (by omega)]

theorem toDigits_length_pos (b : Nat) (n : Nat) : 0 < (Nat.toDigits b n).length := by
  unfold Nat.toDigits
  rw [Nat.toDigitsCore]
  by_cases h : n / b = 0
  · simp [h]
  · simp only [h, if_false]
    rw [toDigitsCore_append]
    simp

theorem toDigits_bounds (b : Nat) (hb : 2 ≤ b) (n : Nat) (hn : 0 < n) :
    b ^ ((Nat.toDigits b n).length - 1) ≤ n ∧ n < b ^ (Nat.toDigits b n).length := by
  induction n using Nat.strong_induction_on with
  | _ n ih =>
    by_cases h : n < b
    · rw [toDigits_small b n h]
      simp
      exact ⟨hn, h⟩
    · have hge : b ≤ n := not_lt.1 h
      have hq : 0 < n / b := Nat.div_pos hge (by omega)
      have hlt : n / b < n := Nat.div_lt_self hn hb
      obtain ⟨h1, h2⟩ := ih (n / b) hlt hq
      have hpos := toDigits_length_pos b (n / b)
      rw [toDigits_step b hb n hge]
      simp only [List.length_append, List.length_singleton, Nat.add_sub_cancel]
      constructor
      · have : b ^ (Nat.toDigits b (n / b)).length
            = b ^ ((Nat.toDigits b (n / b)).length - 1) * b := by
          rw [← pow_succ]
          congr 1
          omega
        rw [this]
        calc b ^ ((Nat.toDigits b (n / b)).length - 1) * b ≤ (n / b) * b :=
              Nat.mul_le_mul_right _ h1
          _ ≤ n := Nat.div_mul_le_self n b
      · rw [pow_succ]
        exact (Nat.div_lt_iff_lt_mul (by omega)).1 h2

theorem toDigits_mul_pow (s m : Nat) (hs : 0 < s) :
    Nat.toDigits 10 (s * 10 ^ m) = Nat.toDigits 10 s ++ List.replicate m '0' := by
  induction m with
  | zero => simp
  | succ m ih =>
    have hge : 10 ≤ s * 10 ^ (m + 1) := by
      have : 1 ≤ s * 10 ^ m := Nat.mul_pos hs (by positivity)
      calc 10 = 1 * 10 := by norm_num
        _ ≤ (s * 10 ^ m) * 10 := Nat.mul_le_mul_right _ this
        _ = s * 10 ^ (m + 1) := by ring
    rw [toDigits_step 10 (by norm_num) _ hge]
    have hdiv : s * 10 ^ (m + 1) / 10 = s * 10 ^ m := by
      rw [pow_succ, ← mul_assoc]
      exact Nat.mul_div_cancel _ (by norm_num)
    have hmod : s * 10 ^ (m + 1) % 10 = 0 := by
      rw [pow_succ, ← mul_assoc]
      exact Nat.mul_mod_left _ _
    rw [hdiv, hmod, ih, List.replicate_succ', List.append_assoc]
    rfl

theorem pow2_natCast (e : Nat) : pow2 (e : ℤ) = (2 : ℚ) ^ e := by
  simp [pow2]

theorem bitLength_bounds (k : Nat) (hk : 0 < k) :
    2 ^ (bitLength k - 1) ≤ k ∧ k < 2 ^ bitLength k :=
  toDigits_bounds 2 (le_refl 2) k hk

theorem bitLength_pos (k : Nat) : 0 < bitLength k := toDigits_length_pos 2 k

theorem floorLog2_natCast (k : Nat) (hk : 0 < k) :
    floorLog2 (k : ℚ) = ((bitLength k - 1 : Nat) : ℤ) := by
  obtain ⟨h1, _⟩ := bitLength_bounds k hk
  have hpos := bitLength_pos k
  have hb1 : bitLength 1 = 1 := by decide
  have e0 : ((bitLength (k : ℚ).num.natAbs : ℤ) - (bitLength (k : ℚ).den : ℤ))
      = ((bitLength k - 1 : Nat) : ℤ) := by
    rw [Rat.num_natCast, Rat.den_natCast, Int.natAbs_ofNat, hb1]
    omega
  unfold floorLog2
  simp only [e0]
  rw [pow2_natCast]
  have : (2 : ℚ) ^ (bitLength k - 1) ≤ (k : ℚ) := by exact_mod_cast h1
  simp [this]

theorem roundHalfEven_natCast (m : Nat) : roundHalfEven (m : ℚ) = (m : ℤ) := by
  have hf : ⌊(m : ℚ)⌋ = (m : ℤ) := Int.floor_natCast m
  simp [roundHalfEven, hf]

theorem floor_le_roundHalfEven (x : ℚ) : ⌊x⌋ ≤ roundHalfEven x := by
  unfold roundHalfEven
  simp only
  split_ifs <;> omega

theorem pow2_sub (e : Nat) (he : e ≤ 52) : pow2 ((e : ℤ) - 52) = 1 / (2 : ℚ) ^ (52 - e) := by
  unfold pow2
  by_cases h : e = 52
  · subst h; simp
  · have hlt : ¬ (0 ≤ (e : ℤ) - 52) := by omega
    have ht : (-((e : ℤ) - 52)).toNat = 52 - e := by omega
    simp only [hlt, if_false, ht]

theorem pow2_sub_ge (e : Nat) (he : 52 ≤ e) : pow2 ((e : ℤ) - 52) = (2 : ℚ) ^ (e - 52) := by
  unfold pow2
  have hge : 0 ≤ (e : ℤ) - 52 := by omega
  have ht : ((e : ℤ) - 52).toNat = e - 52 := by omega
  simp only [hge, if_true, ht]

theorem pow2_1024 : pow2 1024 = (2 : ℚ) ^ 1024 := by
  simp [pow2]

/-- A whole number below `2 ^ 53` is a binary64 value. -/
theorem roundDouble_natCast (k : Nat) (hk : 0 < k) (hlt : k < 2 ^ 53) :
    roundDouble (k : ℚ) = JsNum.fin (k : ℚ) := by
  obtain ⟨h1, h2⟩ := bitLength_bounds k hk
  have he : bitLength k - 1 ≤ 52 := by
    by_contra hc
    have h53 : 53 ≤ bitLength k - 1 := by omega
    have : 2 ^ 53 ≤ 2 ^ (bitLength k - 1) := Nat.pow_le_pow_right (by norm_num) h53
    omega
  have hq0 : (k : ℚ) ≠ 0 := by exact_mod_cast (Nat.pos_iff_ne_zero.1 hk)
  have hqpos : (0 : ℚ) < (k : ℚ) := by exact_mod_cast hk
  have habs : |(k : ℚ)| = (k : ℚ) := abs_of_pos hqpos
  have hnneg : ¬ ((k : ℚ) < 0) := not_lt.2 hqpos.le
  have hmax : max (((bitLength k - 1 : Nat) : ℤ)) (-1022) = ((bitLength k - 1 : Nat) : ℤ) := by
    omega
  have hdiv : (k : ℚ) / (1 / (2 : ℚ) ^ (52 - (bitLength k - 1)))
      = ((k * 2 ^ (52 - (bitLength k - 1)) : Nat) : ℚ) := by
    push_cast
    field_simp
  have hr : ((((k * 2 ^ (52 - (bitLength k - 1)) : Nat) : ℤ) : ℚ))
      * (1 / (2 : ℚ) ^ (52 - (bitLength k - 1))) = (k : ℚ) := by
    push_cast
    field_simp
  have hsmall : ¬ ((2 : ℚ) ^ 1024 ≤ (k : ℚ)) := by
    have : (k : ℚ) < (2 : ℚ) ^ 53 := by exact_mod_cast hlt
    have h2 : (2 : ℚ) ^ 53 ≤ (2 : ℚ) ^ 1024 := by
      apply pow_le_pow_right₀ <;> norm_num
    linarith
  have habs2 : roundDoubleAbs (k : ℚ) = some (k : ℚ) := by
    unfold roundDoubleAbs
    simp only [floorLog2_natCast k hk, hmax, pow2_sub _ he, hdiv, roundHalfEven_natCast, hr,
      pow2_1024, hsmall, if_false]
  unfold roundDouble
  simp only [hq0, if_false, habs, habs2, hnneg]

theorem roundDouble_natCast_large (k : Nat) (hge : 2 ^ 53 ≤ k) (x : ℚ)
    (h : roundDouble (k : ℚ) = JsNum.fin x) : (2 : ℚ) ^ 53 ≤ x := by
  have hk : 0 < k := lt_of_lt_of_le (by norm_num) hge
  obtain ⟨h1, h2⟩ := bitLength_bounds k hk
  have he : 53 ≤ bitLength k - 1 := by
    by_contra hc
    have h52 : bitLength k ≤ 53 := by omega
    have : 2 ^ bitLength k ≤ 2 ^ 53 := Nat.pow_le_pow_right (by norm_num) h52
    omega
  have hq0 : (k : ℚ) ≠ 0 := by exact_mod_cast (Nat.pos_iff_ne_zero.1 hk)
  have hqpos : (0 : ℚ) < (k : ℚ) := by exact_mod_cast hk
  have habs : |(k : ℚ)| = (k : ℚ) := abs_of_pos hqpos
  have hnneg : ¬ ((k : ℚ) < 0) := not_lt.2 hqpos.le
  have hmax : max (((bitLength k - 1 : Nat) : ℤ)) (-1022) = ((bitLength k - 1 : Nat) : ℤ) := by
    omega
  have hu : (0 : ℚ) < (2 : ℚ) ^ (bitLength k - 1 - 52) := by positivity
  have hx52 : (2 : ℚ) ^ 52 ≤ (k : ℚ) / (2 : ℚ) ^ (bitLength k - 1 - 52) := by
    rw [le_div_iff₀ hu]
    have : (2 : ℚ) ^ 52 * (2 : ℚ) ^ (bitLength k - 1 - 52) = (2 : ℚ) ^ (bitLength k - 1) := by
      rw [← pow_add]
      congr 1
      omega
    rw [this]
    exact_mod_cast h1
  have hz : (((2 : ℤ) ^ 52 : ℤ) : ℚ) = (2 : ℚ) ^ 52 := by norm_num
  have hfl : (2 : ℤ) ^ 52 ≤ roundHalfEven ((k : ℚ) / (2 : ℚ) ^ (bitLength k - 1 - 52)) :=
    le_trans (Int.le_floor.2 (by rw [hz]; exact hx52)) (floor_le_roundHalfEven _)
  have hrge : (2 : ℚ) ^ 53 ≤
      (roundHalfEven ((k : ℚ) / (2 : ℚ) ^ (bitLength k - 1 - 52)) : ℚ)
        * (2 : ℚ) ^ (bitLength k - 1 - 52) := by
    have hc : ((2 : ℚ) ^ 52) ≤ (roundHalfEven ((k : ℚ) / (2 : ℚ) ^ (bitLength k - 1 - 52)) : ℚ) := by
      rw [← hz]
      exact_mod_cast hfl
    have h1' : (2 : ℚ) ^ 52 * (2 : ℚ) ^ (bitLength k - 1 - 52)
        ≤ (roundHalfEven ((k : ℚ) / (2 : ℚ) ^ (bitLength k - 1 - 52)) : ℚ)
          * (2 : ℚ) ^ (bitLength k - 1 - 52) :=
      mul_le_mul_of_nonneg_right hc hu.le
    have h2' : (2 : ℚ) ^ 53 ≤ (2 : ℚ) ^ 52 * (2 : ℚ) ^ (bitLength k - 1 - 52) := by
      rw [← pow_add]
      apply pow_le_pow_right₀ (by norm_num)
      omega
    linarith
  unfold roundDouble at h
  simp only [hq0, if_false, habs, hnneg] at h
  unfold roundDoubleAbs at h
  simp only [floorLog2_natCast k hk, hmax, pow2_sub_ge _ (by omega : 52 ≤ bitLength k - 1)] at h
  split at h
  · cases h
  · next r hr =>
    simp only [JsNum.fin.injEq] at h
    split_ifs at hr with hov
    simp only [Option.some.injEq] at hr
    rw [← h, ← hr]
    exact hrge

theorem pow10_sub (L j : Nat) (h : j ≤ L) : pow10 ((L : ℤ) - (j : ℤ)) = (10 : ℚ) ^ (L - j) := by
  unfold pow10
  have hge : 0 ≤ (L : ℤ) - (j : ℤ) := by omega
  have ht : ((L : ℤ) - (j : ℤ)).toNat = L - j := by omega
  simp only [hge, if_true, ht]

theorem digitCount_bounds (k : Nat) (hk : 0 < k) :
    10 ^ (digitCount k - 1) ≤ k ∧ k < 10 ^ digitCount k :=
  toDigits_bounds 10 (by norm_num) k hk

theorem roundDouble_ne_of_lt (m k : Nat) (hk : k < 2 ^ 53) (hlt : k < m) :
    roundDouble (m : ℚ) ≠ JsNum.fin (k : ℚ) := by
  intro h
  by_cases hm : m < 2 ^ 53
  · rw [roundDouble_natCast m (by omega) hm] at h
    simp only [JsNum.fin.injEq, Nat.cast_inj] at h
    omega
  · have := roundDouble_natCast_large m (not_lt.1 hm) _ h
    have h2 : (k : ℚ) < (2 : ℚ) ^ 53 := by exact_mod_cast hk
    linarith

theorem shortestDigits_step (fuel j L k : Nat) (hk : 0 < k) (hlt : k < 2 ^ 53)
    (hj : 1 ≤ j) (hjL : j ≤ L) (hL : L = digitCount k) :
    shortestDigits (fuel + 1) j (L : ℤ) (k : ℚ) =
      if k / 10 ^ (L - j) * 10 ^ (L - j) = k then (k / 10 ^ (L - j), j, (L : ℤ))
      else shortestDigits fuel (j + 1) (L : ℤ) (k : ℚ) := by
  obtain ⟨hlo, hhi⟩ := digitCount_bounds k hk
  rw [← hL] at hlo hhi
  have hG : 0 < 10 ^ (L - j) := by positivity
  have hc1 : ⌊(k : ℚ) / (10 : ℚ) ^ (L - j)⌋ = ((k / 10 ^ (L - j) : Nat) : ℤ) := by
    have := Rat.floor_natCast_div_natCast k (10 ^ (L - j))
    rw [Nat.cast_pow] at this
    exact_mod_cast this
  have hmul_le : k / 10 ^ (L - j) * 10 ^ (L - j) ≤ k := Nat.div_mul_le_self _ _
  have hcpos : 0 < k / 10 ^ (L - j) := by
    apply Nat.div_pos _ hG
    calc 10 ^ (L - j) ≤ 10 ^ (L - 1) := Nat.pow_le_pow_right (by norm_num) (by omega)
      _ ≤ k := hlo
  have hgt : k < (k / 10 ^ (L - j) + 1) * 10 ^ (L - j) := by
    have := Nat.lt_succ_self (k / 10 ^ (L - j))
    exact (Nat.div_lt_iff_lt_mul hG).1 this
  have hclt : k / 10 ^ (L - j) < 10 ^ j := by
    apply (Nat.div_lt_iff_lt_mul hG).2
    calc k < 10 ^ L := hhi
      _ = 10 ^ j * 10 ^ (L - j) := by rw [← pow_add]; congr 1; omega
  rw [shortestDigits]
  simp only [pow10_sub L j hjL, hc1]
  generalize k / 10 ^ (L - j) = c at hmul_le hcpos hgt hclt ⊢
  have hv1 : (((c : Nat) : ℤ) : ℚ) * (10 : ℚ) ^ (L - j) = ((c * 10 ^ (L - j) : Nat) : ℚ) := by
    push_cast; ring
  have hv2 : ((((c : Nat) : ℤ) + 1 : ℤ) : ℚ) * (10 : ℚ) ^ (L - j)
      = (((c + 1) * 10 ^ (L - j) : Nat) : ℚ) := by
    push_cast; ring
  have hok2 : roundDouble ((((c + 1) * 10 ^ (L - j) : Nat)) : ℚ) ≠ JsNum.fin (k : ℚ) :=
    roundDouble_ne_of_lt _ k hlt hgt
  have hr1 : roundDouble (((c * 10 ^ (L - j) : Nat)) : ℚ)
      = JsNum.fin (((c * 10 ^ (L - j) : Nat)) : ℚ) :=
    roundDouble_natCast _ (Nat.mul_pos hcpos hG) (by omega)
  simp only [hv1, hv2, hr1, hok2, decide_False, Bool.or_false,
    Bool.and_false, JsNum.fin.injEq, Nat.cast_inj]
  by_cases he : c * 10 ^ (L - j) = k
  · have hne : ((c : Nat) : ℤ) ≠ (10 : ℤ) ^ j := by
      intro h
      have : c = 10 ^ j := by exact_mod_cast h
      omega
    simp [he, hne]
  · simp [he]

theorem shortestDigits_natCast (k L : Nat) (hk : 0 < k) (hlt : k < 2 ^ 53) (hL : L = digitCount k)
    (fuel j : Nat) (hj : 1 ≤ j) (hjL : j ≤ L) (hf : L - j < fuel) :
    ∃ s i, shortestDigits fuel j (L : ℤ) (k : ℚ) = (s, i, (L : ℤ)) ∧ i ≤ L ∧ 0 < s ∧
      s * 10 ^ (L - i) = k := by
  induction fuel generalizing j with
  | zero => omega
  | succ fuel ih =>
    rw [shortestDigits_step fuel j L k hk hlt hj hjL hL]
    by_cases he : k / 10 ^ (L - j) * 10 ^ (L - j) = k
    · refine ⟨k / 10 ^ (L - j), j, by simp [he], hjL, ?_, he⟩
      rcases Nat.eq_zero_or_pos (k / 10 ^ (L - j)) with h0 | h0
      · rw [h0] at he; omega
      · exact h0
    · have hne : j ≠ L := by
        intro h
        apply he
        rw [h]
        simp
      simp only [he, if_false]
      exact ih (j + 1) (by omega) (by omega) (by omega)

theorem decimalExponent_natCast (k : Nat) (hk : 0 < k) :
    decimalExponent (k : ℚ) = (digitCount k : ℤ) := by
  have h1 : (1 : ℚ) ≤ (k : ℚ) := by exact_mod_cast hk
  have hf : ⌊(k : ℚ)⌋ = (k : ℤ) := Int.floor_natCast k
  simp [decimalExponent, h1, hf]

theorem positiveToString_natCast (k : Nat) (hk : 0 < k) (hlt : k < 2 ^ 53) :
    positiveToString (k : ℚ) = toString k := by
  obtain ⟨hlo, hhi⟩ := digitCount_bounds k hk
  have hpos : 0 < digitCount k := toDigits_length_pos 10 k
  have hL16 : digitCount k ≤ 16 := by
    by_contra hc
    have h16 : 16 ≤ digitCount k - 1 := by omega
    have : 10 ^ 16 ≤ 10 ^ (digitCount k - 1) := Nat.pow_le_pow_right (by norm_num) h16
    have h53 : (2 : Nat) ^ 53 < 10 ^ 16 := by norm_num
    omega
  obtain ⟨s, i, hs, hi, hspos, hmul⟩ :=
    shortestDigits_natCast k (digitCount k) hk hlt rfl 17 1 (le_refl 1) hpos (by omega)
  have hcond : ((i : ℤ) ≤ (digitCount k : ℤ) ∧ (digitCount k : ℤ) ≤ 21) := by
    constructor <;> omega
  have ht : ((digitCount k : ℤ) - (i : ℤ)).toNat = digitCount k - i := by omega
  have hd : Nat.toDigits 10 k = Nat.toDigits 10 s ++ List.replicate (digitCount k - i) '0' := by
    rw [← toDigits_mul_pow s _ hspos, hmul]
  unfold positiveToString
  simp only [decimalExponent_natCast k hk, hs, hcond, and_self, if_true, ht, zeros]
  show _ = (Nat.toDigits 10 k).asString
  rw [hd]
  rfl

/-- A whole number below `2 ^ 53` is printed as its decimal digits. -/
theorem numberToString_natCast (k : Nat) (hlt : k < 2 ^ 53) :
    numberToString (JsNum.fin (k : ℚ)) = toString k := by
  rcases Nat.eq_zero_or_pos k with h0 | hk
  · subst h0
    simp [numberToString]
    rfl
  · have hq0 : (k : ℚ) ≠ 0 := by exact_mod_cast (Nat.pos_iff_ne_zero.1 hk)
    have hnneg : ¬ ((k : ℚ) < 0) := not_lt.2 (Nat.cast_nonneg k)
    simp only [numberToString, hq0, hnneg, if_false]
    exact positiveToString_natCast k hk hlt

theorem pow2_eq_zpow (e : ℤ) : pow2 e = (2 : ℚ) ^ e := by
  unfold pow2
  by_cases h : 0 ≤ e
  · simp only [h, if_true]
    conv_rhs => rw [← Int.toNat_of_nonneg h]
    rw [zpow_natCast]
  · simp only [h, if_false]
    have hneg : 0 ≤ -e := by omega
    have : e = -((-e).toNat : ℤ) := by rw [Int.toNat_of_nonneg hneg]; ring
    conv_rhs => rw [this]
    rw [zpow_neg, zpow_natCast, one_div]

theorem pow2_pos (e : ℤ) : 0 < pow2 e := by
  rw [pow2_eq_zpow]; positivity

theorem quotient_between_powers (N D bn bd : Nat) (hD : 0 < D)
    (n1 : 2 ^ (bn - 1) ≤ N) (n2 : N < 2 ^ bn) (d1 : 2 ^ (bd - 1) ≤ D) (d2 : D < 2 ^ bd)
    (hbn : 0 < bn) (hbd : 0 < bd) :
    (2 : ℚ) ^ ((bn : ℤ) - (bd : ℤ) - 1) ≤ (N : ℚ) / (D : ℚ) ∧
      (N : ℚ) / (D : ℚ) < (2 : ℚ) ^ ((bn : ℤ) - (bd : ℤ) + 1) := by
  have hdq : (0 : ℚ) < (D : ℚ) := by exact_mod_cast hD
  have hn1 : (2 : ℚ) ^ (bn - 1) ≤ (N : ℚ) := by exact_mod_cast n1
  have hn2 : (N : ℚ) < (2 : ℚ) ^ bn := by exact_mod_cast n2
  have hd1 : (2 : ℚ) ^ (bd - 1) ≤ (D : ℚ) := by exact_mod_cast d1
  have hd2 : (D : ℚ) ≤ (2 : ℚ) ^ bd := by exact_mod_cast d2.le
  constructor
  · have hsplit : (2 : ℚ) ^ ((bn : ℤ) - (bd : ℤ) - 1) = (2 : ℚ) ^ (bn - 1) / (2 : ℚ) ^ bd := by
      rw [← zpow_natCast, ← zpow_natCast, ← zpow_sub₀ (by norm_num : (2 : ℚ) ≠ 0)]
      congr 1
      omega
    rw [hsplit, div_le_div_iff₀ (by positivity) hdq]
    calc (2 : ℚ) ^ (bn - 1) * (D : ℚ) ≤ (N : ℚ) * (D : ℚ) :=
          mul_le_mul_of_nonneg_right hn1 hdq.le
      _ ≤ (N : ℚ) * (2 : ℚ) ^ bd := mul_le_mul_of_nonneg_left hd2 (by positivity)
  · have hsplit : (2 : ℚ) ^ ((bn : ℤ) - (bd : ℤ) + 1) = (2 : ℚ) ^ bn / (2 : ℚ) ^ (bd - 1) := by
      rw [← zpow_natCast, ← zpow_natCast, ← zpow_sub₀ (by norm_num : (2 : ℚ) ≠ 0)]
      congr 1
      omega
    rw [hsplit, div_lt_div_iff₀ hdq (by positivity)]
    calc (N : ℚ) * (2 : ℚ) ^ (bd - 1) ≤ (N : ℚ) * (D : ℚ) :=
          mul_le_mul_of_nonneg_left hd1 (by positivity)
      _ < (2 : ℚ) ^ bn * (D : ℚ) := mul_lt_mul_of_pos_right hn2 hdq

/-- The exponent found by `floorLog2` is the binary exponent of `a`. -/
theorem floorLog2_spec (a : ℚ) (ha : 0 < a) :
    pow2 (floorLog2 a) ≤ a ∧ a < pow2 (floorLog2 a + 1) := by
  have hnum : 0 < a.num := Rat.num_pos.2 ha
  have hn : 0 < a.num.natAbs := Int.natAbs_pos.2 (ne_of_gt hnum)
  have hd : 0 < a.den := a.den_pos
  obtain ⟨n1, n2⟩ := bitLength_bounds a.num.natAbs hn
  obtain ⟨d1, d2⟩ := bitLength_bounds a.den hd
  have hbn := bitLength_pos a.num.natAbs
  have hbd := bitLength_pos a.den
  have haeq : (a.num.natAbs : ℚ) / (a.den : ℚ) = a := by
    have h2 : (a.num.natAbs : ℚ) = (a.num : ℚ) := by
      rw [← Int.cast_natCast, Int.natAbs_of_nonneg hnum.le]
    rw [h2]
    exact Rat.num_div_den a
  obtain ⟨hlow, hup⟩ := quotient_between_powers a.num.natAbs a.den _ _ hd n1 n2 d1 d2 hbn hbd
  rw [haeq] at hlow hup
  unfold floorLog2
  simp only
  by_cases hc : pow2 ((bitLength a.num.natAbs : ℤ) - (bitLength a.den : ℤ)) ≤ a
  · rw [if_pos hc]
    exact ⟨hc, by rw [pow2_eq_zpow]; exact hup⟩
  · rw [if_neg hc]
    refine ⟨by rw [pow2_eq_zpow]; exact hlow, ?_⟩
    rw [sub_add_cancel]
    exact not_le.1 hc

theorem roundHalfEven_close (x : ℚ) : |(roundHalfEven x : ℚ) - x| ≤ 1 / 2 := by
  have h1 : ((⌊x⌋ : ℤ) : ℚ) ≤ x := Int.floor_le x
  have h2 : x < ((⌊x⌋ : ℤ) : ℚ) + 1 := Int.lt_floor_add_one x
  unfold roundHalfEven
  simp only
  rw [abs_le]
  split_ifs with c1 c2 c3
  · constructor <;> linarith
  · push_cast
    constructor <;> linarith
  · constructor <;> linarith
  · push_cast
    have : x - ((⌊x⌋ : ℤ) : ℚ) = 1 / 2 := le_antisymm (not_lt.1 c2) (not_lt.1 c1)
    constructor <;> linarith

/-- Rounding to binary64 moves a number by at most half a unit in the last
place. -/
theorem roundDoubleAbs_close (a r : ℚ) (h : roundDoubleAbs a = some r) :
    |r - a| ≤ pow2 (max (floorLog2 a) (-1022) - 52) / 2 := by
  unfold roundDoubleAbs at h
  simp only at h
  split_ifs at h with hov
  simp only [Option.some.injEq] at h
  have hu := pow2_pos (max (floorLog2 a) (-1022) - 52)
  have hc := roundHalfEven_close (a / pow2 (max (floorLog2 a) (-1022) - 52))
  rw [← h]
  have e : (roundHalfEven (a / pow2 (max (floorLog2 a) (-1022) - 52)) : ℚ)
        * pow2 (max (floorLog2 a) (-1022) - 52) - a
      = ((roundHalfEven (a / pow2 (max (floorLog2 a) (-1022) - 52)) : ℚ)
          - a / pow2 (max (floorLog2 a) (-1022) - 52)) * pow2 (max (floorLog2 a) (-1022) - 52) := by
    field_simp
  rw [e, abs_mul, abs_of_pos hu]
  calc |(roundHalfEven (a / pow2 (max (floorLog2 a) (-1022) - 52)) : ℚ)
          - a / pow2 (max (floorLog2 a) (-1022) - 52)| * pow2 (max (floorLog2 a) (-1022) - 52)
      ≤ 1 / 2 * pow2 (max (floorLog2 a) (-1022) - 52) :=
        mul_le_mul_of_nonneg_right hc hu.le
    _ = pow2 (max (floorLog2 a) (-1022) - 52) / 2 := by ring

/-- Below `2 ^ 49` rounding to binary64 moves a number by at most `1 / 32`. -/
theorem roundDouble_close (q : ℚ) (hq : 0 < q) (hlt : q < (2 : ℚ) ^ 49) :
    ∃ r, roundDouble q = JsNum.fin r ∧ |r - q| ≤ 1 / 32 := by
  obtain ⟨hlo, _⟩ := floorLog2_spec q hq
  have hfl : floorLog2 q < 49 := by
    by_contra hc
    have h49 : (49 : ℤ) ≤ floorLog2 q := not_lt.1 hc
    have : (2 : ℚ) ^ (49 : ℤ) ≤ (2 : ℚ) ^ (floorLog2 q) :=
      zpow_le_zpow_right₀ (by norm_num) h49
    rw [pow2_eq_zpow] at hlo
    have h2 : (2 : ℚ) ^ (49 : ℤ) = (2 : ℚ) ^ 49 := by norm_cast
    linarith
  have hmax : max (floorLog2 q) (-1022) - 52 ≤ -4 := by omega
  have hulp : pow2 (max (floorLog2 q) (-1022) - 52) ≤ 1 / 16 := by
    rw [pow2_eq_zpow]
    calc (2 : ℚ) ^ (max (floorLog2 q) (-1022) - 52) ≤ (2 : ℚ) ^ (-4 : ℤ) :=
          zpow_le_zpow_right₀ (by norm_num) hmax
      _ = 1 / 16 := by norm_num
  have hq0 : q ≠ 0 := ne_of_gt hq
  have habs : |q| = q := abs_of_pos hq
  have hnneg : ¬ (q < 0) := not_lt.2 hq.le
  cases hr : roundDoubleAbs q with
  | none =>
    exfalso
    unfold roundDoubleAbs at hr
    simp only at hr
    split_ifs at hr with hov
    have hc := roundHalfEven_close (q / pow2 (max (floorLog2 q) (-1022) - 52))
    have hu := pow2_pos (max (floorLog2 q) (-1022) - 52)
    rw [abs_le] at hc
    have h3 : (roundHalfEven (q / pow2 (max (floorLog2 q) (-1022) - 52)) : ℚ)
        ≤ q / pow2 (max (floorLog2 q) (-1022) - 52) + 1 / 2 := by linarith [hc.2]
    have h4 : (roundHalfEven (q / pow2 (max (floorLog2 q) (-1022) - 52)) : ℚ)
          * pow2 (max (floorLog2 q) (-1022) - 52)
        ≤ (q / pow2 (max (floorLog2 q) (-1022) - 52) + 1 / 2)
          * pow2 (max (floorLog2 q) (-1022) - 52) :=
      mul_le_mul_of_nonneg_right h3 hu.le
    have h5 : (q / pow2 (max (floorLog2 q) (-1022) - 52) + 1 / 2)
          * pow2 (max (floorLog2 q) (-1022) - 52)
        = q + pow2 (max (floorLog2 q) (-1022) - 52) / 2 := by
      field_simp
      ring
    have h6 : (2 : ℚ) ^ 49 + 1 ≤ pow2 1024 := by
      rw [pow2_1024]
      norm_num
    linarith
  | some r =>
    refine ⟨r, ?_, ?_⟩
    · unfold roundDouble
      simp only [hq0, if_false, habs, hr, hnneg]
    · have := roundDoubleAbs_close q r hr
      linarith

theorem roundDouble_ne_of_far (y z : ℚ) (hy : 0 < y) (hz : 0 < z)
    (hy2 : y < (2 : ℚ) ^ 49) (hz2 : z < (2 : ℚ) ^ 49) (hfar : 1 / 10 ≤ |y - z|) :
    roundDouble y ≠ roundDouble z := by
  obtain ⟨ry, hry, hcy⟩ := roundDouble_close y hy hy2
  obtain ⟨rz, hrz, hcz⟩ := roundDouble_close z hz hz2
  rw [hry, hrz]
  intro h
  simp only [JsNum.fin.injEq] at h
  rw [h] at hcy
  rw [abs_le] at hcy hcz
  have : |y - z| ≤ 1 / 16 := by
    rw [abs_le]
    constructor <;> linarith [hcy.1, hcy.2, hcz.1, hcz.2]
  linarith

theorem tenths_double (n : Nat) (hn : 10 ≤ n) (hd : n % 10 ≠ 0) (hlt : n < 10 * 2 ^ 48) :
    ∃ r, roundDouble ((n : ℚ) / 10) = JsNum.fin r ∧ |r - (n : ℚ) / 10| ≤ 1 / 32 ∧
      ((n / 10 : Nat) : ℚ) < r ∧ r < ((n / 10 : Nat) : ℚ) + 1 := by
  have hq : (0 : ℚ) < (n : ℚ) / 10 := by
    have : (0 : ℚ) < (n : ℚ) := by exact_mod_cast (by omega : 0 < n)
    positivity
  have hq2 : (n : ℚ) / 10 < (2 : ℚ) ^ 49 := by
    have : (n : ℚ) < 10 * (2 : ℚ) ^ 48 := by exact_mod_cast hlt
    rw [div_lt_iff₀ (by norm_num)]
    linarith [show (2 : ℚ) ^ 49 = 2 * (2 : ℚ) ^ 48 by norm_num]
  obtain ⟨r, hr, hc⟩ := roundDouble_close _ hq hq2
  refine ⟨r, hr, hc, ?_, ?_⟩
  · have hdecomp : n = 10 * (n / 10) + n % 10 := (Nat.div_add_mod n 10).symm
    have h1 : 1 ≤ n % 10 := Nat.one_le_iff_ne_zero.2 hd
    have hge : (10 : ℚ) * ((n / 10 : Nat) : ℚ) + 1 ≤ (n : ℚ) := by
      have : 10 * (n / 10) + 1 ≤ n := by omega
      exact_mod_cast this
    rw [abs_le] at hc
    linarith [hc.1]
  · have h9 : n % 10 ≤ 9 := by omega
    have hle : (n : ℚ) ≤ (10 : ℚ) * ((n / 10 : Nat) : ℚ) + 9 := by
      have : n ≤ 10 * (n / 10) + 9 := by omega
      exact_mod_cast this
    rw [abs_le] at hc
    linarith [hc.2]

theorem roundDouble_natCast_ne (m w : Nat) (r : ℚ) (h1 : (w : ℚ) < r) (h2 : r < (w : ℚ) + 1)
    (h3 : r < (2 : ℚ) ^ 53) : roundDouble (m : ℚ) ≠ JsNum.fin r := by
  intro h
  rcases Nat.eq_zero_or_pos m with h0 | hpos
  · subst h0
    have hz : roundDouble ((0 : Nat) : ℚ) = JsNum.fin 0 := by simp [roundDouble]
    rw [hz] at h
    simp only [JsNum.fin.injEq] at h
    have : (0 : ℚ) ≤ (w : ℚ) := Nat.cast_nonneg w
    linarith
  · by_cases hm : m < 2 ^ 53
    · rw [roundDouble_natCast m hpos hm] at h
      simp only [JsNum.fin.injEq] at h
      rw [← h] at h1 h2
      have a1 : w < m := by exact_mod_cast h1
      have a2 : m < w + 1 := by exact_mod_cast h2
      omega
    · have := roundDouble_natCast_large m (not_lt.1 hm) _ h
      linarith

theorem shortestDigits_skip (fuel j L w : Nat) (r : ℚ) (hjL : j ≤ L)
    (h1 : (w : ℚ) < r) (h2 : r < (w : ℚ) + 1) (h3 : r < (2 : ℚ) ^ 53) :
    shortestDigits (fuel + 1) j (L : ℤ) r = shortestDigits fuel (j + 1) (L : ℤ) r := by
  have hr0 : 0 ≤ r := le_trans (Nat.cast_nonneg w) h1.le
  have hc0 : 0 ≤ ⌊r / (10 : ℚ) ^ (L - j)⌋ := Int.floor_nonneg.2 (by positivity)
  rw [shortestDigits]
  simp only [pow10_sub L j hjL]
  obtain ⟨c, hc⟩ : ∃ c : Nat, ⌊r / (10 : ℚ) ^ (L - j)⌋ = (c : ℤ) :=
    ⟨⌊r / (10 : ℚ) ^ (L - j)⌋.toNat, (Int.toNat_of_nonneg hc0).symm⟩
  rw [hc]
  have hv1 : (((c : Nat) : ℤ) : ℚ) * (10 : ℚ) ^ (L - j) = ((c * 10 ^ (L - j) : Nat) : ℚ) := by
    push_cast; ring
  have hv2 : ((((c : Nat) : ℤ) + 1 : ℤ) : ℚ) * (10 : ℚ) ^ (L - j)
      = (((c + 1) * 10 ^ (L - j) : Nat) : ℚ) := by
    push_cast; ring
  have hok1 := roundDouble_natCast_ne (c * 10 ^ (L - j)) w r h1 h2 h3
  have hok2 := roundDouble_natCast_ne ((c + 1) * 10 ^ (L - j)) w r h1 h2 h3
  simp only [hv1, hv2, hok1, hok2, decide_False, Bool.or_false, Bool.false_eq_true, if_false]

theorem pow10_neg_one (L : Nat) : pow10 ((L : ℤ) - ((L + 1 : Nat) : ℤ)) = 1 / 10 := by
  have h : (L : ℤ) - ((L + 1 : Nat) : ℤ) = -1 := by push_cast; ring
  rw [h]
  simp [pow10]

theorem shortestDigits_tenths_last (fuel L n : Nat) (r : ℚ) (hn : 10 ≤ n)
    (hlt : n < 10 * 2 ^ 48) (hr : roundDouble ((n : ℚ) / 10) = JsNum.fin r)
    (hc : |r - (n : ℚ) / 10| ≤ 1 / 32) (hL : n < 10 ^ (L + 1)) :
    shortestDigits (fuel + 1) (L + 1) (L : ℤ) r = (n, L + 1, (L : ℤ)) := by
  rw [abs_le] at hc
  have hnq : (0 : ℚ) < (n : ℚ) := by exact_mod_cast (by omega : 0 < n)
  have hn2 : (n : ℚ) < 10 * (2 : ℚ) ^ 48 := by exact_mod_cast hlt
  have h49 : (2 : ℚ) ^ 49 = 2 * (2 : ℚ) ^ 48 := by norm_num
  have h48 : (1 : ℚ) ≤ (2 : ℚ) ^ 48 := one_le_pow₀ (by norm_num)
  have hdiv : r / (1 / 10) = r * 10 := by ring
  have hlo : ((n : ℤ) - 1 : ℤ) ≤ ⌊r * 10⌋ := by
    apply Int.le_floor.2
    push_cast
    linarith [hc.1]
  have hhi : ⌊r * 10⌋ < (n : ℤ) + 1 := by
    apply Int.floor_lt.2
    push_cast
    linarith [hc.2]
  have hz : roundDouble ((n : ℚ) * (1 / 10)) = JsNum.fin r := by
    rw [← hr]; congr 1; ring
  have hne : ((n : Nat) : ℤ) ≠ (10 : ℤ) ^ (L + 1) := by
    intro h
    have : n = 10 ^ (L + 1) := by exact_mod_cast h
    omega
  rw [shortestDigits]
  simp only [pow10_neg_one, hdiv]
  rcases (by omega : ⌊r * 10⌋ = (n : ℤ) ∨ ⌊r * 10⌋ = (n : ℤ) - 1) with hfl | hfl
  · have hup : roundDouble ((((n : ℤ) + 1 : ℤ) : ℚ) * (1 / 10)) ≠ JsNum.fin r := by
      rw [← hr]
      apply roundDouble_ne_of_far
      · push_cast; positivity
      · positivity
      · push_cast; linarith
      · linarith
      · have : ((((n : ℤ) + 1 : ℤ) : ℚ) * (1 / 10)) - (n : ℚ) / 10 = 1 / 10 := by
          push_cast; ring
        rw [this, abs_of_pos (by norm_num)]
    rw [hfl]
    simp only [Int.cast_natCast, hz, hup, decide_True, decide_False, Bool.or_false,
      Bool.and_false, Bool.false_eq_true, if_true, if_false, hne, Int.toNat_ofNat]
  · have hdn : roundDouble ((((n : ℤ) - 1 : ℤ) : ℚ) * (1 / 10)) ≠ JsNum.fin r := by
      rw [← hr]
      have h9 : (9 : ℚ) ≤ (n : ℚ) - 1 := by
        have : (10 : ℚ) ≤ (n : ℚ) := by exact_mod_cast hn
        linarith
      apply roundDouble_ne_of_far
      · push_cast; linarith
      · positivity
      · push_cast; linarith
      · linarith
      · have : ((((n : ℤ) - 1 : ℤ) : ℚ) * (1 / 10)) - (n : ℚ) / 10 = -(1 / 10) := by
          push_cast; ring
        rw [this, abs_neg, abs_of_pos (by norm_num)]
    rw [hfl]
    have hc2 : (((n : ℤ) - 1 + 1 : ℤ) : ℚ) * (1 / 10) = (n : ℚ) * (1 / 10) := by
      push_cast; ring
    have hs : (n : ℤ) - 1 + 1 = (n : ℤ) := by ring
    simp only [hc2, Int.cast_natCast, hz, hdn, decide_True, decide_False, Bool.false_or,
      Bool.false_and, Bool.false_eq_true, if_true, if_false, hs, hne, Int.toNat_ofNat]

theorem shortestDigits_tenths (L n w : Nat) (r : ℚ) (hn : 10 ≤ n)
    (hlt : n < 10 * 2 ^ 48) (hr : roundDouble ((n : ℚ) / 10) = JsNum.fin r)
    (hc : |r - (n : ℚ) / 10| ≤ 1 / 32) (hL : n < 10 ^ (L + 1))
    (h1 : (w : ℚ) < r) (h2 : r < (w : ℚ) + 1) (h3 : r < (2 : ℚ) ^ 53)
    (fuel j : Nat) (hj : j ≤ L + 1) (hf : L + 1 - j < fuel) :
    shortestDigits fuel j (L : ℤ) r = (n, L + 1, (L : ℤ)) := by
  induction fuel generalizing j with
  | zero => omega
  | succ fuel ih =>
    by_cases hjL : j ≤ L
    · rw [shortestDigits_skip fuel j L w r hjL h1 h2 h3]
      exact ih (j + 1) (by omega) (by omega)
    · have : j = L + 1 := by omega
      subst this
      exact shortestDigits_tenths_last fuel L n r hn hlt hr hc hL

theorem toString_digit (d : Nat) (h : d < 10) : toString d = String.mk [Nat.digitChar d] := by
  show (Nat.toDigits 10 d).asString = _
  rw [toDigits_small 10 d h]
  rfl

theorem positiveToString_tenths (n : Nat) (hn : 10 ≤ n)
    (hlt : n < 10 * 2 ^ 48) (r : ℚ) (hr : roundDouble ((n : ℚ) / 10) = JsNum.fin r)
    (hc : |r - (n : ℚ) / 10| ≤ 1 / 32)
    (h1 : ((n / 10 : Nat) : ℚ) < r) (h2 : r < ((n / 10 : Nat) : ℚ) + 1) :
    positiveToString r = toString (n / 10) ++ "." ++ toString (n % 10) := by
  have hw : 0 < n / 10 := Nat.div_pos hn (by norm_num)
  obtain ⟨hlo, hhi⟩ := digitCount_bounds (n / 10) hw
  have hpos : 0 < digitCount (n / 10) := toDigits_length_pos 10 _
  have hw48 : n / 10 < 2 ^ 48 := by omega
  have hL15 : digitCount (n / 10) ≤ 15 := by
    by_contra hcon
    have h15 : 15 ≤ digitCount (n / 10) - 1 := by omega
    have : 10 ^ 15 ≤ 10 ^ (digitCount (n / 10) - 1) := Nat.pow_le_pow_right (by norm_num) h15
    have h48 : (2 : Nat) ^ 48 < 10 ^ 15 := by norm_num
    omega
  have hL : n < 10 ^ (digitCount (n / 10) + 1) := by
    rw [pow_succ]
    omega
  have h3 : r < (2 : ℚ) ^ 53 := by
    have : ((n / 10 : Nat) : ℚ) + 1 ≤ (2 : ℚ) ^ 48 := by
      have : n / 10 + 1 ≤ 2 ^ 48 := by omega
      exact_mod_cast this
    have h4853 : (2 : ℚ) ^ 48 ≤ (2 : ℚ) ^ 53 := by
      apply pow_le_pow_right₀ <;> norm_num
    linarith
  have hr1 : (1 : ℚ) ≤ r := by
    have : (1 : ℚ) ≤ ((n / 10 : Nat) : ℚ) := by exact_mod_cast hw
    linarith
  have hfl : ⌊r⌋ = ((n / 10 : Nat) : ℤ) := by
    rw [Int.floor_eq_iff]
    constructor
    · exact_mod_cast h1.le
    · exact_mod_cast h2
  have hde : decimalExponent r = (digitCount (n / 10) : ℤ) := by
    unfold decimalExponent
    rw [if_pos hr1, hfl, Int.toNat_ofNat]
  have hsd := shortestDigits_tenths (digitCount (n / 10)) n (n / 10) r hn hlt hr hc hL h1 h2 h3
    17 1 (by omega) (by omega)
  have hds : Nat.toDigits 10 n = Nat.toDigits 10 (n / 10) ++ [Nat.digitChar (n % 10)] :=
    toDigits_step 10 (by norm_num) n hn
  have hlen : (Nat.toDigits 10 (n / 10)).length = digitCount (n / 10) := rfl
  have hc1 : ¬ ((((digitCount (n / 10) + 1 : Nat)) : ℤ) ≤ (digitCount (n / 10) : ℤ)) := by
    intro h
    omega
  have hc2 : (0 : ℤ) < (digitCount (n / 10) : ℤ) := by omega
  have hc3 : (digitCount (n / 10) : ℤ) ≤ 21 := by omega
  have ht : ((digitCount (n / 10) : ℤ)).toNat = digitCount (n / 10) := Int.toNat_ofNat _
  have htake : (Nat.toDigits 10 n).take (digitCount (n / 10)) = Nat.toDigits 10 (n / 10) := by
    rw [hds, ← hlen, List.take_left']
    rfl
  have hdrop : (Nat.toDigits 10 n).drop (digitCount (n / 10)) = [Nat.digitChar (n % 10)] := by
    rw [hds, ← hlen, List.drop_left']
    rfl
  unfold positiveToString
  simp only [hde, hsd, hc1, hc2, hc3, false_and, and_self, if_true, if_false, ht, htake, hdrop]
  rw [toString_digit (n % 10) (Nat.mod_lt _ (by norm_num))]
  rfl

/-- The double nearest to `n / 10` is printed as the decimal of `n / 10`: the
whole part, and the tenths digit unless it is `0`. -/
theorem numberToString_tenths (n : Nat) (hlt : n < 10 * 2 ^ 48) :
    numberToString (roundDouble ((n : ℚ) / 10)) = tenthsString n := by
  by_cases hd : n % 10 = 0
  · have hq : (n : ℚ) / 10 = ((n / 10 : Nat) : ℚ) := by
      have hn : n = 10 * (n / 10) := by omega
      have : (n : ℚ) = 10 * ((n / 10 : Nat) : ℚ) := by exact_mod_cast hn
      rw [this]; ring
    have hw : n / 10 < 2 ^ 53 := by omega
    have hrd : roundDouble ((n / 10 : Nat) : ℚ) = JsNum.fin ((n / 10 : Nat) : ℚ) := by
      rcases Nat.eq_zero_or_pos (n / 10) with h0 | hpos
      · rw [h0]; simp [roundDouble]
      · exact roundDouble_natCast _ hpos hw
    rw [hq, hrd, numberToString_natCast _ hw]
    simp [tenthsString, hd]
  · by_cases hn : n < 10
    · interval_cases n <;> first | (exfalso; exact hd rfl) | decide!
    · have hn10 : 10 ≤ n := not_lt.1 hn
      obtain ⟨r, hr, hc, h1, h2⟩ := tenths_double n hn10 hd hlt
      have hrpos : 0 < r := lt_of_le_of_lt (Nat.cast_nonneg _) h1
      rw [hr]
      simp only [numberToString, ne_of_gt hrpos, not_lt.2 hrpos.le, if_false]
      rw [positiveToString_tenths n hn10 hlt r hr hc h1 h2]
      simp [tenthsString, hd]
/-! ## Lemmas on the card aggregator -/

theorem foldl_avgStep (xs : List JsVal) (acc : JsNum × Nat) :
    xs.foldl avgStep acc =
      (doubleSum acc.1 (validNums xs), acc.2 + (validNums xs).length) := by
  induction xs generalizing acc with
  | nil => simp [validNums, doubleSum]
  | cons v t ih =>
    rw [List.foldl_cons, ih]
    cases v <;>
      simp [avgStep, validNums, doubleSum, JsVal.isNumberType, JsVal.isNaN, JsVal.numVal,
        List.filterMap_cons, Nat.add_assoc, Nat.add_comm 1]

theorem avgNonNull_eq (xs : List JsVal) (h : validNums xs ≠ []) :
    avgNonNull xs = some (doubleMean (validNums xs)) := by
  have hl : (validNums xs).length ≠ 0 := fun h0 => h (List.length_eq_zero.1 h0)
  simp [avgNonNull, foldl_avgStep, hl, doubleMean]

theorem numberToFixed1_close (x : ℚ) (hx : |x| < (10 : ℚ) ^ 21) :
    ∃ n : ℤ, numberToFixed1 (JsNum.fin x) = roundDouble ((n : ℚ) / 10) ∧
      |(n : ℚ) / 10 - x| ≤ 1 / 20 := by
  have h1 : ((⌊|x| * 10 + 1 / 2⌋ : ℤ) : ℚ) ≤ |x| * 10 + 1 / 2 := Int.floor_le _
  have h2 : |x| * 10 + 1 / 2 < ((⌊|x| * 10 + 1 / 2⌋ : ℤ) : ℚ) + 1 := Int.lt_floor_add_one _
  have hbig : ¬ ((10 : ℚ) ^ 21 ≤ |x|) := not_le.2 hx
  by_cases hneg : x < 0
  · have ha : |x| = -x := abs_of_neg hneg
    refine ⟨-⌊|x| * 10 + 1 / 2⌋, ?_, ?_⟩
    · simp only [numberToFixed1, hbig, hneg, if_true, if_false]
      congr 1
      push_cast
      ring
    · rw [ha] at h1 h2 ⊢
      rw [abs_le]
      push_cast
      constructor <;> linarith
  · have ha : |x| = x := abs_of_nonneg (not_lt.1 hneg)
    refine ⟨⌊|x| * 10 + 1 / 2⌋, ?_, ?_⟩
    · simp only [numberToFixed1, hbig, hneg, if_false]
      congr 1
      ring
    · rw [ha] at h1 h2 ⊢
      rw [abs_le]
      constructor <;> linarith

/-- The expression `Number(x.toFixed(1))` of a number `0 ≤ x < 10 ^ 14` is
printed as the decimal of `⌊10 x + 1/2⌋ / 10`. -/
theorem numberToFixed1_tenths (x : ℚ) (h0 : 0 ≤ x) (hlt : x < (10 : ℚ) ^ 14) :
    numberToString (numberToFixed1 (JsNum.fin x)) = tenthsString (⌊x * 10 + 1 / 2⌋).toNat := by
  have habs : |x| = x := abs_of_nonneg h0
  have hbig : ¬ ((10 : ℚ) ^ 21 ≤ |x|) := by
    rw [habs]
    have : (10 : ℚ) ^ 14 ≤ (10 : ℚ) ^ 21 := by norm_num
    linarith
  have hneg : ¬ (x < 0) := not_lt.2 h0
  have hfl0 : 0 ≤ ⌊x * 10 + 1 / 2⌋ := Int.floor_nonneg.2 (by linarith)
  obtain ⟨n, hn⟩ : ∃ n : Nat, ⌊x * 10 + 1 / 2⌋ = (n : ℤ) :=
    ⟨⌊x * 10 + 1 / 2⌋.toNat, (Int.toNat_of_nonneg hfl0).symm⟩
  have hle : (n : ℚ) ≤ x * 10 + 1 / 2 := by
    have h := Int.floor_le (x * 10 + 1 / 2)
    rw [hn, Int.cast_natCast] at h
    exact h
  have hnlt : n < 10 * 2 ^ 48 := by
    have h1 : (n : ℚ) < ((1000000000000001 : Nat) : ℚ) := by
      have e : (((1000000000000001 : Nat)) : ℚ) = (10 : ℚ) ^ 15 + 1 := by norm_num
      rw [e]
      linarith
    have h3 : n < 1000000000000001 := by exact_mod_cast h1
    have h4 : (1000000000000001 : Nat) ≤ 10 * 2 ^ 48 := by norm_num
    omega
  have hval : numberToFixed1 (JsNum.fin x) = roundDouble ((n : ℚ) / 10) := by
    have e : (if x < 0 then (-1 : ℚ) else 1) * ((⌊|x| * 10 + 1 / 2⌋ : ℤ) : ℚ) / 10
        = (n : ℚ) / 10 := by
      rw [if_neg hneg, habs, hn, Int.cast_natCast]
      ring
    simp only [numberToFixed1, hbig, if_false]
    rw [e]
  rw [hval, hn, Int.toNat_ofNat]
  exact numberToString_tenths n hnlt

theorem doubleSum_exact (qs : List ℚ) (a : ℚ)
    (hq : ∀ q ∈ qs, isDouble q)
    (hp : ∀ k, k ≤ qs.length → isDouble (a + (qs.take k).sum)) :
    doubleSum (JsNum.fin a) qs = JsNum.fin (a + qs.sum) := by
  induction qs generalizing a with
  | nil => simp [doubleSum]
  | cons q t ih =>
    have hq1 : roundDouble q = JsNum.fin q := hq q (List.mem_cons_self _ _)
    have hs1 : roundDouble (a + q) = JsNum.fin (a + q) := by
      have := hp 1 (by simp)
      simpa [isDouble] using this
    have hstep : doubleSum (JsNum.fin a) (q :: t) = doubleSum (JsNum.fin (a + q)) t := by
      simp only [doubleSum, List.foldl_cons, hq1, JsNum.add, hs1]
    rw [hstep, ih (a + q) (fun r hr => hq r (List.mem_cons_of_mem _ hr))]
    · rw [List.sum_cons, add_assoc]
    · intro k hk
      have := hp (k + 1) (by simpa using hk)
      simpa [List.take_succ_cons, List.sum_cons, add_assoc] using this

theorem doubleMean_exact (qs : List ℚ) (h : sumsExactly qs) :
    doubleMean qs = JsNum.fin (qs.sum / (qs.length : ℚ)) := by
  obtain ⟨hq, hp, hd⟩ := h
  have hs := doubleSum_exact qs 0 hq (fun k hk => by simpa using hp k hk)
  rw [zero_add] at hs
  simp only [doubleMean, hs, JsNum.divCount]
  exact hd

theorem registry_threshold_isDouble (name : String) (cfg : MetricCfg)
    (h : METRIC_CONFIG name = some cfg) : roundDouble cfg.threshold = JsNum.fin cfg.threshold := by
  have h126 : roundDouble 126 = JsNum.fin 126 := by decide!
  have h200 : roundDouble 200 = JsNum.fin 200 := by decide!
  have h140 : roundDouble 140 = JsNum.fin 140 := by decide!
  have h7 : roundDouble 7 = JsNum.fin 7 := by decide!
  unfold METRIC_CONFIG at h
  split_ifs at h <;> cases h <;> assumption

theorem metricConfigGet_entry (name : String) (cfg : MetricCfg)
    (h : METRIC_CONFIG name = some cfg) : metricConfigGet name = ConfigValue.entry cfg := by
  simp only [metricConfigGet, h]

/-- The number model at sample inputs: `0.1 + 0.2` prints as
`0.30000000000000004`, `1e21` and `1e-7` print in exponent notation, `1e-6`
and the largest number below `1e21` print in decimal notation, a number out
of range is `Infinity`; the mean of `[6.3, 6.4]` is just below `6.35` and
shows as `6.3`, the mean of `[1e21]` shows as `1e+21`, and the mean of
`[124.6, 131.7, 121.7]` is `125.99999999999999`, which is below 126. -/
theorem number_model_samples :
    numberToString ((roundDouble (1 / 10)).add (roundDouble (2 / 10))) = "0.30000000000000004" ∧
      jsNumberToString ((10 : ℚ) ^ 21) = "1e+21" ∧
      jsNumberToString (1 / (10 : ℚ) ^ 7) = "1e-7" ∧
      jsNumberToString (1 / (10 : ℚ) ^ 6) = "0.000001" ∧
      jsNumberToString ((10 : ℚ) ^ 21 - 131072) = "999999999999999900000" ∧
      jsNumberToString (-5 / 4) = "-1.25" ∧
      jsNumberToString ((10 : ℚ) ^ 400) = "Infinity" ∧
      numberToString (numberToFixed1 (doubleMean [63 / 10, 64 / 10])) = "6.3" ∧
      numberToString (numberToFixed1 (doubleMean [(10 : ℚ) ^ 21])) = "1e+21" ∧
      numberToString (doubleMean [1246 / 10, 1317 / 10, 1217 / 10]) = "125.99999999999999" ∧
      (doubleMean [1246 / 10, 1317 / 10, 1217 / 10]).lt (JsNum.fin 126) = true := by
  refine ⟨by decide!, by decide!, by decide!, by decide!, by decide!, by decide!, by decide!,
    by decide!, by decide!, by decide!, by decide!⟩

theorem updateHealthMetricsValues_getElem (st : State) (i : Nat) :
    (updateHealthMetricsValues st).healthMetrics[i]? =
      (st.healthMetrics[i]?).map (updateCard st.chartSeries) := by
  simp [updateHealthMetricsValues]

theorem updateCard_of_valid (cs : List Series) (hm : HealthCard) (s : Series)
    (hs : byName cs hm.title = some s) (hv : validNums s.data ≠ []) :
    (updateCard cs hm).value =
        numberToString (numberToFixed1 (doubleMean (validNums s.data))) ++ " " ++ hm.units ∧
      ∀ cfg, METRIC_CONFIG hm.title = some cfg →
        (updateCard cs hm).statusLabel =
          if (doubleMean (validNums s.data)).lt (JsNum.fin cfg.threshold) = true
          then "Well" else "Unwell" := by
  refine ⟨by simp only [updateCard, hs, avgNonNull_eq _ hv], ?_⟩
  intro cfg hc
  simp only [updateCard, hs, avgNonNull_eq _ hv, metricConfigGet_entry _ _ hc,
    registry_threshold_isDouble _ _ hc]
  split <;> rfl

/-! ## The series length invariant -/

/-- C1. Whenever `prepareHealthChart` produces a chart (`chartOptions` is not
`null`), the x-axis categories are the `x_dates` of the payload and the `data`
of every entry of `chartSeries` has exactly as many elements as there are
categories, whatever the lengths of the raw series were. -/
theorem prepareHealthChart_series_length (st : State) (data : HealthPayload)
    (h : (prepareHealthChart st data).chartOptions.isSome = true) :
    (prepareHealthChart st data).chartOptions.map (fun o => o.categories)
        = some (data.x_dates.getD []) ∧
      ∀ s ∈ (prepareHealthChart st data).chartSeries,
        s.data.length = (data.x_dates.getD []).length := by
  obtain ⟨act, hcs⟩ := prepareHealthChart_series_eq st data h
  obtain ⟨_, _, o, ho, hcat⟩ :=
    prepareHealthChart_series st data ((prepareHealthChart_isSome st data).1 h)
  refine ⟨by rw [ho, Option.map_some', hcat], ?_⟩
  intro s hs
  rw [hcs] at hs
  obtain ⟨name, _, rfl⟩ := List.mem_map.1 hs
  exact normalizeLen_length _ _

/-- An instance of C1: two labels, raw series of lengths 3, 1 and 0; every
prepared series has two points. -/
theorem prepareHealthChart_series_length_witness :
    (prepareHealthChart initialState mismatchedPayload).chartOptions.isSome = true ∧
      ∀ s ∈ (prepareHealthChart initialState mismatchedPayload).chartSeries,
        s.data.length = 2 :=
  ⟨by decide!,
    (prepareHealthChart_series_length initialState mismatchedPayload (by decide!)).2⟩

/-! ## Alignment -/

/-- C2. Trailing alignment: when the raw sequence `a` is longer than the
x-axis length `len`, `normalizeLen a len` is the last `len` elements of `a`
in their order: it is `a` without its first `a.length - len` elements, it has
length `len` and `a` is some front part followed by it. -/
theorem normalizeLen_trailing (a : List JsVal) (len : Nat) (h : a.length > len) :
    normalizeLen (JsVal.arr a) len = a.drop (a.length - len) ∧
      (normalizeLen (JsVal.arr a) len).length = len ∧
      a.take (a.length - len) ++ normalizeLen (JsVal.arr a) len = a := by
  have h1 : normalizeLen (JsVal.arr a) len = a.drop (a.length - len) := by
    rw [normalizeLen_arr, if_neg (by omega), if_pos h]
  refine ⟨h1, normalizeLen_length _ _, ?_⟩
  rw [h1]
  exact List.take_append_drop _ _

/-- The example of C2: ten labels and a twelve-element sequence give the last
ten elements. -/
theorem normalizeLen_trailing_witness :
    ([1, 2, 3, 4, 5, 6, 7, 8, 9, 10, 11, 12].map (fun n : ℚ => JsVal.num n)).length > 10 ∧
      normalizeLen (JsVal.arr ([1, 2, 3, 4, 5, 6, 7, 8, 9, 10, 11, 12].map
          (fun n : ℚ => JsVal.num n))) 10
        = [3, 4, 5, 6, 7, 8, 9, 10, 11, 12].map (fun n : ℚ => JsVal.num n) :=
  ⟨by decide,
    (normalizeLen_trailing ([1, 2, 3, 4, 5, 6, 7, 8, 9, 10, 11, 12].map
      (fun n : ℚ => JsVal.num n)) 10 (by decide)).1.trans rfl⟩

/-- C3. Padding: when the raw sequence `a` is shorter than the x-axis length
`len`, `normalizeLen a len` has length `len`, its first `a.length` elements
are `a`, and every later position holds `null`. -/
theorem normalizeLen_padding (a : List JsVal) (len : Nat) (h : a.length < len) :
    (normalizeLen (JsVal.arr a) len).length = len ∧
      (normalizeLen (JsVal.arr a) len).take a.length = a ∧
      (∀ i, a.length ≤ i → i < len →
        (normalizeLen (JsVal.arr a) len)[i]? = some JsVal.null) ∧
      normalizeLen (JsVal.arr a) len = a ++ List.replicate (len - a.length) JsVal.null := by
  have h1 : normalizeLen (JsVal.arr a) len =
      a ++ List.replicate (len - a.length) JsVal.null := by
    rw [normalizeLen_arr, if_neg (by omega), if_neg (by omega)]
  refine ⟨normalizeLen_length _ _, ?_, ?_, h1⟩
  · rw [h1]; simp
  · intro i hi hlen
    rw [h1, List.getElem?_append_right hi, List.getElem?_replicate]
    rw [if_pos (by omega)]

/-- The example of C3: six labels and a three-element sequence give the three
inputs followed by three nulls. -/
theorem normalizeLen_padding_witness :
    [JsVal.num 5, JsVal.num 6, JsVal.num 7].length < 6 ∧
      normalizeLen (JsVal.arr [JsVal.num 5, JsVal.num 6, JsVal.num 7]) 6
        = [JsVal.num 5, JsVal.num 6, JsVal.num 7, JsVal.null, JsVal.null, JsVal.null] :=
  ⟨by decide,
    (normalizeLen_padding [JsVal.num 5, JsVal.num 6, JsVal.num 7] 6 (by decide)).2.2.2.trans rfl⟩

/-! ## The safety gate -/

/-- C4. Safety gate: when the payload has an `x_dates` array of length 5001, or
some key of `series` holds an array of length 5001, `fetchHealthMetrics`
ends with `chartOptions = null` and `chartSeries = []`, whatever the values
in the payload and whatever the state before. -/
theorem fetchHealthMetrics_oversized (st : State) (data : HealthPayload)
    (h : (∃ xs, data.x_dates = some xs ∧ xs.length = 5001) ∨
      (∃ k xs, rawGet data.series k = JsVal.arr xs ∧ xs.length = 5001)) :
    (fetchHealthMetrics st (HealthResponse.ok data)).chartOptions = none ∧
      (fetchHealthMetrics st (HealthResponse.ok data)).chartSeries = [] := by
  have hg : healthGate data = false := by
    rcases h with ⟨xs, hx, hl⟩ | ⟨k, xs, hk, hl⟩
    · simp [healthGate, hx, hl, MAX_SAFE_POINTS]
    · have := le_maxSeriesLen data.series k xs hk
      simp only [healthGate, MAX_SAFE_POINTS, Bool.and_eq_false_imp, decide_eq_true_eq,
        decide_eq_false_iff_not]
      intro _
      omega
  simp only [fetchHealthMetrics, hg]
  exact ⟨rfl, rfl⟩

/-- An instance of C4: 5001 labels, on top of a state that shows a chart. -/
theorem fetchHealthMetrics_oversized_witness :
    ((∃ xs, oversizedPayload.x_dates = some xs ∧ xs.length = 5001) ∨
      (∃ k xs, rawGet oversizedPayload.series k = JsVal.arr xs ∧ xs.length = 5001)) ∧
      (fetchHealthMetrics (prepareHealthChart initialState examplePayload)
        (HealthResponse.ok oversizedPayload)).chartOptions = none ∧
      (fetchHealthMetrics (prepareHealthChart initialState examplePayload)
        (HealthResponse.ok oversizedPayload)).chartSeries = [] :=
  ⟨Or.inl ⟨_, rfl, List.length_replicate _ _⟩,
    fetchHealthMetrics_oversized (prepareHealthChart initialState examplePayload)
      oversizedPayload (Or.inl ⟨_, rfl, List.length_replicate _ _⟩)⟩

/-- C5 fails as stated: a health payload with exactly 5000 labels (and a
two-element series) has all lengths at most 5000, yet the gate of
`fetchHealthMetrics` is false and the fetch ends without a chart although
`prepareHealthChart` on the same payload produces one; a well/unwell payload
with exactly 5000 `well_counts` is rejected by `fetchWellUnwellSummary`
although `prepareWellUnwellChart` renders it. -/
theorem gate_rejects_exactly_bound :
    ((boundaryPayload.x_dates.getD []).length ≤ 5000 ∧
      (∀ k xs, rawGet boundaryPayload.series k = JsVal.arr xs → xs.length ≤ 5000)) ∧
      healthGate boundaryPayload = false ∧
      (fetchHealthMetrics initialState (HealthResponse.ok boundaryPayload)).chartOptions.isSome
        = false ∧
      (prepareHealthChart initialState boundaryPayload).chartOptions.isSome = true ∧
      ((boundaryWellPayload.well_counts.getD []).length ≤ 5000 ∧
        (boundaryWellPayload.unwell_counts.getD []).length ≤ 5000) ∧
      wellGate boundaryWellPayload = false ∧
      (fetchWellUnwellSummary initialState (WellResponse.ok boundaryWellPayload)).map
        (fun s => s.wellUnwellOptions.isSome) = some false ∧
      (prepareWellUnwellChart initialState boundaryWellPayload).wellUnwellOptions.isSome
        = true := by
  have hx : (boundaryPayload.x_dates.getD []).length = 5000 := List.length_replicate _ _
  have hwl : (boundaryWellPayload.well_counts.getD []).length = 5000 :=
    List.length_replicate _ _
  have hul : (boundaryWellPayload.unwell_counts.getD []).length = 1 := rfl
  have hgate : healthGate boundaryPayload = false := by
    simp only [healthGate, hx, MAX_SAFE_POINTS, Nat.lt_irrefl, decide_False, Bool.false_and]
  have hw : wellGate boundaryWellPayload = false := by
    simp only [wellGate, hwl, MAX_SAFE_POINTS, Nat.lt_irrefl, decide_False, Bool.false_and]
  refine ⟨⟨Nat.le_of_eq hx, ?_⟩, hgate, ?_, ?_, ⟨Nat.le_of_eq hwl, by rw [hul]; decide⟩,
    hw, ?_, ?_⟩
  · intro k xs hk
    have h1 := le_maxSeriesLen _ k xs hk
    have h2 : maxSeriesLen boundaryPayload.series = 2 := by decide
    omega
  · simp only [fetchHealthMetrics, hgate]
    rfl
  · apply prepareHealthChart_renders initialState boundaryPayload "Gula Darah Puasa"
      (JsVal.num 120) (by decide)
    · exact List.mem_cons_self _ _
    · rfl
    · rw [hx]
      decide
  · simp only [fetchWellUnwellSummary, hw]
    rfl
  · exact prepareWellUnwellChart_renders _ _ (by rw [hul]; decide)

/-- C5 amended. The gates let through every payload below the bound: when the
`x_dates` length and the length of every array stored in `series` are below
5000 (at most 4999), `fetchHealthMetrics` passes the gate and its result is
that of `prepareHealthChart`; when the `well_counts` and `unwell_counts`
lengths are below 5000, `fetchWellUnwellSummary` passes the gate and its
result is that of `prepareWellUnwellChart`. -/
theorem gate_passes_below_bound (st : State) (data : HealthPayload) (w : WellPayload) :
    ((data.x_dates.getD []).length < 5000 →
      (∀ k xs, rawGet data.series k = JsVal.arr xs → xs.length < 5000) →
        healthGate data = true ∧
          fetchHealthMetrics st (HealthResponse.ok data) = prepareHealthChart st data) ∧
    ((w.well_counts.getD []).length < 5000 → (w.unwell_counts.getD []).length < 5000 →
      wellGate w = true ∧
        fetchWellUnwellSummary st (WellResponse.ok w) = some (prepareWellUnwellChart st w)) := by
  constructor
  · intro hx hs
    have hg : healthGate data = true := by
      have := maxSeriesLen_lt data.series 5000 (by decide) hs
      simp [healthGate, MAX_SAFE_POINTS, hx, this]
    exact ⟨hg, by simp only [fetchHealthMetrics, hg, if_true]⟩
  · intro hw hu
    have hg : wellGate w = true := by
      simp [wellGate, MAX_SAFE_POINTS, hw, hu]
    exact ⟨hg, by simp only [fetchWellUnwellSummary, hg, if_true]⟩

/-- An instance of C5 amended: 4999 labels pass the health gate, a one-month
payload passes the well/unwell gate. -/
theorem gate_passes_below_bound_witness :
    ((largestPayload.x_dates.getD []).length < 5000 ∧
      (∀ k xs, rawGet largestPayload.series k = JsVal.arr xs → xs.length < 5000) ∧
      fetchHealthMetrics initialState (HealthResponse.ok largestPayload)
        = prepareHealthChart initialState largestPayload) ∧
    ((exampleWellPayload.well_counts.getD []).length < 5000 ∧
      (exampleWellPayload.unwell_counts.getD []).length < 5000 ∧
      fetchWellUnwellSummary initialState (WellResponse.ok exampleWellPayload)
        = some (prepareWellUnwellChart initialState exampleWellPayload)) := by
  have hx : (largestPayload.x_dates.getD []).length = 4999 := List.length_replicate _ _
  have hs : ∀ k xs, rawGet largestPayload.series k = JsVal.arr xs → xs.length < 5000 := by
    intro k xs hk
    have h1 := le_maxSeriesLen _ k xs hk
    have h2 : maxSeriesLen largestPayload.series = 2 := by decide
    omega
  have hw : (exampleWellPayload.well_counts.getD []).length < 5000 := by decide
  have hu : (exampleWellPayload.unwell_counts.getD []).length < 5000 := by decide
  exact ⟨⟨by rw [hx]; decide, hs,
      ((gate_passes_below_bound initialState largestPayload exampleWellPayload).1
        (by rw [hx]; decide) hs).2⟩,
    ⟨hw, hu,
      ((gate_passes_below_bound initialState largestPayload exampleWellPayload).2 hw hu).2⟩⟩

/-! ## The zero-data gate -/

/-- C6. Zero-data gate: when `x_dates` is empty (or not an array), or when no
series of a known metric contains a value that is a number and not `NaN`
(in particular when `x_dates` is non-empty and all known series are
all-missing), `prepareHealthChart` ends with `chartSeries = []` and
`chartOptions = null`. -/
theorem prepareHealthChart_zero_data (st : State) (data : HealthPayload)
    (h : (data.x_dates.getD []).length = 0 ∨
      ∀ name ∈ metricsList, ∀ v ∈ (rawGet data.series name).elems, isValidPoint v = false) :
    (prepareHealthChart st data).chartSeries = [] ∧
      (prepareHealthChart st data).chartOptions = none := by
  have hc : totalPoints (healthEntries data) = 0 ∨ (data.x_dates.getD []).length = 0 := by
    rcases h with h | h
    · exact Or.inr h
    · left
      apply totalPoints_eq_zero
      intro e he v hv
      rw [healthEntries_eq] at he
      obtain ⟨name, hname, rfl⟩ := List.mem_map.1 he
      rcases normalizeLen_mem _ _ _ hv with h1 | h1
      · exact h name hname v h1
      · subst h1; rfl
  rw [prepareHealthChart_cleared st data hc]
  exact ⟨rfl, rfl⟩

/-- An instance of C6: two labels and only missing readings, on top of a
state that shows a chart. -/
theorem prepareHealthChart_zero_data_witness :
    ((allMissingPayload.x_dates.getD []).length = 0 ∨
      ∀ name ∈ metricsList, ∀ v ∈ (rawGet allMissingPayload.series name).elems,
        isValidPoint v = false) ∧
      (prepareHealthChart (prepareHealthChart initialState examplePayload)
        allMissingPayload).chartSeries = [] ∧
      (prepareHealthChart (prepareHealthChart initialState examplePayload)
        allMissingPayload).chartOptions = none :=
  ⟨Or.inr (by decide),
    prepareHealthChart_zero_data (prepareHealthChart initialState examplePayload)
      allMissingPayload (Or.inr (by decide))⟩

/-! ## Registry order -/

/-- C7. Whenever `prepareHealthChart` produces a chart, `chartSeries` has
exactly one entry per known metric, in registry order (the order of
`metricsList`, which is the key order of `METRIC_CONFIG`), each with the
colour `METRIC_CONFIG` gives its name; a metric whose raw series is absent,
not an array or all `null` is kept as a series of `null`s of the x-axis
length; and no series carries a name outside `metricsList`, so payload keys
that are not known metrics produce no series. -/
theorem prepareHealthChart_registry_order (st : State) (data : HealthPayload)
    (h : (prepareHealthChart st data).chartOptions.isSome = true) :
    (prepareHealthChart st data).chartSeries.map (fun s => (s.name, s.color)) =
        [("Gula Darah Puasa", "#f87171"), ("Gula Darah Sewaktu", "#dc2626"),
          ("Tekanan Darah", "#ef4444"), ("Cholesterol", "#06b6d4"), ("Asam Urat", "#f59e0b")] ∧
      (prepareHealthChart st data).chartSeries.map (fun s => s.name) = metricsList ∧
      metricsList = METRIC_CONFIG_KEYS ∧
      (∀ s ∈ (prepareHealthChart st data).chartSeries,
        ∃ cfg, METRIC_CONFIG s.name = some cfg ∧ s.color = cfg.color) ∧
      (∀ s ∈ (prepareHealthChart st data).chartSeries,
        (∀ v ∈ (rawGet data.series s.name).elems, v = JsVal.null) →
          s.data = List.replicate (data.x_dates.getD []).length JsVal.null) ∧
      (∀ k, k ∉ metricsList → ∀ s ∈ (prepareHealthChart st data).chartSeries, s.name ≠ k) := by
  obtain ⟨act, hcs⟩ := prepareHealthChart_series_eq st data h
  have hnames : (prepareHealthChart st data).chartSeries.map (fun s => s.name) = metricsList := by
    rw [hcs, List.map_map]
    exact List.map_id _
  refine ⟨?_, hnames, rfl, ?_, ?_, ?_⟩
  · rw [hcs, List.map_map]
    exact seriesColor_table
  · intro s hs
    rw [hcs] at hs
    obtain ⟨name, hname, rfl⟩ := List.mem_map.1 hs
    simp only [metricsList, List.mem_cons, List.mem_singleton, List.not_mem_nil, or_false] at hname
    rcases hname with rfl | rfl | rfl | rfl | rfl <;> exact ⟨_, rfl, rfl⟩
  · intro s hs hnull
    rw [hcs] at hs
    obtain ⟨name, _, rfl⟩ := List.mem_map.1 hs
    apply List.eq_replicate_iff.2
    refine ⟨normalizeLen_length _ _, ?_⟩
    intro b hb
    rcases normalizeLen_mem _ _ _ hb with h1 | h1
    · exact hnull b h1
    · exact h1
  · intro k hk s hs hsk
    apply hk
    rw [← hsk, ← hnames]
    exact List.mem_map_of_mem _ hs

/-- An instance of C7: a payload with two known metrics and one unknown key. -/
theorem prepareHealthChart_registry_order_witness :
    (prepareHealthChart initialState mismatchedPayload).chartOptions.isSome = true ∧
      (prepareHealthChart initialState mismatchedPayload).chartSeries.map
          (fun s => (s.name, s.color)) =
        [("Gula Darah Puasa", "#f87171"), ("Gula Darah Sewaktu", "#dc2626"),
          ("Tekanan Darah", "#ef4444"), ("Cholesterol", "#06b6d4"), ("Asam Urat", "#f59e0b")] :=
  ⟨by decide!,
    (prepareHealthChart_registry_order initialState mismatchedPayload (by decide!)).1⟩

/-! ## Idempotence of alignment -/

/-- C8. Alignment is idempotent: normalising an already normalised sequence to
the same length changes nothing; and feeding the dataset that
`prepareHealthChart` produced (its x-axis categories as `x_dates`, its series
as `name → data`) back through `prepareHealthChart`, from any state, yields
the same categories and the same series names and data. -/
theorem normalize_idempotent (v : JsVal) (len : Nat) (st st2 : State) (data : HealthPayload) :
    normalizeLen (JsVal.arr (normalizeLen v len)) len = normalizeLen v len ∧
      (prepareHealthChart st2 (datasetPayload (prepareHealthChart st data))).chartOptions.map
          (fun o => o.categories)
        = (prepareHealthChart st data).chartOptions.map (fun o => o.categories) ∧
      (prepareHealthChart st2 (datasetPayload (prepareHealthChart st data))).chartSeries.map
          (fun s => (s.name, s.data))
        = (prepareHealthChart st data).chartSeries.map (fun s => (s.name, s.data)) := by
  refine ⟨normalizeLen_of_length_eq _ _ (normalizeLen_length v len), ?_⟩
  by_cases h : totalPoints (healthEntries data) = 0 ∨ (data.x_dates.getD []).length = 0
  · have h1 : prepareHealthChart st data = { st with chartSeries := [], chartOptions := none } :=
      prepareHealthChart_cleared st data h
    have h2 : (datasetPayload (prepareHealthChart st data)).x_dates = none := by
      rw [h1]; rfl
    have h3 := prepareHealthChart_cleared st2 (datasetPayload (prepareHealthChart st data))
      (Or.inr (by rw [h2]; rfl))
    rw [h3, h1]
    exact ⟨rfl, rfl⟩
  · obtain ⟨hx, he⟩ := datasetPayload_entries st data h
    have h2 : ¬ (totalPoints (healthEntries (datasetPayload (prepareHealthChart st data))) = 0 ∨
        ((datasetPayload (prepareHealthChart st data)).x_dates.getD []).length = 0) := by
      rw [he, hx]; exact h
    obtain ⟨a1, a2⟩ := prepareHealthChart_dataset st2 _ h2
    obtain ⟨b1, b2⟩ := prepareHealthChart_dataset st data h
    rw [a1, a2, b1, b2, he, hx]
    exact ⟨rfl, rfl⟩

/-! ## Card values -/

/-- C9 fails as stated: for the payload with `'Gula Darah Puasa': [120, 130]`
the card value is `"125 mg/dL"`, not `"125.0 mg/dL"`: `Number(avg.toFixed(1))`
drops the trailing zero.  And for the payload with `'Asam Urat': [6.3, 6.4]`
the card value is `"6.3 mg/dL"`, although the arithmetic mean of the two
readings rounds to 6.4 (the mean of the decimals is 6.35, the mean of the
doubles they are stored as is above 6.35): the sum of the two doubles is
rounded, and the mean the code computes is below 6.35. -/
theorem card_value_without_trailing_zero :
    (updateHealthMetricsValues
        (prepareHealthChart (buildHealthMetricsModel initialState) examplePayload)).healthMetrics.map
          (fun c => c.value) = ["125 mg/dL", "-", "-", "-", "-"] ∧
      ((updateHealthMetricsValues
        (prepareHealthChart (buildHealthMetricsModel initialState) examplePayload)).healthMetrics.map
          (fun c => c.value)).head? ≠ some "125.0 mg/dL" ∧
      roundDouble (63 / 10) = JsNum.fin (7093169413108531 / 2 ^ 50) ∧
      roundDouble (64 / 10) = JsNum.fin (7205759403792794 / 2 ^ 50) ∧
      (635 / 100 : ℚ) < (7093169413108531 / 2 ^ 50 + 7205759403792794 / 2 ^ 50) / 2 ∧
      doubleMean [63 / 10, 64 / 10] = JsNum.fin (7149464408450662 / 2 ^ 50) ∧
      (7149464408450662 / 2 ^ 50 : ℚ) < 635 / 100 ∧
      (updateHealthMetricsValues
        (prepareHealthChart (buildHealthMetricsModel initialState) halfwayPayload)).healthMetrics.map
          (fun c => c.value) = ["-", "-", "-", "-", "6.3 mg/dL"] := by
  refine ⟨by decide!, by decide!, by decide!, by decide!, by norm_num, by decide!, by norm_num,
    by decide!⟩

/-- C9 amended. For a card whose series (looked up by title) contains at least
one value that is a number and not `NaN`, `updateHealthMetricsValues` sets the
card value to `Number(mean.toFixed(1))` printed as JavaScript prints a number,
a space, and the card's unit.  Here `mean` is the mean of the non-missing
numeric values as the code computes it: the values are added from left to
right in double precision and the sum is divided by their count (missing
entries are not counted).  For a mean `0 ≤ x < 10¹⁴` the number shown is `x`
rounded to one decimal, half up, with its decimal digit unless that digit is
`0`: the decimal of `⌊10 x + 1/2⌋ / 10`.  In general, when the mean is finite
and below `1e21`, the number printed is the double of a multiple of one tenth
that lies within one twentieth of the mean; and when the values add up and
average without rounding, the mean is their arithmetic mean. -/
theorem updateHealthMetricsValues_value (st : State) (i : Nat) (hm : HealthCard) (s : Series)
    (hi : st.healthMetrics[i]? = some hm)
    (hs : byName st.chartSeries hm.title = some s)
    (hv : validNums s.data ≠ []) :
    ∃ card, (updateHealthMetricsValues st).healthMetrics[i]? = some card ∧
      card.value =
        numberToString (numberToFixed1 (doubleMean (validNums s.data))) ++ " " ++ hm.units ∧
      (∀ x : ℚ, doubleMean (validNums s.data) = JsNum.fin x → 0 ≤ x → x < (10 : ℚ) ^ 14 →
        card.value = tenthsString (⌊x * 10 + 1 / 2⌋).toNat ++ " " ++ hm.units) ∧
      (∀ x : ℚ, doubleMean (validNums s.data) = JsNum.fin x → |x| < (10 : ℚ) ^ 21 →
        ∃ n : ℤ, numberToFixed1 (doubleMean (validNums s.data)) = roundDouble ((n : ℚ) / 10) ∧
          |(n : ℚ) / 10 - x| ≤ 1 / 20) ∧
      (sumsExactly (validNums s.data) →
        doubleMean (validNums s.data) =
          JsNum.fin ((validNums s.data).sum / ((validNums s.data).length : ℚ))) := by
  refine ⟨updateCard st.chartSeries hm, ?_, (updateCard_of_valid _ _ _ hs hv).1, ?_, ?_,
    doubleMean_exact _⟩
  · rw [updateHealthMetricsValues_getElem, hi]; rfl
  · intro x hx h0 hlt
    rw [(updateCard_of_valid _ _ _ hs hv).1, hx, numberToFixed1_tenths x h0 hlt]
  · intro x hx hlt
    rw [hx]
    exact numberToFixed1_close x hlt

/-- An instance of C9 amended: the series `[126, null, 130]` adds up and
averages without rounding, has mean 128 and gives the value `"128 mg/dL"`. -/
theorem updateHealthMetricsValues_value_witness :
    (cardState [JsVal.num 126, JsVal.null, JsVal.num 130]).healthMetrics[0]? = some cardPuasa ∧
      byName (cardState [JsVal.num 126, JsVal.null, JsVal.num 130]).chartSeries cardPuasa.title
        = some (seriesPuasa [JsVal.num 126, JsVal.null, JsVal.num 130]) ∧
      validNums (seriesPuasa [JsVal.num 126, JsVal.null, JsVal.num 130]).data ≠ [] ∧
      sumsExactly (validNums (seriesPuasa [JsVal.num 126, JsVal.null, JsVal.num 130]).data) ∧
      doubleMean (validNums (seriesPuasa [JsVal.num 126, JsVal.null, JsVal.num 130]).data)
        = JsNum.fin 128 ∧
      ∃ card, (updateHealthMetricsValues
          (cardState [JsVal.num 126, JsVal.null, JsVal.num 130])).healthMetrics[0]? = some card ∧
        card.value = "128 mg/dL" := by
  have h1 : (cardState [JsVal.num 126, JsVal.null, JsVal.num 130]).healthMetrics[0]?
      = some cardPuasa := rfl
  have h2 : byName (cardState [JsVal.num 126, JsVal.null, JsVal.num 130]).chartSeries
      cardPuasa.title = some (seriesPuasa [JsVal.num 126, JsVal.null, JsVal.num 130]) := rfl
  have hvn : validNums (seriesPuasa [JsVal.num 126, JsVal.null, JsVal.num 130]).data
      = [126, 130] := rfl
  have h3 : validNums (seriesPuasa [JsVal.num 126, JsVal.null, JsVal.num 130]).data ≠ [] := by
    rw [hvn]; simp
  have h126 : roundDouble 126 = JsNum.fin 126 := by decide!
  have h130 : roundDouble 130 = JsNum.fin 130 := by decide!
  have h256 : roundDouble 256 = JsNum.fin 256 := by decide!
  have h128 : roundDouble 128 = JsNum.fin 128 := by decide!
  have h0 : roundDouble 0 = JsNum.fin 0 := by decide!
  have h4 : sumsExactly (validNums (seriesPuasa [JsVal.num 126, JsVal.null, JsVal.num 130]).data) := by
    rw [hvn]
    refine ⟨?_, ?_, ?_⟩
    · intro q hq
      simp only [List.mem_cons, List.mem_singleton, List.not_mem_nil, or_false] at hq
      rcases hq with rfl | rfl
      · exact h126
      · exact h130
    · intro k hk
      have hk2 : k ≤ 2 := hk
      interval_cases k
      · simpa [isDouble] using h0
      · simpa [isDouble] using h126
      · have : (([126, 130] : List ℚ).take 2).sum = 256 := by norm_num
        rw [this]; exact h256
    · have : ([126, 130] : List ℚ).sum / (([126, 130] : List ℚ).length : ℚ) = 128 := by norm_num
      rw [this]; exact h128
  obtain ⟨card, hc, hval, _, _, hexact⟩ := updateHealthMetricsValues_value _ 0 _ _ h1 h2 h3
  have hmean : doubleMean (validNums (seriesPuasa [JsVal.num 126, JsVal.null, JsVal.num 130]).data)
      = JsNum.fin 128 := by
    rw [hexact h4, hvn]
    norm_num
  refine ⟨h1, h2, h3, h4, hmean, card, hc, ?_⟩
  rw [hval, hmean]
  decide!

/-! ## Card status -/

/-- C10 fails as stated: in the payload with `'Asam Urat': [6.999999999999999, 7]`
the first reading is the double `7 - 2⁻⁵⁰`; the arithmetic mean of the two
readings is below the threshold 7 (so is the mean of the decimals as
written), yet the card of `Asam Urat` gets the status `"Unwell"`: the sum is
rounded to 14, and the mean the code computes is 7. -/
theorem status_of_rounded_sum :
    roundDouble (6999999999999999 / 1000000000000000) = JsNum.fin (7 - 1 / 2 ^ 50) ∧
      ((7 - 1 / 2 ^ 50 : ℚ) + 7) / 2 < 7 ∧
      ((6999999999999999 / 1000000000000000 : ℚ) + 7) / 2 < 7 ∧
      (METRIC_CONFIG "Asam Urat").map (fun cfg => cfg.threshold) = some 7 ∧
      doubleMean [6999999999999999 / 1000000000000000, 7] = JsNum.fin 7 ∧
      (fetchHealthMetrics (buildHealthMetricsModel initialState)
          (HealthResponse.ok roundedSumPayload)).healthMetrics.map
            (fun c => (c.title, c.value, c.statusLabel)) =
        [("Gula Darah Puasa", "-", ""), ("Gula Darah Sewaktu", "-", ""),
          ("Tekanan Darah", "-", ""), ("Cholesterol", "-", ""),
          ("Asam Urat", "7 mg/dL", "Unwell")] := by
  refine ⟨by decide!, by norm_num, by norm_num, by decide!, by decide!, by decide!⟩

/-- C10 amended. For a card whose title has a registry threshold and whose
series contains at least one valid value, `updateHealthMetricsValues` sets
`statusLabel` by comparing the mean as the code computes it (the values
added from left to right in double precision, the sum divided by their
count, not rounded to one decimal) with the threshold: `"Well"` when that
mean is strictly below the threshold and `"Unwell"` otherwise, so a computed
mean at or above the threshold, `Infinity` included, is `"Unwell"`.  When the
values add up and average without rounding, the computed mean is their
arithmetic mean. -/
theorem updateHealthMetricsValues_status (st : State) (i : Nat) (hm : HealthCard) (s : Series)
    (cfg : MetricCfg)
    (hi : st.healthMetrics[i]? = some hm)
    (hs : byName st.chartSeries hm.title = some s)
    (hv : validNums s.data ≠ [])
    (hc : METRIC_CONFIG hm.title = some cfg) :
    ∃ card, (updateHealthMetricsValues st).healthMetrics[i]? = some card ∧
      card.statusLabel =
        (if (doubleMean (validNums s.data)).lt (JsNum.fin cfg.threshold) = true
          then "Well" else "Unwell") ∧
      (∀ x : ℚ, doubleMean (validNums s.data) = JsNum.fin x → x < cfg.threshold →
        card.statusLabel = "Well") ∧
      (∀ x : ℚ, doubleMean (validNums s.data) = JsNum.fin x → cfg.threshold ≤ x →
        card.statusLabel = "Unwell") ∧
      (doubleMean (validNums s.data) = JsNum.inf false → card.statusLabel = "Unwell") ∧
      (sumsExactly (validNums s.data) →
        doubleMean (validNums s.data) =
          JsNum.fin ((validNums s.data).sum / ((validNums s.data).length : ℚ))) := by
  have hlabel := (updateCard_of_valid _ _ _ hs hv).2 cfg hc
  refine ⟨updateCard st.chartSeries hm, ?_, hlabel, ?_, ?_, ?_, doubleMean_exact _⟩
  · rw [updateHealthMetricsValues_getElem, hi]; rfl
  · intro x hx hlt
    rw [hlabel, hx]
    simp [JsNum.lt, hlt]
  · intro x hx hge
    rw [hlabel, hx]
    simp [JsNum.lt, not_lt.2 hge]
  · intro hinf
    rw [hlabel, hinf]
    simp [JsNum.lt]

/-- An instance of C10 amended with threshold 126: `[126, null, 130]` has the
computed mean 128 and is `"Unwell"`, `[100, 110]` has the computed mean 105
and is `"Well"`. -/
theorem updateHealthMetricsValues_status_witness :
    (cardState [JsVal.num 126, JsVal.null, JsVal.num 130]).healthMetrics[0]? = some cardPuasa ∧
      byName (cardState [JsVal.num 126, JsVal.null, JsVal.num 130]).chartSeries cardPuasa.title
        = some (seriesPuasa [JsVal.num 126, JsVal.null, JsVal.num 130]) ∧
      validNums (seriesPuasa [JsVal.num 126, JsVal.null, JsVal.num 130]).data ≠ [] ∧
      METRIC_CONFIG cardPuasa.title = some ⟨126, "Tinggi", "#f87171"⟩ ∧
      doubleMean (validNums (seriesPuasa [JsVal.num 126, JsVal.null, JsVal.num 130]).data)
        = JsNum.fin 128 ∧
      doubleMean (validNums (seriesPuasa [JsVal.num 100, JsVal.num 110]).data) = JsNum.fin 105 ∧
      (∃ card, (updateHealthMetricsValues
          (cardState [JsVal.num 126, JsVal.null, JsVal.num 130])).healthMetrics[0]? = some card ∧
        card.statusLabel = "Unwell") ∧
      (∃ card, (updateHealthMetricsValues
          (cardState [JsVal.num 100, JsVal.num 110])).healthMetrics[0]? = some card ∧
        card.statusLabel = "Well") := by
  have h3 : validNums (seriesPuasa [JsVal.num 126, JsVal.null, JsVal.num 130]).data ≠ [] := by
    simp [validNums, seriesPuasa]
  have h3b : validNums (seriesPuasa [JsVal.num 100, JsVal.num 110]).data ≠ [] := by
    simp [validNums, seriesPuasa]
  have hm1 : doubleMean (validNums (seriesPuasa [JsVal.num 126, JsVal.null, JsVal.num 130]).data)
      = JsNum.fin 128 := by decide!
  have hm2 : doubleMean (validNums (seriesPuasa [JsVal.num 100, JsVal.num 110]).data)
      = JsNum.fin 105 := by decide!
  obtain ⟨card, hcard, _, _, hU, _⟩ := updateHealthMetricsValues_status
    (cardState [JsVal.num 126, JsVal.null, JsVal.num 130]) 0 cardPuasa
    (seriesPuasa [JsVal.num 126, JsVal.null, JsVal.num 130]) ⟨126, "Tinggi", "#f87171"⟩
    rfl rfl h3 rfl
  obtain ⟨cardb, hcardb, _, hW, _⟩ := updateHealthMetricsValues_status
    (cardState [JsVal.num 100, JsVal.num 110]) 0 cardPuasa
    (seriesPuasa [JsVal.num 100, JsVal.num 110]) ⟨126, "Tinggi", "#f87171"⟩
    rfl rfl h3b rfl
  refine ⟨rfl, rfl, h3, rfl, hm1, hm2, ⟨card, hcard, hU 128 hm1 ?_⟩, ⟨cardb, hcardb, hW 105 hm2 ?_⟩⟩
  · show (126 : ℚ) ≤ 128
    norm_num
  · show (105 : ℚ) < 126
    norm_num

/-! ## Further lemmas on the card aggregator and the render gate -/

theorem validNums_eq_nil (xs : List JsVal)
    (h : ∀ v ∈ xs, (v.isNumberType && !v.isNaN) = false) : validNums xs = [] := by
  induction xs with
  | nil => rfl
  | cons v t ih =>
    have hv := h v (List.mem_cons_self _ _)
    have ht := ih (fun w hw => h w (List.mem_cons_of_mem _ hw))
    cases v <;> simp_all [validNums, JsVal.isNumberType, JsVal.isNaN]

theorem avgNonNull_eq_none (xs : List JsVal) (h : validNums xs = []) : avgNonNull xs = none := by
  simp [avgNonNull, foldl_avgStep, h]

theorem updateCard_of_no_avg (cs : List Series) (hm : HealthCard)
    (h : byName cs hm.title = none ∨
      ∃ s, byName cs hm.title = some s ∧ avgNonNull s.data = none) :
    (updateCard cs hm).value = "-" ∧ (updateCard cs hm).statusLabel = "" ∧
      (updateCard cs hm).statusClass = "" := by
  rcases h with h | ⟨s, hs, ha⟩
  · simp [updateCard, h]
  · simp [updateCard, hs, ha]

theorem totalPoints_ne_zero_iff (es : List (String × List JsVal)) :
    totalPoints es ≠ 0 ↔ ∃ e ∈ es, ∃ v ∈ e.2, isValidPoint v = true := by
  constructor
  · intro h
    by_contra hne
    apply h
    apply totalPoints_eq_zero
    intro e he v hv
    cases hp : isValidPoint v
    · rfl
    · exact absurd ⟨e, he, v, hv, hp⟩ hne
  · rintro ⟨e, he, v, hv, hp⟩
    exact Nat.pos_iff_ne_zero.1 (totalPoints_pos es e v he hv hp)

theorem healthEntries_length (data : HealthPayload) : (healthEntries data).length = 5 := by
  simp [healthEntries, metricsList]

theorem prepareHealthChart_ready (st : State) (data : HealthPayload) :
    healthReady (prepareHealthChart st data) = true ↔
      ¬ (totalPoints (healthEntries data) = 0 ∨ (data.x_dates.getD []).length = 0) := by
  by_cases h : totalPoints (healthEntries data) = 0 ∨ (data.x_dates.getD []).length = 0
  · rw [prepareHealthChart_cleared st data h]
    exact ⟨fun h1 => (by cases h1), fun h1 => absurd h h1⟩
  · obtain ⟨act, hcs, o, ho, hcat⟩ := prepareHealthChart_series st data h
    refine ⟨fun _ => h, fun _ => ?_⟩
    have hx : (data.x_dates.getD []).length ≠ 0 := fun h0 => h (Or.inr h0)
    simp [healthReady, ho, hcs, hcat, healthEntries_length, hx]

theorem prepareHealthChart_cards (st : State) (data : HealthPayload)
    (h : ¬ (totalPoints (healthEntries data) = 0 ∨ (data.x_dates.getD []).length = 0)) :
    (prepareHealthChart st data).healthMetrics =
        st.healthMetrics.map (updateCard ((healthEntries data).map (fun e =>
          ({ name := e.1, data := e.2, color := seriesColor e.1, opacity := 1 } : Series)))) ∧
      (prepareHealthChart st data).tab = st.tab := by
  refine ⟨?_, ?_⟩ <;>
    simp only [prepareHealthChart, if_neg h, updateMetricOpacity, updateHealthMetricsValues]

/-! ## Lemmas on default filters -/

theorem setMonth_of_fits (d : JsDate) (m : Int)
    (h : d.day ≤ daysInMonth (d.year + m / 12) (m % 12).toNat) :
    d.setMonth m = ⟨d.year + m / 12, (m % 12).toNat, d.day⟩ := by
  simp only [JsDate.setMonth, if_pos h]

theorem daysInMonth_ge (y : Int) (m : Nat) : 28 ≤ daysInMonth y m := by
  unfold daysInMonth
  split
  · split <;> decide
  · split <;> decide

theorem applyDefaultFilters_window (st : State) (now : JsDate)
    (huid : st.filters.karyawan_uid = "") (hsel : st.showSelectors = true)
    (hfit : now.day ≤ daysInMonth (now.year + ((now.month : Int) - 5) / 12)
      (((now.month : Int) - 5) % 12).toNat) :
    (applyDefaultFilters st now).filters.start_month = fmtMonthISO (fiveMonthsBefore now) ∧
      (applyDefaultFilters st now).filters.end_month = fmtMonthISO now := by
  simp only [applyDefaultFilters, huid, hsel, setMonth_of_fits now _ hfit]
  simp [fmtMonthISO, fiveMonthsBefore]

theorem applyDefaultFilters_window_of_day_le (st : State) (now : JsDate)
    (huid : st.filters.karyawan_uid = "") (hsel : st.showSelectors = true)
    (hday : now.day ≤ 28) :
    (applyDefaultFilters st now).filters.start_month = fmtMonthISO (fiveMonthsBefore now) ∧
      (applyDefaultFilters st now).filters.end_month = fmtMonthISO now :=
  applyDefaultFilters_window st now huid hsel (Nat.le_trans hday (daysInMonth_ge _ _))

theorem window_fits_of_valid (now : JsDate) (hv : validDate now)
    (hnot : now.month ≠ 6 ∨ now.day ≤ daysInMonth now.year 1) :
    now.day ≤ daysInMonth (now.year + ((now.month : Int) - 5) / 12)
      (((now.month : Int) - 5) % 12).toNat := by
  obtain ⟨y, m, d⟩ := now
  obtain ⟨hm, _, hd⟩ := hv
  simp only at hm hd hnot ⊢
  have h29 : daysInMonth y 1 ≤ 29 := by
    unfold daysInMonth; simp only [if_true]; split <;> decide
  have e0 : Int.toNat 0 = 0 := rfl
  have e1 : Int.toNat 1 = 1 := rfl
  have e2 : Int.toNat 2 = 2 := rfl
  have e3 : Int.toNat 3 = 3 := rfl
  have e4 : Int.toNat 4 = 4 := rfl
  have e5 : Int.toNat 5 = 5 := rfl
  have e6 : Int.toNat 6 = 6 := rfl
  have e7 : Int.toNat 7 = 7 := rfl
  have e8 : Int.toNat 8 = 8 := rfl
  have e9 : Int.toNat 9 = 9 := rfl
  have e10 : Int.toNat 10 = 10 := rfl
  have e11 : Int.toNat 11 = 11 := rfl
  interval_cases m
  all_goals first
    | (norm_num [daysInMonth, e0, e1, e2, e3, e4, e5, e6, e7, e8, e9, e10, e11] at hd ⊢; done)
    | (norm_num [daysInMonth, e0, e1, e2, e3, e4, e5, e6, e7, e8, e9, e10, e11] at hd ⊢; omega)
    | (norm_num [e1] at hnot ⊢; exact hnot)
    | (norm_num [daysInMonth, e0, e1, e2, e3, e4, e5, e6, e7, e8, e9, e10, e11] at hd ⊢
       split at hd <;> omega)

theorem applyDefaultFilters_window_of_valid (st : State) (now : JsDate)
    (huid : st.filters.karyawan_uid = "") (hsel : st.showSelectors = true)
    (hv : validDate now) (hnot : now.month ≠ 6 ∨ now.day ≤ daysInMonth now.year 1) :
    (applyDefaultFilters st now).filters.start_month = fmtMonthISO (fiveMonthsBefore now) ∧
      (applyDefaultFilters st now).filters.end_month = fmtMonthISO now :=
  applyDefaultFilters_window st now huid hsel (window_fits_of_valid now hv hnot)

/-! ## Lemmas on emphasis -/

theorem isDimmed_active (m name : String) (hm : m ≠ "") :
    isDimmed (some m) name = decide (name ≠ m) := by
  simp [isDimmed, hm]

theorem opacityOf_active (m name : String) (hm : m ≠ "") :
    opacityOf (some m) name = if name = m then 1 else 3 / 10 := by
  by_cases h : name = m <;> simp [opacityOf, isDimmed, hm, h]

theorem opacityOf_inactive (a : Option String) (name : String) (ha : a = none ∨ a = some "") :
    opacityOf a name = 1 := by
  rcases ha with rfl | rfl <;> simp [opacityOf, isDimmed]

theorem three_tenths_ne_one : ((3 : ℚ) / 10 = 1) = False := by norm_num

theorem hexDigitVal_range (c : Char) (d : Nat) (h : hexDigitVal c = some d) :
    48 ≤ c.toNat ∧ c.toNat ≤ 102 ∧ d < 16 := by
  unfold hexDigitVal at h
  have e0 : '0'.toNat = 48 := rfl
  have e9 : '9'.toNat = 57 := rfl
  have ea : 'a'.toNat = 97 := rfl
  have ef : 'f'.toNat = 102 := rfl
  have eA : 'A'.toNat = 65 := rfl
  have eF : 'F'.toNat = 70 := rfl
  have hle : ∀ a b : Char, a ≤ b → a.toNat ≤ b.toNat := fun a b hab => hab
  split at h
  · next hc =>
    have h1 := hle _ _ hc.1
    have h2 := hle _ _ hc.2
    rw [e0] at h1
    rw [e9] at h2
    simp only [Option.some.injEq] at h
    omega
  · split at h
    · next hc =>
      have h1 := hle _ _ hc.1
      have h2 := hle _ _ hc.2
      rw [ea] at h1
      rw [ef] at h2
      simp only [Option.some.injEq] at h
      omega
    · split at h
      · next hc =>
        have h1 := hle _ _ hc.1
        have h2 := hle _ _ hc.2
        rw [eA] at h1
        rw [eF] at h2
        simp only [Option.some.injEq] at h
        omega
      · cases h

theorem hexDigit_not_space (c : Char) (d : Nat) (h : hexDigitVal c = some d) :
    isJsWhiteSpace c = false := by
  obtain ⟨h1, h2, _⟩ := hexDigitVal_range c d h
  simp only [isJsWhiteSpace, Bool.or_eq_false_iff, decide_eq_false_iff_not, Bool.and_eq_false_imp,
    decide_eq_true_eq]
  omega

theorem hexDigit_ne (c x : Char) (d : Nat) (h : hexDigitVal c = some d)
    (hx : hexDigitVal x = none) : c ≠ x := by
  intro hcx
  rw [hcx, hx] at h
  cases h

theorem parseIntHex_pair (c1 c2 : Char) (d1 d2 : Nat)
    (h1 : hexDigitVal c1 = some d1) (h2 : hexDigitVal c2 = some d2) :
    parseIntHex [c1, c2] = some ((16 * d1 + d2 : Nat) : Int) := by
  have hs := hexDigit_not_space c1 d1 h1
  have hm : c1 ≠ '-' := hexDigit_ne c1 _ d1 h1 (by decide)
  have hp : c1 ≠ '+' := hexDigit_ne c1 _ d1 h1 (by decide)
  have hx : c2 ≠ 'x' := hexDigit_ne c2 _ d2 h2 (by decide)
  have hX : c2 ≠ 'X' := hexDigit_ne c2 _ d2 h2 (by decide)
  simp [parseIntHex, List.dropWhile, hs, hm, hp, hx, hX, hexRun, h1, h2]
  omega

theorem showParsed_natCast (n : Nat) : showParsed (some ((n : Nat) : Int)) = toString n := rfl

theorem removeFirstHash_cons_hash (cs : List Char) : removeFirstHash ('#' :: cs) = cs := by
  simp [removeFirstHash]

theorem hexToRgba_six_digits (c1 c2 c3 c4 c5 c6 : Char) (d1 d2 d3 d4 d5 d6 : Nat)
    (h1 : hexDigitVal c1 = some d1) (h2 : hexDigitVal c2 = some d2)
    (h3 : hexDigitVal c3 = some d3) (h4 : hexDigitVal c4 = some d4)
    (h5 : hexDigitVal c5 = some d5) (h6 : hexDigitVal c6 = some d6) (a : ℚ) :
    hexToRgba (String.mk ['#', c1, c2, c3, c4, c5, c6]) a =
      "rgba(" ++ toString (16 * d1 + d2) ++ ", " ++ toString (16 * d3 + d4) ++ ", " ++
        toString (16 * d5 + d6) ++ ", " ++ jsNumberToString a ++ ")" := by
  have e : (String.mk ['#', c1, c2, c3, c4, c5, c6]).toList = ['#', c1, c2, c3, c4, c5, c6] := rfl
  simp only [hexToRgba, e, removeFirstHash_cons_hash, List.length_cons, List.length_nil]
  simp only [show ¬ (0 + 1 + 1 + 1 + 1 + 1 + 1 = 3) by decide, if_false, List.take, List.drop,
    parseIntHex_pair _ _ _ _ h1 h2, parseIntHex_pair _ _ _ _ h3 h4,
    parseIntHex_pair _ _ _ _ h5 h6, showParsed_natCast]

theorem hexToRgba_three_digits (c1 c2 c3 : Char) (d1 d2 d3 : Nat)
    (h1 : hexDigitVal c1 = some d1) (h2 : hexDigitVal c2 = some d2)
    (h3 : hexDigitVal c3 = some d3) (a : ℚ) :
    hexToRgba (String.mk ['#', c1, c2, c3]) a =
      "rgba(" ++ toString (16 * d1 + d1) ++ ", " ++ toString (16 * d2 + d2) ++ ", " ++
        toString (16 * d3 + d3) ++ ", " ++ jsNumberToString a ++ ")" := by
  have e : (String.mk ['#', c1, c2, c3]).toList = ['#', c1, c2, c3] := rfl
  simp only [hexToRgba, e, removeFirstHash_cons_hash, List.length_cons, List.length_nil]
  simp only [show (0 + 1 + 1 + 1 = 3) by decide, if_true, List.flatMap_cons, List.flatMap_nil,
    List.cons_append, List.nil_append, List.append_nil, List.take, List.drop,
    parseIntHex_pair _ _ _ _ h1 h1, parseIntHex_pair _ _ _ _ h2 h2,
    parseIntHex_pair _ _ _ _ h3 h3, showParsed_natCast]

theorem jsNumberToString_three_tenths : jsNumberToString (3 / 10) = "0.3" := by decide!

/-! ## Cards without a valid value -/

/-- C11. For a card whose series has no valid value (no series of that name in
`chartSeries`, or a series whose data is empty or holds only entries that are
not numbers or are `NaN`), `updateHealthMetricsValues` sets the value to the
placeholder `"-"` and leaves `statusLabel` and `statusClass` empty. -/
theorem updateHealthMetricsValues_placeholder (st : State) (i : Nat) (hm : HealthCard)
    (hi : st.healthMetrics[i]? = some hm)
    (h : byName st.chartSeries hm.title = none ∨
      ∃ s, byName st.chartSeries hm.title = some s ∧
        ∀ v ∈ s.data, (v.isNumberType && !v.isNaN) = false) :
    ∃ card, (updateHealthMetricsValues st).healthMetrics[i]? = some card ∧
      card.value = "-" ∧ card.statusLabel = "" ∧ card.statusClass = "" := by
  refine ⟨updateCard st.chartSeries hm, ?_, ?_⟩
  · rw [updateHealthMetricsValues_getElem, hi]; rfl
  · apply updateCard_of_no_avg
    rcases h with h | ⟨s, hs, hv⟩
    · exact Or.inl h
    · exact Or.inr ⟨s, hs, avgNonNull_eq_none _ (validNums_eq_nil _ hv)⟩

/-- An instance of C11: the series `[null, NaN, "120"]` gives the placeholder. -/
theorem updateHealthMetricsValues_placeholder_witness :
    (cardState [JsVal.null, JsVal.nan, JsVal.str "120"]).healthMetrics[0]? = some cardPuasa ∧
      (byName (cardState [JsVal.null, JsVal.nan, JsVal.str "120"]).chartSeries cardPuasa.title
          = none ∨
        ∃ s, byName (cardState [JsVal.null, JsVal.nan, JsVal.str "120"]).chartSeries
            cardPuasa.title = some s ∧
          ∀ v ∈ s.data, (v.isNumberType && !v.isNaN) = false) ∧
      ∃ card, (updateHealthMetricsValues
          (cardState [JsVal.null, JsVal.nan, JsVal.str "120"])).healthMetrics[0]? = some card ∧
        card.value = "-" ∧ card.statusLabel = "" ∧ card.statusClass = "" :=
  have h : byName (cardState [JsVal.null, JsVal.nan, JsVal.str "120"]).chartSeries
        cardPuasa.title = none ∨
      ∃ s, byName (cardState [JsVal.null, JsVal.nan, JsVal.str "120"]).chartSeries
          cardPuasa.title = some s ∧
        ∀ v ∈ s.data, (v.isNumberType && !v.isNaN) = false :=
    Or.inr ⟨seriesPuasa [JsVal.null, JsVal.nan, JsVal.str "120"], rfl, by decide⟩
  ⟨rfl, h, updateHealthMetricsValues_placeholder _ 0 cardPuasa rfl h⟩

/-! ## The end-to-end scenario -/

/-- C12 fails as stated: after the fetch of the scenario on a fresh component
no card titled `Gula Darah Puasa` has the value `"125.0 mg/dL"` and an empty
`statusLabel`. -/
theorem end_to_end_card_differs :
    ¬ ∃ c ∈ (fetchHealthMetrics (buildHealthMetricsModel initialState)
          (HealthResponse.ok examplePayload)).healthMetrics,
        c.title = "Gula Darah Puasa" ∧ c.value = "125.0 mg/dL" ∧ c.statusLabel = "" := by
  decide!

/-- C12 amended. When the health-metrics fetch returns the two-month payload
with `'Gula Darah Puasa': [120, 130]` on a component on the health tab whose
cards were built by `buildHealthMetricsModel`, the chart is shown (the render
gate is Ready), the card of `Gula Darah Puasa` has the value `"125 mg/dL"`
and the `statusLabel` `"Well"`, and the four other cards show the placeholder
with an empty status. -/
theorem end_to_end_scenario (st : State) (htab : st.tab = "health") :
    healthChartShown (fetchHealthMetrics (buildHealthMetricsModel st)
        (HealthResponse.ok examplePayload)) = true ∧
      (fetchHealthMetrics (buildHealthMetricsModel st)
          (HealthResponse.ok examplePayload)).healthMetrics.map
            (fun c => (c.title, c.value, c.statusLabel)) =
        [("Gula Darah Puasa", "125 mg/dL", "Well"), ("Gula Darah Sewaktu", "-", ""),
          ("Tekanan Darah", "-", ""), ("Cholesterol", "-", ""), ("Asam Urat", "-", "")] := by
  have hgate : healthGate examplePayload = true := by decide
  have hcond : ¬ (totalPoints (healthEntries examplePayload) = 0 ∨
      (examplePayload.x_dates.getD []).length = 0) := by decide
  have hfetch : fetchHealthMetrics (buildHealthMetricsModel st)
      (HealthResponse.ok examplePayload)
        = prepareHealthChart (buildHealthMetricsModel st) examplePayload := by
    simp only [fetchHealthMetrics, hgate, if_true]
  obtain ⟨hcards, htab2⟩ := prepareHealthChart_cards (buildHealthMetricsModel st) examplePayload hcond
  rw [hfetch]
  constructor
  · have hr := (prepareHealthChart_ready (buildHealthMetricsModel st) examplePayload).2 hcond
    have ht : (prepareHealthChart (buildHealthMetricsModel st) examplePayload).tab = "health" := by
      rw [htab2]; exact htab
    simp only [healthChartShown, hr, ht, decide_True, Bool.and_self]
  · rw [hcards]
    have hb : (buildHealthMetricsModel st).healthMetrics
        = (buildHealthMetricsModel initialState).healthMetrics := rfl
    rw [hb]
    decide!

/-- An instance of C12 amended: the component as `data()` creates it. -/
theorem end_to_end_scenario_witness :
    initialState.tab = "health" ∧
      healthChartShown (fetchHealthMetrics (buildHealthMetricsModel initialState)
        (HealthResponse.ok examplePayload)) = true :=
  ⟨rfl, (end_to_end_scenario initialState rfl).1⟩

/-! ## The frame of the card aggregator -/

/-- C13. `updateHealthMetricsValues` keeps the number and order of the cards
and every card's title, description, icon, iconHex and units (so only value,
statusLabel and statusClass can change), it leaves `chartSeries` and
`chartOptions` as they are, and the cards built by `buildHealthMetricsModel`
are, before and after the update, one per name of `metricsList` in that
order. -/
theorem updateHealthMetricsValues_frame (st : State) :
    (updateHealthMetricsValues st).healthMetrics.length = st.healthMetrics.length ∧
      (updateHealthMetricsValues st).healthMetrics.map
          (fun c => (c.title, c.description, c.icon, c.iconHex, c.units))
        = st.healthMetrics.map (fun c => (c.title, c.description, c.icon, c.iconHex, c.units)) ∧
      (updateHealthMetricsValues st).chartSeries = st.chartSeries ∧
      (updateHealthMetricsValues st).chartOptions = st.chartOptions ∧
      (updateHealthMetricsValues (buildHealthMetricsModel st)).healthMetrics.map
          (fun c => c.title) = metricsList ∧
      (buildHealthMetricsModel st).healthMetrics.map (fun c => c.title) = metricsList := by
  refine ⟨by simp [updateHealthMetricsValues], ?_, rfl, rfl, ?_, ?_⟩
  · simp only [updateHealthMetricsValues, List.map_map]
    rfl
  · simp only [updateHealthMetricsValues, buildHealthMetricsModel, List.map_map]
    exact List.map_id _
  · simp only [buildHealthMetricsModel, List.map_map]
    exact List.map_id _

/-! ## The render gate after `prepareHealthChart` -/

/-- C14. After `prepareHealthChart(data)` the Ready condition of the template
(`chartOptions` non-null, `chartSeries` non-empty, categories non-empty)
holds if and only if `x_dates` is a non-empty array and some aligned series
of a known metric holds a valid numeric point; when it does not hold the
state is Empty (`chartOptions = null`, `chartSeries = []`).  The aligned
series are the entries: for each known metric, its raw series normalised to
the x-axis length. -/
theorem render_gate_iff (st : State) (data : HealthPayload) :
    (healthReady (prepareHealthChart st data) = true ↔
      ((∃ xs, data.x_dates = some xs ∧ xs ≠ []) ∧
        ∃ e ∈ healthEntries data, ∃ v ∈ e.2, isValidPoint v = true)) ∧
    (healthReady (prepareHealthChart st data) = false →
      (prepareHealthChart st data).chartOptions = none ∧
        (prepareHealthChart st data).chartSeries = []) ∧
    (∀ e ∈ healthEntries data, e.1 ∈ metricsList ∧
      e.2 = normalizeLen (JsVal.arr (rawGet data.series e.1).elems)
        (data.x_dates.getD []).length) := by
  have hx : (∃ xs, data.x_dates = some xs ∧ xs ≠ []) ↔ (data.x_dates.getD []).length ≠ 0 := by
    cases hd : data.x_dates with
    | none => simp
    | some xs => simp
  refine ⟨?_, ?_, ?_⟩
  · rw [prepareHealthChart_ready, not_or, hx, ← totalPoints_ne_zero_iff]
    exact And.comm
  · intro hr
    have hc : totalPoints (healthEntries data) = 0 ∨ (data.x_dates.getD []).length = 0 := by
      by_contra hn
      rw [(prepareHealthChart_ready st data).2 hn] at hr
      cases hr
    rw [prepareHealthChart_cleared st data hc]
    exact ⟨rfl, rfl⟩
  · intro e he
    rw [healthEntries_eq] at he
    obtain ⟨name, hname, rfl⟩ := List.mem_map.1 he
    exact ⟨hname, rfl⟩

/-- An instance of C14: the two-month payload is Ready, the all-missing one
is Empty. -/
theorem render_gate_iff_witness :
    healthReady (prepareHealthChart initialState examplePayload) = true ∧
      (prepareHealthChart initialState allMissingPayload).chartOptions = none ∧
      (prepareHealthChart initialState allMissingPayload).chartSeries = [] :=
  ⟨(render_gate_iff initialState examplePayload).1.2
      ⟨⟨_, rfl, List.cons_ne_nil _ _⟩, by decide⟩,
    (render_gate_iff initialState allMissingPayload).2.1 (by decide!)⟩

/-! ## Failed fetches -/

/-- C15 fails as stated: from a state that shows a chart, a failed
health-metrics request ends with `chartOptions` still non-null and
`chartSeries` still non-empty; from a state on the well tab that shows the
well/unwell chart, a failed well/unwell request inside `fetchData` ends with
`wellUnwellOptions` still non-null. -/
theorem failed_fetch_keeps_dataset :
    healthReady (prepareHealthChart initialState examplePayload) = true ∧
      (fetchHealthMetrics (prepareHealthChart initialState examplePayload)
        HealthResponse.failed).chartOptions ≠ none ∧
      (fetchHealthMetrics (prepareHealthChart initialState examplePayload)
        HealthResponse.failed).chartSeries ≠ [] ∧
      (fetchData { prepareWellUnwellChart initialState exampleWellPayload with tab := "well" }
        HealthResponse.failed WellResponse.failed).wellUnwellOptions ≠ none := by
  refine ⟨by decide!, ?_, ?_, ?_⟩
  · intro h
    have h1 := congrArg Option.isSome h
    revert h1
    decide!
  · intro h
    have h1 := congrArg List.length h
    revert h1
    decide!
  · intro h
    have h1 := congrArg Option.isSome h
    revert h1
    decide!

/-- C15 amended. A failed metric-data fetch leaves the component state as it
was and throws nothing to the caller: `fetchHealthMetrics` returns the state
unchanged, `fetchWellUnwellSummary` throws, and `fetchData` (on either tab)
catches and returns the state unchanged; so an Empty state stays Empty and a
rendered dataset stays rendered. -/
theorem failed_fetch_leaves_state (st : State) (health : HealthResponse) (well : WellResponse) :
    fetchHealthMetrics st HealthResponse.failed = st ∧
      fetchWellUnwellSummary st WellResponse.failed = none ∧
      fetchData { st with tab := "health" } HealthResponse.failed well
        = { st with tab := "health" } ∧
      fetchData { st with tab := "well" } health WellResponse.failed
        = { st with tab := "well" } ∧
      fetchData st HealthResponse.failed WellResponse.failed = st := by
  refine ⟨rfl, rfl, ?_, ?_, ?_⟩
  · simp [fetchData, fetchHealthMetrics]
  · simp [fetchData, fetchWellUnwellSummary]
  · unfold fetchData
    split <;> rfl

/-! ## Cards after a rejected payload -/

/-- C16 at its failing input: after a rendered two-month payload, both a
payload with only missing readings and a payload of 5001 labels are rejected
(`chartOptions = null`), and the card of `Gula Darah Puasa` still shows the
value `"125 mg/dL"` and the status `"Well"` of the earlier dataset. -/
theorem rejection_keeps_stale_cards :
    ((fetchHealthMetrics (fetchHealthMetrics (buildHealthMetricsModel initialState)
        (HealthResponse.ok examplePayload)) (HealthResponse.ok allMissingPayload)).chartOptions.isSome
      = false ∧
    (fetchHealthMetrics (fetchHealthMetrics (buildHealthMetricsModel initialState)
        (HealthResponse.ok examplePayload)) (HealthResponse.ok allMissingPayload)).healthMetrics.map
          (fun c => (c.title, c.value, c.statusLabel)) =
      [("Gula Darah Puasa", "125 mg/dL", "Well"), ("Gula Darah Sewaktu", "-", ""),
        ("Tekanan Darah", "-", ""), ("Cholesterol", "-", ""), ("Asam Urat", "-", "")]) ∧
    ((fetchHealthMetrics (fetchHealthMetrics (buildHealthMetricsModel initialState)
        (HealthResponse.ok examplePayload)) (HealthResponse.ok oversizedPayload)).chartOptions.isSome
      = false ∧
    (fetchHealthMetrics (fetchHealthMetrics (buildHealthMetricsModel initialState)
        (HealthResponse.ok examplePayload)) (HealthResponse.ok oversizedPayload)).healthMetrics.map
          (fun c => (c.title, c.value, c.statusLabel)) =
      [("Gula Darah Puasa", "125 mg/dL", "Well"), ("Gula Darah Sewaktu", "-", ""),
        ("Tekanan Darah", "-", ""), ("Cholesterol", "-", ""), ("Asam Urat", "-", "")]) := by
  have hx : (oversizedPayload.x_dates.getD []).length = 5001 := List.length_replicate _ _
  have hgate : healthGate oversizedPayload = false := by
    simp only [healthGate, hx, MAX_SAFE_POINTS, Bool.and_eq_false_imp, decide_eq_true_eq]
    intro h
    omega
  refine ⟨by decide!, ?_⟩
  simp only [fetchHealthMetrics, hgate]
  decide!

/-! ## The default window -/

/-- C17 at its failing input: on 31 July 2024, with no employee id and visible
selectors, `applyDefaultFilters` sets `end_month` to `"2024-07"` and
`start_month` to `"2024-03"`, while the month five calendar months before
July 2024 is `"2024-02"`. -/
theorem default_window_day_overflow :
    validDate ⟨2024, 6, 31⟩ ∧
      initialState.filters.karyawan_uid = "" ∧ initialState.showSelectors = true ∧
      (applyDefaultFilters initialState ⟨2024, 6, 31⟩).filters.end_month = "2024-07" ∧
      (applyDefaultFilters initialState ⟨2024, 6, 31⟩).filters.start_month = "2024-03" ∧
      fmtMonthISO (fiveMonthsBefore ⟨2024, 6, 31⟩) = "2024-02" := by
  refine ⟨by unfold validDate; decide, rfl, rfl, by decide, by decide, by decide⟩

/-! ## Full history -/

/-- C18. When an employee id is set (`karyawan_uid` non-empty) or selectors are
hidden, `applyDefaultFilters` sets `start_month` and `end_month` to the empty
string, leaves `karyawan_uid` unchanged and resets `lokasi` to the empty
string, whatever the filters were and whatever the date. -/
theorem applyDefaultFilters_full_history (st : State) (now : JsDate)
    (h : st.filters.karyawan_uid ≠ "" ∨ st.showSelectors = false) :
    (applyDefaultFilters st now).filters.start_month = "" ∧
      (applyDefaultFilters st now).filters.end_month = "" ∧
      (applyDefaultFilters st now).filters.karyawan_uid = st.filters.karyawan_uid ∧
      (applyDefaultFilters st now).filters.lokasi = "" := by
  have hc : (decide (st.filters.karyawan_uid ≠ "") || decide (st.showSelectors = false)) = true := by
    rcases h with h | h
    · simp [h]
    · simp [h]
  refine ⟨?_, ?_, ?_, ?_⟩ <;> simp only [applyDefaultFilters, hc, if_true]

/-- An instance of C18: a preselected employee with filled-in filters. -/
theorem applyDefaultFilters_full_history_witness :
    (preselectedState.filters.karyawan_uid ≠ "" ∨ preselectedState.showSelectors = false) ∧
      (applyDefaultFilters preselectedState ⟨2024, 6, 31⟩).filters.start_month = "" ∧
      (applyDefaultFilters preselectedState ⟨2024, 6, 31⟩).filters.end_month = "" ∧
      (applyDefaultFilters preselectedState ⟨2024, 6, 31⟩).filters.karyawan_uid = "u-17" ∧
      (applyDefaultFilters preselectedState ⟨2024, 6, 31⟩).filters.lokasi = "" :=
  ⟨Or.inl (by decide),
    applyDefaultFilters_full_history preselectedState ⟨2024, 6, 31⟩ (Or.inl (by decide))⟩

/-! ## Emphasis of the active metric -/

/-- C19. Emphasis: with an active metric `m`, `updateMetricOpacity` gives the
series named `m` opacity 1 and gives every other series opacity 0.3; in
`chartOptions.colors` the series named `m` has its unmodified base colour
(`s.color || '#0073fe'`) and every other series has `hexToRgba` of its base
colour with alpha 0.3; with no active metric every series has opacity 1 and
its unmodified base colour.  `hexToRgba` with alpha 0.3 gives the rgba form:
`'#f87171'` becomes `'rgba(248, 113, 113, 0.3)'`, likewise for the other
registry colours and the fallback, and in general `#` with six hexadecimal
digits becomes `rgba(R, G, B, 0.3)` with the three byte values in decimal. -/
theorem updateMetricOpacity_emphasis (st : State) :
    (∀ m, m ≠ "" → st.activeMetric = some m →
      (updateMetricOpacity st).chartSeries =
          st.chartSeries.map (fun s => { s with opacity := if s.name = m then 1 else 3 / 10 }) ∧
        (updateMetricOpacity st).chartOptions.map (fun o => o.colors) =
          st.chartOptions.map (fun _ => st.chartSeries.map (fun s =>
            if s.name = m then (if s.color ≠ "" then s.color else "#0073fe")
            else hexToRgba (if s.color ≠ "" then s.color else "#0073fe") (3 / 10)))) ∧
    ((st.activeMetric = none ∨ st.activeMetric = some "") →
      (updateMetricOpacity st).chartSeries =
          st.chartSeries.map (fun s => { s with opacity := 1 }) ∧
        (updateMetricOpacity st).chartOptions.map (fun o => o.colors) =
          st.chartOptions.map (fun _ => st.chartSeries.map (fun s =>
            if s.color ≠ "" then s.color else "#0073fe"))) ∧
    (hexToRgba "#f87171" (3 / 10) = "rgba(248, 113, 113, 0.3)" ∧
      hexToRgba "#dc2626" (3 / 10) = "rgba(220, 38, 38, 0.3)" ∧
      hexToRgba "#ef4444" (3 / 10) = "rgba(239, 68, 68, 0.3)" ∧
      hexToRgba "#06b6d4" (3 / 10) = "rgba(6, 182, 212, 0.3)" ∧
      hexToRgba "#f59e0b" (3 / 10) = "rgba(245, 158, 11, 0.3)" ∧
      hexToRgba "#0073fe" (3 / 10) = "rgba(0, 115, 254, 0.3)") ∧
    (∀ (c1 c2 c3 c4 c5 c6 : Char) (d1 d2 d3 d4 d5 d6 : Nat),
      hexDigitVal c1 = some d1 → hexDigitVal c2 = some d2 → hexDigitVal c3 = some d3 →
      hexDigitVal c4 = some d4 → hexDigitVal c5 = some d5 → hexDigitVal c6 = some d6 →
      hexToRgba (String.mk ['#', c1, c2, c3, c4, c5, c6]) (3 / 10) =
        "rgba(" ++ toString (16 * d1 + d2) ++ ", " ++ toString (16 * d3 + d4) ++ ", " ++
          toString (16 * d5 + d6) ++ ", " ++ "0.3" ++ ")") := by
  refine ⟨?_, ?_, by decide!, ?_⟩
  · intro m hm ha
    constructor
    · simp only [updateMetricOpacity, ha, opacityOf_active _ _ hm]
    · cases ho : st.chartOptions with
      | none => simp [updateMetricOpacity, ho]
      | some o =>
        simp only [updateMetricOpacity, ho, ha, opacityOf_active _ _ hm, Option.map_some',
          List.map_map, DEFAULT_COLOR]
        congr 1
        apply List.map_congr_left
        intro s _
        by_cases h : s.name = m <;> simp [h, three_tenths_ne_one]
  · intro ha
    constructor
    · simp only [updateMetricOpacity, opacityOf_inactive _ _ ha]
    · cases ho : st.chartOptions with
      | none => simp [updateMetricOpacity, ho]
      | some o =>
        simp only [updateMetricOpacity, ho, opacityOf_inactive _ _ ha, Option.map_some',
          List.map_map, DEFAULT_COLOR]
        congr 1
  · intro c1 c2 c3 c4 c5 c6 d1 d2 d3 d4 d5 d6 h1 h2 h3 h4 h5 h6
    rw [hexToRgba_six_digits c1 c2 c3 c4 c5 c6 d1 d2 d3 d4 d5 d6 h1 h2 h3 h4 h5 h6,
      jsNumberToString_three_tenths]

/-- An instance of C19: with `Asam Urat` active, the other series is dimmed and
its colour is the rgba form. -/
theorem updateMetricOpacity_emphasis_witness :
    (updateMetricOpacity emphasisState).chartSeries.map (fun s => (s.name, s.opacity)) =
        [("Gula Darah Puasa", 3 / 10), ("Asam Urat", 1)] ∧
      (updateMetricOpacity emphasisState).chartOptions.map (fun o => o.colors) =
        some ["rgba(248, 113, 113, 0.3)", "#f59e0b"] := by
  obtain ⟨h1, h2⟩ := (updateMetricOpacity_emphasis emphasisState).1 "Asam Urat" (by decide) rfl
  rw [h1, h2]
  exact ⟨by decide!, by decide!⟩

/-! ## The threshold annotation -/

/-- C20 fails as stated: `constructor` is not a metric of the registry, yet
with it as the active metric `updateMetricOpacity` stores one line, whose
`y`, colour and label are `undefined`: the read `METRIC_CONFIG['constructor']`
gives the function every object inherits, which passes the guard. -/
theorem inherited_name_draws_line :
    (METRIC_CONFIG "constructor").isNone = true ∧
      decide ("constructor" ∈ METRIC_CONFIG_KEYS) = false ∧
      inheritedNameState.chartOptions.isSome = true ∧
      inheritedNameState.activeMetric = some "constructor" ∧
      (updateMetricOpacity inheritedNameState).chartOptions.map (fun p => p.annotationsYaxis) =
        some [⟨none, none, 5, none, "#fff", none⟩] ∧
      ((updateMetricOpacity inheritedNameState).chartOptions.map
        (fun p => p.annotationsYaxis.length)) ≠ some 0 := by
  refine ⟨by decide, by decide, rfl, rfl, rfl, by decide⟩

/-- C20 amended. For a rendered health chart (`chartOptions` non-null), after
`updateMetricOpacity` with an active metric of the registry,
`chartOptions.annotations.yaxis` holds exactly one line, whose `y` is that
metric's threshold and whose colour and label are that metric's; with no
active metric, or an active name that is neither in the registry nor one of
the property names inherited from `Object.prototype`, the list is empty.  The
thresholds of the five metrics are 126, 200, 140, 200 and 7. -/
theorem updateMetricOpacity_threshold_line (st : State) (o : ChartOptions)
    (ho : st.chartOptions = some o) :
    (∀ m cfg, st.activeMetric = some m → METRIC_CONFIG m = some cfg →
      (updateMetricOpacity st).chartOptions.map (fun p => p.annotationsYaxis) =
        some [⟨some cfg.threshold, some cfg.color, 5, some cfg.label, "#fff", some cfg.color⟩]) ∧
    ((st.activeMetric = none ∨
        ∃ m, st.activeMetric = some m ∧ METRIC_CONFIG m = none ∧ m ∉ OBJECT_PROTOTYPE_KEYS) →
      (updateMetricOpacity st).chartOptions.map (fun p => p.annotationsYaxis) = some []) ∧
    metricsList.map (fun name => (METRIC_CONFIG name).map (fun cfg => cfg.threshold)) =
      [some 126, some 200, some 140, some 200, some 7] := by
  have hann : (updateMetricOpacity st).chartOptions.map (fun p => p.annotationsYaxis) =
      some (annotationFor st.activeMetric) := by
    simp only [updateMetricOpacity, ho, Option.map_some']
  refine ⟨?_, ?_, ?_⟩
  · intro m cfg ha hc
    have hm : m ≠ "" := by
      intro h0
      have hnone : METRIC_CONFIG "" = none := rfl
      rw [h0, hnone] at hc
      cases hc
    rw [hann, ha]
    simp only [annotationFor, hm, metricConfigGet_entry _ _ hc, ne_eq, not_false_eq_true, if_true]
  · intro h
    rw [hann]
    rcases h with h | ⟨m, ha, hc, hp⟩
    · rw [h]; rfl
    · rw [ha]
      simp only [annotationFor, metricConfigGet, hc, hp, if_false]
      split <;> rfl
  · simp only [metricsList, METRIC_CONFIG]
    decide

/-- An instance of C20 amended: with `Asam Urat` active the annotation is the
line at 7. -/
theorem updateMetricOpacity_threshold_line_witness :
    emphasisState.chartOptions =
        some { chartType := "bar", categories := [JsVal.str "2024-01"],
               colors := ["#f87171", "#f59e0b"], fillOpacity := none, annotationsYaxis := [] } ∧
      (updateMetricOpacity emphasisState).chartOptions.map (fun p => p.annotationsYaxis) =
        some [⟨some 7, some "#f59e0b", 5, some "Tinggi", "#fff", some "#f59e0b"⟩] :=
  ⟨rfl, (updateMetricOpacity_threshold_line emphasisState _ rfl).1 "Asam Urat"
    ⟨7, "Tinggi", "#f59e0b"⟩ rfl rfl⟩

/-! ## Lemmas on the update queue -/

theorem serialLog_append (a b : List Nat) : serialLog (a ++ b) = serialLog a ++ serialLog b := by
  simp [serialLog]

theorem queueInv_empty : QueueInv emptyQueue :=
  ⟨[], [], [], rfl, fun _ h => absurd h (List.not_mem_nil _),
    fun _ h => absurd h (List.not_mem_nil _), Or.inl ⟨rfl, rfl⟩⟩

theorem locate_job (done cur rest : List Job) (i : Nat) (j : Job)
    (h : (done ++ (cur ++ rest))[i]? = some j) :
    (i < done.length ∧ j ∈ done) ∨
      (done.length ≤ i ∧ i < done.length + cur.length ∧ cur[i - done.length]? = some j) ∨
      (done.length + cur.length ≤ i ∧ rest[i - done.length - cur.length]? = some j ∧ j ∈ rest) := by
  by_cases h1 : i < done.length
  · rw [List.getElem?_append_left h1] at h
    exact Or.inl ⟨h1, List.getElem?_mem h⟩
  · rw [List.getElem?_append_right (Nat.le_of_not_lt h1)] at h
    by_cases h2 : i - done.length < cur.length
    · rw [List.getElem?_append_left h2] at h
      exact Or.inr (Or.inl ⟨Nat.le_of_not_lt h1, by omega, h⟩)
    · rw [List.getElem?_append_right (Nat.le_of_not_lt h2)] at h
      exact Or.inr (Or.inr ⟨by omega, h, List.getElem?_mem h⟩)

theorem set_middle (done rest : List Job) (a b : Job) :
    (done ++ ([a] ++ rest)).set done.length b = done ++ ([b] ++ rest) := by
  rw [List.set_append, if_neg (Nat.lt_irrefl _), Nat.sub_self]
  rfl

theorem locate_current (done cur rest : List Job) (i : Nat) (j : Job) (st : JobStatus)
    (hd : ∀ j ∈ done, j.status = JobStatus.settled)
    (hr : ∀ j ∈ rest, j.status = JobStatus.waiting)
    (hc : cur = [] ∨ ∃ f, cur = [⟨f, st⟩])
    (h : (done ++ (cur ++ rest))[i]? = some j)
    (h1 : j.status ≠ JobStatus.settled) (h2 : j.status ≠ JobStatus.waiting) :
    i = done.length ∧ cur = [j] ∧ j.status = st := by
  rcases locate_job done cur rest i j h with ⟨_, hm⟩ | ⟨hle, hlt, hget⟩ | ⟨_, _, hm⟩
  · exact absurd (hd j hm) h1
  · rcases hc with rfl | ⟨f, rfl⟩
    · simp at hlt
      omega
    · have hi : i - done.length = 0 := by
        simp only [List.length_singleton] at hlt
        omega
      rw [hi] at hget
      simp only [List.getElem?_cons_zero, Option.some.injEq] at hget
      subst hget
      exact ⟨by omega, rfl, rfl⟩
  · exact absurd (hr j hm) h2

theorem queueInv_step (q q1 : ChartQueue) (e : QueueEvent) (h : QueueInv q)
    (hs : queueStep q e = some q1) : QueueInv q1 := by
  obtain ⟨done, cur, rest, hjobs, hd, hr, hcur⟩ := h
  cases e with
  | enqueue fn =>
    simp only [queueStep, enqueueUpdate, Option.some.injEq] at hs
    subst hs
    refine ⟨done, cur, rest ++ [⟨fn, JobStatus.waiting⟩], ?_, hd, ?_, hcur⟩
    · simp only [hjobs, List.append_assoc]
    · intro j hj
      rcases List.mem_append.1 hj with hj | hj
      · exact hr j hj
      · rw [List.mem_singleton.1 hj]
  | thenCallback i =>
    simp only [queueStep] at hs
    cases hj : q.jobs[i]? with
    | none => rw [hj] at hs; cases hs
    | some j =>
      rw [hj] at hs
      simp only at hs
      split at hs
      · next hc =>
        obtain ⟨hw, hp⟩ := hc
        simp only [Option.some.injEq] at hs
        subst hs
        rw [hjobs] at hj hp
        -- the job is the first waiting one and nothing is in flight
        have hloc : i = done.length ∧ cur = [] ∧ ∃ rest1, rest = j :: rest1 := by
          rcases locate_job done cur rest i j hj with ⟨_, hm⟩ | ⟨hle, hlt, hget⟩ | ⟨hle, hget, _⟩
          · have := hd j hm
            rw [hw] at this
            cases this
          · rcases hcur with ⟨rfl, _⟩ | ⟨f, rfl, _⟩ | ⟨f, rfl, _⟩
            · simp at hlt
              omega
            · have hi : i - done.length = 0 := by
                simp only [List.length_singleton] at hlt
                omega
              rw [hi] at hget
              simp only [List.getElem?_cons_zero, Option.some.injEq] at hget
              subst hget
              cases hw
            · have hi : i - done.length = 0 := by
                simp only [List.length_singleton] at hlt
                omega
              rw [hi] at hget
              simp only [List.getElem?_cons_zero, Option.some.injEq] at hget
              subst hget
              cases hw
          · have hkey : i = done.length ∧ cur = [] := by
              cases i with
              | zero =>
                have h0 : done.length + cur.length = 0 := by omega
                exact ⟨by omega, List.length_eq_zero.1 (by omega)⟩
              | succ k =>
                simp only [predecessorFulfilled] at hp
                cases hk : (done ++ (cur ++ rest))[k]? with
                | none => rw [hk] at hp; cases hp
                | some j0 =>
                  rw [hk] at hp
                  simp only [decide_eq_true_eq] at hp
                  rcases locate_job done cur rest k j0 hk with
                    ⟨hlt0, _⟩ | ⟨hle0, hlt0, hget0⟩ | ⟨_, _, hm0⟩
                  · have hc0 : cur.length = 0 := by omega
                    exact ⟨by omega, List.length_eq_zero.1 hc0⟩
                  · rcases hcur with ⟨rfl, _⟩ | ⟨f, rfl, _⟩ | ⟨f, rfl, _⟩
                    · simp at hlt0
                      omega
                    · have hi : k - done.length = 0 := by
                        simp only [List.length_singleton] at hlt0
                        omega
                      rw [hi] at hget0
                      simp only [List.getElem?_cons_zero, Option.some.injEq] at hget0
                      subst hget0
                      cases hp
                    · have hi : k - done.length = 0 := by
                        simp only [List.length_singleton] at hlt0
                        omega
                      rw [hi] at hget0
                      simp only [List.getElem?_cons_zero, Option.some.injEq] at hget0
                      subst hget0
                      cases hp
                  · have := hr j0 hm0
                    rw [hp] at this
                    cases this
            obtain ⟨hi, hc0⟩ := hkey
            refine ⟨hi, hc0, ?_⟩
            subst hc0
            have hz : i - done.length - ([] : List Job).length = 0 := by
              simp only [List.length_nil]
              omega
            rw [hz] at hget
            cases rest with
            | nil => simp at hget
            | cons a t =>
              simp only [List.getElem?_cons_zero, Option.some.injEq] at hget
              exact ⟨t, by rw [hget]⟩
        obtain ⟨hi, hc0, rest1, hrest⟩ := hloc
        subst hi hc0 hrest
        refine ⟨done, [⟨j.fn, JobStatus.scheduled⟩], rest1, ?_, hd, ?_, ?_⟩
        · simp only [hjobs, List.nil_append]
          exact set_middle done rest1 j _
        · intro x hx
          exact hr x (List.mem_cons_of_mem _ hx)
        · rcases hcur with ⟨_, hl⟩ | ⟨f, hne, _⟩ | ⟨f, hne, _⟩
          · exact Or.inr (Or.inl ⟨j.fn, rfl, hl⟩)
          · cases hne
          · cases hne
      · cases hs
  | nextTick i =>
    simp only [queueStep] at hs
    cases hj : q.jobs[i]? with
    | none => rw [hj] at hs; cases hs
    | some j =>
      rw [hj] at hs
      simp only at hs
      split at hs
      · next hsch =>
        simp only [Option.some.injEq] at hs
        subst hs
        rw [hjobs] at hj
        rcases hcur with ⟨rfl, _⟩ | ⟨f, rfl, hl⟩ | ⟨f, rfl, _⟩
        · obtain ⟨_, hc0, _⟩ := locate_current done [] rest i j JobStatus.scheduled hd hr
            (Or.inl rfl) hj (by rw [hsch]; decide) (by rw [hsch]; decide)
          cases hc0
        · obtain ⟨hi, hc0, _⟩ := locate_current done _ rest i j JobStatus.scheduled hd hr
            (Or.inr ⟨f, rfl⟩) hj (by rw [hsch]; decide) (by rw [hsch]; decide)
          simp only [List.cons.injEq, and_true] at hc0
          subst hi
          refine ⟨done, [⟨j.fn, JobStatus.running⟩], rest, ?_, hd, hr, ?_⟩
          · simp only [hjobs]
            exact set_middle done rest _ _
          · exact Or.inr (Or.inr ⟨j.fn, rfl, by simp only [hl]⟩)
        · obtain ⟨_, _, hst⟩ := locate_current done _ rest i j JobStatus.running hd hr
            (Or.inr ⟨f, rfl⟩) hj (by rw [hsch]; decide) (by rw [hsch]; decide)
          rw [hsch] at hst
          cases hst
      · cases hs
  | settle i =>
    simp only [queueStep] at hs
    cases hj : q.jobs[i]? with
    | none => rw [hj] at hs; cases hs
    | some j =>
      rw [hj] at hs
      simp only at hs
      split at hs
      · next hrun =>
        simp only [Option.some.injEq] at hs
        subst hs
        rw [hjobs] at hj
        rcases hcur with ⟨rfl, _⟩ | ⟨f, rfl, _⟩ | ⟨f, rfl, hl⟩
        · obtain ⟨_, hc0, _⟩ := locate_current done [] rest i j JobStatus.running hd hr
            (Or.inl rfl) hj (by rw [hrun]; decide) (by rw [hrun]; decide)
          cases hc0
        · obtain ⟨_, _, hst⟩ := locate_current done _ rest i j JobStatus.scheduled hd hr
            (Or.inr ⟨f, rfl⟩) hj (by rw [hrun]; decide) (by rw [hrun]; decide)
          rw [hrun] at hst
          cases hst
        · obtain ⟨hi, hc0, _⟩ := locate_current done _ rest i j JobStatus.running hd hr
            (Or.inr ⟨f, rfl⟩) hj (by rw [hrun]; decide) (by rw [hrun]; decide)
          simp only [List.cons.injEq, and_true] at hc0
          subst hi
          refine ⟨done ++ [⟨j.fn, JobStatus.settled⟩], [], rest, ?_, ?_, hr, ?_⟩
          · simp only [hjobs, List.nil_append, List.append_assoc]
            exact set_middle done rest _ _
          · intro x hx
            rcases List.mem_append.1 hx with hx | hx
            · exact hd x hx
            · rw [List.mem_singleton.1 hx]
          · refine Or.inl ⟨rfl, ?_⟩
            simp only [hl, List.map_append, List.map_cons, List.map_nil, serialLog_append,
              List.append_assoc]
            rw [← hc0]
            simp [serialLog]
      · cases hs

theorem queueInv_run (es : List QueueEvent) (q q1 : ChartQueue) (h : QueueInv q)
    (hr : runQueue q es = some q1) : QueueInv q1 := by
  induction es generalizing q with
  | nil =>
    simp only [runQueue, Option.some.injEq] at hr
    subst hr
    exact h
  | cons e t ih =>
    simp only [runQueue] at hr
    cases hq : queueStep q e with
    | none => rw [hq] at hr; cases hr
    | some q2 =>
      rw [hq] at hr
      exact ih q2 (queueInv_step q q2 e h hq) hr

theorem map_fn_set (jobs : List Job) (i : Nat) (j : Job) (st : JobStatus)
    (h : jobs[i]? = some j) :
    (jobs.set i { j with status := st }).map (fun x => x.fn) = jobs.map (fun x => x.fn) := by
  apply List.ext_getElem?
  intro n
  simp only [List.getElem?_map, List.getElem?_set]
  by_cases hn : i = n
  · subst hn
    rw [if_pos rfl, h]
    have hlt : i < jobs.length := (List.getElem?_eq_some.1 h).1
    rw [if_pos hlt]
    rfl
  · rw [if_neg hn]

theorem queueStep_fns (q q1 : ChartQueue) (e : QueueEvent) (hs : queueStep q e = some q1) :
    q1.jobs.map (fun x => x.fn) = q.jobs.map (fun x => x.fn) ++ submitted [e] := by
  cases e with
  | enqueue fn =>
    simp only [queueStep, enqueueUpdate, Option.some.injEq] at hs
    subst hs
    simp [submitted]
  | thenCallback i =>
    simp only [queueStep] at hs
    cases hj : q.jobs[i]? with
    | none => rw [hj] at hs; cases hs
    | some j =>
      rw [hj] at hs
      simp only at hs
      split at hs
      · simp only [Option.some.injEq] at hs
        subst hs
        simp only [submitted, List.append_nil]
        exact map_fn_set _ _ _ _ hj
      · cases hs
  | nextTick i =>
    simp only [queueStep] at hs
    cases hj : q.jobs[i]? with
    | none => rw [hj] at hs; cases hs
    | some j =>
      rw [hj] at hs
      simp only at hs
      split at hs
      · simp only [Option.some.injEq] at hs
        subst hs
        simp only [submitted, List.append_nil]
        exact map_fn_set _ _ _ _ hj
      · cases hs
  | settle i =>
    simp only [queueStep] at hs
    cases hj : q.jobs[i]? with
    | none => rw [hj] at hs; cases hs
    | some j =>
      rw [hj] at hs
      simp only at hs
      split at hs
      · simp only [Option.some.injEq] at hs
        subst hs
        simp only [submitted, List.append_nil]
        exact map_fn_set _ _ _ _ hj
      · cases hs

theorem submitted_cons (e : QueueEvent) (es : List QueueEvent) :
    submitted (e :: es) = submitted [e] ++ submitted es := by
  cases e <;> simp [submitted]

theorem runQueue_fns (es : List QueueEvent) (q q1 : ChartQueue)
    (hr : runQueue q es = some q1) :
    q1.jobs.map (fun x => x.fn) = q.jobs.map (fun x => x.fn) ++ submitted es := by
  induction es generalizing q with
  | nil =>
    simp only [runQueue, Option.some.injEq] at hr
    subst hr
    simp [submitted]
  | cons e t ih =>
    simp only [runQueue] at hr
    cases hq : queueStep q e with
    | none => rw [hq] at hr; cases hr
    | some q2 =>
      rw [hq] at hr
      rw [ih q2 hr, queueStep_fns q q2 e hq, submitted_cons e t, List.append_assoc]

theorem queueInv_log (q : ChartQueue) (h : QueueInv q) :
    ∃ k, q.log = serialLog ((q.jobs.map (fun x => x.fn)).take k) ∨
      ∃ f, (q.jobs.map (fun x => x.fn))[k]? = some f ∧
        q.log = serialLog ((q.jobs.map (fun x => x.fn)).take k) ++ [LogEntry.started f] := by
  obtain ⟨done, cur, rest, hjobs, _, _, hcur⟩ := h
  have htake : (q.jobs.map (fun x => x.fn)).take done.length = done.map (fun x => x.fn) := by
    rw [hjobs, List.map_append]
    have hl : done.length = (done.map (fun x => x.fn)).length := by simp
    rw [hl, List.take_left]
  refine ⟨done.length, ?_⟩
  rcases hcur with ⟨_, hl⟩ | ⟨f, _, hl⟩ | ⟨f, hc, hl⟩
  · exact Or.inl (by rw [htake, hl])
  · exact Or.inl (by rw [htake, hl])
  · refine Or.inr ⟨f, ?_, by rw [htake, hl]⟩
    rw [hjobs, hc, List.map_append]
    have hl2 : done.length = (done.map (fun x => x.fn)).length := by simp
    rw [List.getElem?_append_right (by rw [← hl2]), ← hl2, Nat.sub_self]
    simp

theorem queueInv_in_flight (q : ChartQueue) (h : QueueInv q) :
    q.jobs.countP (fun j => decide (j.status = JobStatus.scheduled ∨ j.status = JobStatus.running))
      ≤ 1 := by
  obtain ⟨done, cur, rest, hjobs, hd, hr, hcur⟩ := h
  have h1 : done.countP
      (fun j => decide (j.status = JobStatus.scheduled ∨ j.status = JobStatus.running)) = 0 := by
    rw [List.countP_eq_zero]
    intro j hj
    simp [hd j hj]
  have h2 : rest.countP
      (fun j => decide (j.status = JobStatus.scheduled ∨ j.status = JobStatus.running)) = 0 := by
    rw [List.countP_eq_zero]
    intro j hj
    simp [hr j hj]
  have h3 : cur.length ≤ 1 := by
    rcases hcur with ⟨rfl, _⟩ | ⟨f, rfl, _⟩ | ⟨f, rfl, _⟩ <;> simp
  rw [hjobs, List.countP_append, List.countP_append, h1, h2]
  have := List.countP_le_length
    (fun j : Job => decide (j.status = JobStatus.scheduled ∨ j.status = JobStatus.running))
    (l := cur)
  omega

theorem queueInv_progress (q : ChartQueue) (h : QueueInv q)
    (hne : ∃ j ∈ q.jobs, j.status ≠ JobStatus.settled) :
    ∃ i, (queueStep q (QueueEvent.thenCallback i)).isSome = true ∨
      (queueStep q (QueueEvent.nextTick i)).isSome = true ∨
      (queueStep q (QueueEvent.settle i)).isSome = true := by
  obtain ⟨done, cur, rest, hjobs, hd, hr, hcur⟩ := h
  refine ⟨done.length, ?_⟩
  have hget : ∀ a t, cur ++ rest = a :: t → q.jobs[done.length]? = some a := by
    intro a t hat
    rw [hjobs, List.getElem?_append_right (Nat.le_refl _), Nat.sub_self, hat]
    simp
  rcases hcur with ⟨rfl, _⟩ | ⟨f, rfl, _⟩ | ⟨f, rfl, _⟩
  · cases rest with
    | nil =>
      obtain ⟨j, hj, hns⟩ := hne
      rw [hjobs] at hj
      simp only [List.append_nil] at hj
      exact absurd (hd j hj) hns
    | cons a t =>
      left
      have ha := hget a t rfl
      have hw : a.status = JobStatus.waiting := hr a (List.mem_cons_self _ _)
      have hp : predecessorFulfilled q.jobs done.length = true := by
        cases hlen : done.length with
        | zero => rfl
        | succ k =>
          have hk : k < done.length := by omega
          have hk2 : q.jobs[k]? = done[k]? := by
            rw [hjobs, List.getElem?_append_left hk]
          have hk3 : done[k]? = some (done[k]) := List.getElem?_eq_getElem hk
          simp only [predecessorFulfilled, hk2, hk3, decide_eq_true_eq]
          exact hd _ (List.getElem_mem _)
      simp only [queueStep, ha, hw, hp, and_self, if_true, Option.isSome_some]
  · right; left
    have ha := hget _ rest rfl
    simp only [queueStep, ha, if_true, Option.isSome_some]
  · right; right
    have ha := hget _ rest rfl
    simp only [queueStep, ha, if_true, Option.isSome_some]

/-! ## Lemmas on the reference lists -/

theorem normalizeKaryawan_isSome (x : JsVal) (hx : x.notNullish = true) :
    ∃ k, normalizeKaryawan x = some k := by
  cases x <;> simp [JsVal.notNullish] at hx <;> simp [normalizeKaryawan, propOf]

theorem mapKaryawan_filter (xs : List JsVal) (h : ∀ x ∈ xs, x.notNullish = true) :
    ∃ ks, mapKaryawan xs = some ks ∧
      ks.filter keepKaryawan =
        xs.filterMap (fun x => (normalizeKaryawan x).filter keepKaryawan) := by
  induction xs with
  | nil => exact ⟨[], rfl, rfl⟩
  | cons a t ih =>
    obtain ⟨ks, hks, hf⟩ := ih (fun x hx => h x (List.mem_cons_of_mem _ hx))
    obtain ⟨k, hk⟩ := normalizeKaryawan_isSome a (h a (List.mem_cons_self _ _))
    refine ⟨k :: ks, ?_, ?_⟩
    · simp only [mapKaryawan, hk, hks]
    · rw [List.filterMap_cons, hk]
      by_cases hkeep : keepKaryawan k = true
      · simp [Option.filter, hkeep, List.filter_cons, hf]
      · simp [Option.filter, hkeep, List.filter_cons, hf]

theorem mapKaryawan_null (xs : List JsVal) (x : JsVal) (hx : x ∈ xs)
    (hn : x.notNullish = false) : mapKaryawan xs = none := by
  induction xs with
  | nil => cases hx
  | cons a t ih =>
    rcases List.mem_cons.1 hx with rfl | ht
    · have hnone : normalizeKaryawan x = none := by
        cases x <;> simp [JsVal.notNullish] at hn <;> simp [normalizeKaryawan, propOf]
      simp only [mapKaryawan, hnone]
    · simp only [mapKaryawan, ih ht]
      cases normalizeKaryawan a <;> rfl

theorem normalizeKaryawan_obj (kvs : List (String × JsVal)) :
    normalizeKaryawan (JsVal.obj kvs) = some
      { uid := jsString (((kvs.lookup "uid").getD JsVal.undefined).orElse (JsVal.str ""))
        nama := ((kvs.lookup "nama").getD JsVal.undefined).orElse
          (JsVal.str (jsString (((kvs.lookup "name").getD JsVal.undefined).orElse
            (JsVal.str "")))) } := rfl

theorem orElse_of_falsy (a b : JsVal) (h : a.truthy = false) : a.orElse b = b := by
  simp [JsVal.orElse, h]

theorem orElse_of_truthy (a b : JsVal) (h : a.truthy = true) : a.orElse b = a := by
  simp [JsVal.orElse, h]

theorem truthy_str_empty : (JsVal.str "").truthy = false := rfl

theorem jsString_str (s : String) : jsString (JsVal.str s) = s := by
  simp [jsString]

/-- A numeric `uid` is stored as `String` prints the number: `1e21` becomes
`"1e+21"`, `17` becomes `"17"`, and the entry with `uid: 0` is dropped. -/
theorem numeric_uid_samples :
    (fetchKaryawanList initialState (ListResponse.ok (JsVal.arr
        [JsVal.obj [("uid", JsVal.num ((10 : ℚ) ^ 21)), ("nama", JsVal.str "Big")],
          JsVal.obj [("uid", JsVal.num 0), ("nama", JsVal.str "Nol")],
          JsVal.obj [("uid", JsVal.num 17), ("nama", JsVal.str "Ani")]]))).karyawanList.map
      (fun k => k.uid) = ["1e+21", "17"] := by
  decide!

/-! ## The update queue -/

/-- C21. Update Queue: after any sequence of events that starts from the
empty queue, the links of the chain are the operations handed to
`enqueueUpdate` in submission order; the record of what ran is the serial
record of the first `k` of them, possibly followed by the entry of operation
`k` (so operations are entered in submission order and none is entered
before the previous one has completed); at most one link is scheduled or
running; and while some link is not settled a step of the queue can happen. -/
theorem update_queue_serial (es : List QueueEvent) (q : ChartQueue)
    (h : runQueue emptyQueue es = some q) :
    q.jobs.map (fun j => j.fn) = submitted es ∧
      (∃ k, q.log = serialLog ((submitted es).take k) ∨
        ∃ f, (submitted es)[k]? = some f ∧
          q.log = serialLog ((submitted es).take k) ++ [LogEntry.started f]) ∧
      q.jobs.countP
          (fun j => decide (j.status = JobStatus.scheduled ∨ j.status = JobStatus.running)) ≤ 1 ∧
      ((∃ j ∈ q.jobs, j.status ≠ JobStatus.settled) →
        ∃ i, (queueStep q (QueueEvent.thenCallback i)).isSome = true ∨
          (queueStep q (QueueEvent.nextTick i)).isSome = true ∨
          (queueStep q (QueueEvent.settle i)).isSome = true) := by
  have hinv := queueInv_run es emptyQueue q queueInv_empty h
  have hfns : q.jobs.map (fun j => j.fn) = submitted es := by
    have := runQueue_fns es emptyQueue q h
    simpa [emptyQueue] using this
  refine ⟨hfns, ?_, queueInv_in_flight q hinv, queueInv_progress q hinv⟩
  rw [← hfns]
  exact queueInv_log q hinv

/-- An instance of C21: three operations submitted in rapid succession run as
1, 2, 3, each completed before the next is entered. -/
theorem update_queue_serial_witness :
    runQueue emptyQueue threeUpdates = some threeUpdatesDone ∧
      threeUpdatesDone.jobs.map (fun j => j.fn) = submitted threeUpdates :=
  ⟨by decide, (update_queue_serial threeUpdates threeUpdatesDone (by decide)).1⟩

/-! ## Series lengths of the well/unwell chart -/

/-- C22 at its failing input: the payload with one month, two `well_counts`
and no `unwell_counts` passes the gate, `prepareWellUnwellChart` renders it
(the template shows the chart on the well tab), and the `Well` series has two
points and the `Unwell` series none against one category. -/
theorem well_unwell_lengths_unaligned :
    wellGate unalignedWellPayload = true ∧
      wellChartShown { prepareWellUnwellChart initialState unalignedWellPayload with tab := "well" }
        = true ∧
      (prepareWellUnwellChart initialState unalignedWellPayload).wellUnwellSeries.map
          (fun s => (s.name, s.data.length)) = [("Well", 2), ("Unwell", 0)] ∧
      (prepareWellUnwellChart initialState unalignedWellPayload).wellUnwellOptions.map
          (fun o => o.categories.length) = some 1 := by
  decide

/-! ## The employee list -/

/-- C23 fails as stated: an entry with a `uid` and a `name` but no `nama` is
kept. -/
theorem karyawan_name_fallback_kept :
    ([("uid", JsVal.str "u1"), ("name", JsVal.str "Budi")] : List (String × JsVal)).lookup "nama"
        = none ∧
      (fetchKaryawanList initialState (ListResponse.ok (JsVal.arr
        [JsVal.obj [("uid", JsVal.str "u1"), ("name", JsVal.str "Budi")]]))).karyawanList.map
          (fun k => k.uid) = ["u1"] :=
  ⟨rfl, by decide⟩

/-- C23 amended. For an employee-list response that is a bare array or an
object with a `karyawan` array, and whose entries are not `null`,
`fetchKaryawanList` keeps, in response order, exactly the entries whose
normal form `{ uid: String(x.uid || ''), nama: x.nama || String(x.name || '') }`
has a non-empty `uid` and a truthy `nama`: an entry without (truthy) `uid` is
dropped, an entry without `nama` and without `name` is dropped, an entry with
a string `uid` and a `nama` is kept as `{uid, nama}`, and an entry with a
string `uid`, no `nama` but a string `name` is kept with that name as `nama`. -/
theorem fetchKaryawanList_keeps (st : State) (json : JsVal) (xs : List JsVal)
    (hjson : json = JsVal.arr xs ∨
      ∃ kvs, json = JsVal.obj kvs ∧ kvs.lookup "karyawan" = some (JsVal.arr xs))
    (hxs : ∀ x ∈ xs, x.notNullish = true) :
    (fetchKaryawanList st (ListResponse.ok json)).karyawanList =
        xs.filterMap (fun x => (normalizeKaryawan x).filter keepKaryawan) ∧
      (∀ kvs, ((kvs.lookup "uid").getD JsVal.undefined).truthy = false →
        (normalizeKaryawan (JsVal.obj kvs)).filter keepKaryawan = none) ∧
      (∀ kvs, ((kvs.lookup "nama").getD JsVal.undefined).truthy = false →
        ((kvs.lookup "name").getD JsVal.undefined).truthy = false →
        (normalizeKaryawan (JsVal.obj kvs)).filter keepKaryawan = none) ∧
      (∀ kvs u nama, kvs.lookup "uid" = some (JsVal.str u) → u ≠ "" →
        kvs.lookup "nama" = some nama → nama.truthy = true →
        (normalizeKaryawan (JsVal.obj kvs)).filter keepKaryawan = some ⟨u, nama⟩) ∧
      (∀ kvs u n, kvs.lookup "uid" = some (JsVal.str u) → u ≠ "" →
        ((kvs.lookup "nama").getD JsVal.undefined).truthy = false →
        kvs.lookup "name" = some (JsVal.str n) → n ≠ "" →
        (normalizeKaryawan (JsVal.obj kvs)).filter keepKaryawan = some ⟨u, JsVal.str n⟩) := by
  have harr : karyawanArray json = some xs := by
    rcases hjson with rfl | ⟨kvs, rfl, hk⟩
    · rfl
    · simp [karyawanArray, JsVal.isArray, propOf, hk, JsVal.orElse, JsVal.truthy]
  obtain ⟨ks, hks, hf⟩ := mapKaryawan_filter xs hxs
  refine ⟨?_, ?_, ?_, ?_, ?_⟩
  · simp only [fetchKaryawanList, harr, hks, hf]
  · intro kvs hu
    rw [normalizeKaryawan_obj, orElse_of_falsy _ _ hu]
    simp [jsString_str, Option.filter, keepKaryawan]
  · intro kvs hn hm
    rw [normalizeKaryawan_obj, orElse_of_falsy _ _ hn, orElse_of_falsy _ _ hm]
    simp [jsString_str, Option.filter, keepKaryawan, truthy_str_empty]
  · intro kvs u nama hu hu0 hn hnt
    have hut : (JsVal.str u).truthy = true := by simp [JsVal.truthy, hu0]
    rw [normalizeKaryawan_obj, hu, hn]
    simp only [Option.getD_some]
    rw [orElse_of_truthy _ _ hut, orElse_of_truthy _ _ hnt]
    simp [jsString_str, Option.filter, keepKaryawan, hu0, hnt]
  · intro kvs u n hu hu0 hn hm hm0
    have hut : (JsVal.str u).truthy = true := by simp [JsVal.truthy, hu0]
    have hmt : (JsVal.str n).truthy = true := by simp [JsVal.truthy, hm0]
    rw [normalizeKaryawan_obj, hu, hm, orElse_of_falsy _ _ hn]
    simp only [Option.getD_some]
    rw [orElse_of_truthy _ _ hut, orElse_of_truthy _ _ hmt]
    simp [jsString_str, Option.filter, keepKaryawan, hu0, hmt]

/-- An instance of C23 amended: of four entries the two complete ones stay. -/
theorem fetchKaryawanList_keeps_witness :
    (exampleKaryawanJson = JsVal.arr exampleKaryawanJson.elems ∨
      ∃ kvs, exampleKaryawanJson = JsVal.obj kvs ∧
        kvs.lookup "karyawan" = some (JsVal.arr exampleKaryawanJson.elems)) ∧
      (∀ x ∈ exampleKaryawanJson.elems, x.notNullish = true) ∧
      (fetchKaryawanList initialState (ListResponse.ok exampleKaryawanJson)).karyawanList.map
        (fun k => k.uid) = ["u1", "u4"] := by
  have h1 : exampleKaryawanJson = JsVal.arr exampleKaryawanJson.elems ∨
      ∃ kvs, exampleKaryawanJson = JsVal.obj kvs ∧
        kvs.lookup "karyawan" = some (JsVal.arr exampleKaryawanJson.elems) := Or.inl rfl
  have h2 : ∀ x ∈ exampleKaryawanJson.elems, x.notNullish = true := by decide
  refine ⟨h1, h2, ?_⟩
  rw [(fetchKaryawanList_keeps initialState exampleKaryawanJson _ h1 h2).1]
  decide

/-! ## Failed reference-list fetches -/

/-- C24. A failed reference-list fetch yields an empty list and the methods
always complete: when the request or the parsing fails, `fetchLokasiList`
sets `lokasiList` to `[]` and `fetchKaryawanList` sets `karyawanList` to `[]`,
changing nothing else; the same holds for a `null` body; a location response
that is a bare array is stored as it is, an object whose `lokasi` field is an
array gives that array, and an object without that field gives `[]`. -/
theorem reference_list_fallback (st : State) :
    fetchLokasiList st ListResponse.failed = { st with lokasiList := JsVal.arr [] } ∧
      fetchKaryawanList st ListResponse.failed = { st with karyawanList := [] } ∧
      fetchLokasiList st (ListResponse.ok JsVal.null) = { st with lokasiList := JsVal.arr [] } ∧
      fetchKaryawanList st (ListResponse.ok JsVal.null) = { st with karyawanList := [] } ∧
      (∀ xs, fetchLokasiList st (ListResponse.ok (JsVal.arr xs))
        = { st with lokasiList := JsVal.arr xs }) ∧
      (∀ kvs xs, kvs.lookup "lokasi" = some (JsVal.arr xs) →
        fetchLokasiList st (ListResponse.ok (JsVal.obj kvs))
          = { st with lokasiList := JsVal.arr xs }) ∧
      (∀ kvs, kvs.lookup "lokasi" = none →
        fetchLokasiList st (ListResponse.ok (JsVal.obj kvs))
          = { st with lokasiList := JsVal.arr [] }) := by
  refine ⟨rfl, rfl, rfl, rfl, fun xs => rfl, ?_, ?_⟩
  · intro kvs xs h
    simp [fetchLokasiList, JsVal.isArray, propOf, h, JsVal.orElse, JsVal.truthy]
  · intro kvs h
    simp [fetchLokasiList, JsVal.isArray, propOf, h, JsVal.orElse, JsVal.truthy]

/-- An instance of C24: an object with a `lokasi` array and an object without
that field. -/
theorem reference_list_fallback_witness :
    (fetchLokasiList initialState (ListResponse.ok
        (JsVal.obj [("lokasi", JsVal.arr [JsVal.str "Jakarta", JsVal.str "Bandung"])]))).lokasiList
        = JsVal.arr [JsVal.str "Jakarta", JsVal.str "Bandung"] ∧
      (fetchLokasiList initialState (ListResponse.ok
        (JsVal.obj [("count", JsVal.num 2)]))).lokasiList = JsVal.arr [] :=
  ⟨congrArg State.lokasiList
      ((reference_list_fallback initialState).2.2.2.2.2.1
        [("lokasi", JsVal.arr [JsVal.str "Jakarta", JsVal.str "Bandung"])]
        [JsVal.str "Jakarta", JsVal.str "Bandung"] rfl),
    congrArg State.lokasiList
      ((reference_list_fallback initialState).2.2.2.2.2.2 [("count", JsVal.num 2)] rfl)⟩

/-! ## The query of `fetchData` -/

/-- C25. For every filter state `fetchData` issues exactly one metric request;
its query holds exactly the four parameters `month_from`, `month_to`,
`lokasi` and `uid`, in that order, carrying `start_month`, `end_month`,
`lokasi` and `karyawan_uid` (the empty string when the filter is unset); the
request goes to the health-metrics endpoint if and only if `tab` is
`'health'`, and to the well/unwell endpoint otherwise. -/
theorem fetchData_request (apiBase : String) (st : State) :
    (∃ r, fetchDataRequests apiBase st = [r] ∧
      r.params = [("month_from", st.filters.start_month), ("month_to", st.filters.end_month),
        ("lokasi", st.filters.lokasi), ("uid", st.filters.karyawan_uid)] ∧
      r.params.map Prod.fst = ["month_from", "month_to", "lokasi", "uid"] ∧
      (r.path = apiBase ++ "/grafik/health-metrics-summary/" ↔ st.tab = "health") ∧
      (r.path = apiBase ++ "/grafik/well-unwell-summary/" ↔ st.tab ≠ "health")) := by
  have hne : ∀ a : String, a ++ "/grafik/health-metrics-summary/" ≠ a ++ "/grafik/well-unwell-summary/" := by
    intro a h
    have h1 := congrArg String.data h
    simp only [String.data_append] at h1
    have h2 := List.append_cancel_left h1
    revert h2
    decide
  by_cases ht : st.tab = "health"
  · refine ⟨⟨apiBase ++ "/grafik/health-metrics-summary/", fetchParams st⟩,
      by simp only [fetchDataRequests, ht, if_true], rfl, rfl, ?_, ?_⟩
    · exact ⟨fun _ => ht, fun _ => rfl⟩
    · exact ⟨fun h => absurd h (hne apiBase), fun h => absurd ht h⟩
  · refine ⟨⟨apiBase ++ "/grafik/well-unwell-summary/", fetchParams st⟩,
      by simp only [fetchDataRequests, ht, if_false], rfl, rfl, ?_, ?_⟩
    · exact ⟨fun h => absurd h.symm (hne apiBase), fun h => absurd h ht⟩
    · exact ⟨fun _ => ht, fun _ => rfl⟩

/-! ## Idempotence of emphasis -/

/-- C26. `updateMetricOpacity` is idempotent and preserves the data: applying it
twice gives the same state (hence the same `chartSeries` and `chartOptions`)
as applying it once, and it keeps every series' name, data and base colour,
the number and order of the series, the x-axis categories and the active
metric. -/
theorem updateMetricOpacity_idempotent (st : State) :
    updateMetricOpacity (updateMetricOpacity st) = updateMetricOpacity st ∧
      (updateMetricOpacity st).chartSeries.map (fun s => (s.name, s.data, s.color))
        = st.chartSeries.map (fun s => (s.name, s.data, s.color)) ∧
      (updateMetricOpacity st).chartSeries.length = st.chartSeries.length ∧
      (updateMetricOpacity st).chartOptions.map (fun o => o.categories)
        = st.chartOptions.map (fun o => o.categories) ∧
      (updateMetricOpacity st).activeMetric = st.activeMetric := by
  refine ⟨?_, ?_, ?_, ?_, rfl⟩
  · cases ho : st.chartOptions with
    | none => simp [updateMetricOpacity, ho, List.map_map, Function.comp_def]
    | some o => simp [updateMetricOpacity, ho, List.map_map, Function.comp_def]
  · simp [updateMetricOpacity, List.map_map, Function.comp_def]
  · simp [updateMetricOpacity]
  · cases ho : st.chartOptions with
    | none => simp [updateMetricOpacity, ho]
    | some o => simp [updateMetricOpacity, ho]

end GrafikManager
